import Mathlib

/-! bccmd: the PS-key commands of `tools/bccmd.c`

A shallow embedding of the persistent-store commands of `tools/bccmd.c`
(`cmd_psget`, `cmd_psset`, `cmd_psclr`, `cmd_pslist`, `cmd_psread`) together
with the C library routines they call, followed by theorems about them.

Conventions of the embedding:

* a C string is the list of its character codes (the bytes before the NUL);
* `uint8_t`, `uint16_t` and `uint32_t` stores are `% 256`, `% 65536` and
  `% 4294967296`; `int` results of the transport are `Int`;
* the backends (`csr_read_*`, `csr_write_*`), `getopt_long`, the width of
  `long` and the numeric values of the `CSR_PSKEY_*` constants live outside
  `bccmd.c`; they are the fields of `Env`;
* the `while (1)` loops take a fuel argument and return `none` when the fuel
  is used up before the loop is left.
-/

namespace Bccmd

/-! # Embedding -/

/-! ## C library -/

/-- A C string: the character codes that precede the terminating NUL. -/
abbrev CStr := List Nat

/-- The C string of a string literal. -/
def cstr (s : String) : CStr := s.toList.map Char.toNat

/-- `tolower` in the C locale. -/
def tolower (c : Nat) : Nat := if 65 ≤ c ∧ c ≤ 90 then c + 32 else c

/-- `isspace` in the C locale: space, `\t`, `\n`, `\v`, `\f`, `\r`. -/
def isspace (c : Nat) : Bool := decide (c = 32) || (decide (9 ≤ c) && decide (c ≤ 13))

/-- `strcasecmp`: the difference of the first pair of characters that differ
after `tolower`, the end of a string reading as the NUL character. -/
def strcasecmp : CStr → CStr → Int
  | [], b => 0 - (tolower (b.headD 0) : Int)
  | x :: xs, b =>
    if tolower x ≠ tolower (b.headD 0) then (tolower x : Int) - (tolower (b.headD 0) : Int)
    else if tolower x = 0 then 0
    else strcasecmp xs b.tail

/-- `strncasecmp`: as `strcasecmp`, over at most `n` characters. -/
def strncasecmp : CStr → CStr → Nat → Int
  | _, _, 0 => 0
  | a, b, n + 1 =>
    if tolower (a.headD 0) ≠ tolower (b.headD 0) then
      (tolower (a.headD 0) : Int) - (tolower (b.headD 0) : Int)
    else if tolower (a.headD 0) = 0 then 0
    else strncasecmp a.tail b.tail n

/-- The value of a character as a digit (`0-9`, `a-z`, `A-Z`), as `strtol` reads it. -/
def digitVal (c : Nat) : Option Nat :=
  if 48 ≤ c ∧ c ≤ 57 then some (c - 48)
  else if 97 ≤ c ∧ c ≤ 122 then some (c - 87)
  else if 65 ≤ c ∧ c ≤ 90 then some (c - 55)
  else none

/-- The digit loop of `strtol`: accumulates digits below `base`, stops at the
first other character. -/
def strtol_digits (base : Nat) : CStr → Nat → Nat
  | [], acc => acc
  | c :: cs, acc =>
    match digitVal c with
    | some d => if d < base then strtol_digits base cs (acc * base + d) else acc
    | none => acc

/-- The optional sign of `strtol`'s subject sequence. -/
def strtol_sign : CStr → Bool × CStr
  | 45 :: r => (true, r)
  | 43 :: r => (false, r)
  | s => (false, s)

/-- The optional `0x`/`0X` of `strtol`'s subject sequence in base 16 (taken
only when a hexadecimal digit follows). -/
def strtol_0x (base : Nat) : CStr → CStr
  | 48 :: x :: d :: r =>
    if base = 16 ∧ (x = 120 ∨ x = 88) ∧ (digitVal d).any (fun v => decide (v < 16)) then d :: r
    else 48 :: x :: d :: r
  | s => s

/-- `strtol(s, NULL, base)` for a `long` whose largest value is `long_max`:
leading white space, an optional sign, in base 16 an optional `0x`, then the
digits; a value out of range is replaced by `LONG_MAX` or `LONG_MIN`. -/
def strtol (long_max : Nat) (s : CStr) (base : Nat) : Int :=
  let p := strtol_sign (s.dropWhile isspace)
  let v := strtol_digits base (strtol_0x base p.2) 0
  if p.1 then (if long_max + 1 < v then - ((long_max : Int) + 1) else - (v : Int))
  else (if long_max < v then (long_max : Int) else (v : Int))

/-- Conversion of an integer to `int` (32 bits, two's complement). -/
def to_int (x : Int) : Int := (x + 2147483648) % 4294967296 - 2147483648

/-- `atoi(s)`, that is `(int) strtol(s, NULL, 10)`. -/
def atoi (long_max : Nat) (s : CStr) : Int := to_int (strtol long_max s 10)

/-- Conversion of an integer to `uint8_t`. -/
def to_u8 (x : Int) : Nat := (x % 256).toNat

/-- Conversion of an integer to `uint16_t`. -/
def to_u16 (x : Int) : Nat := (x % 65536).toNat

/-- Conversion of an integer to `uint32_t`. -/
def to_u32 (x : Int) : Nat := (x % 4294967296).toNat

/-! ## Constants of `bccmd.c` -/

def CSR_TRANSPORT_UNKNOWN : Nat := 0
def CSR_TRANSPORT_HCI : Nat := 1
def CSR_TRANSPORT_USB : Nat := 2
def CSR_TRANSPORT_BCSP : Nat := 3
def CSR_TRANSPORT_H4 : Nat := 4
def CSR_TRANSPORT_3WIRE : Nat := 5

def CSR_STORES_PSI : Nat := 0x0001
def CSR_STORES_PSF : Nat := 0x0002
def CSR_STORES_PSROM : Nat := 0x0004
def CSR_STORES_PSRAM : Nat := 0x0008
def CSR_STORES_DEFAULT : Nat := CSR_STORES_PSI ||| CSR_STORES_PSF

/-- The `errno` value `EIO` (Linux numbering, as for the three that follow). -/
def EIO : Nat := 5

/-- The `errno` value `E2BIG`. -/
def E2BIG : Nat := 7

/-- The `errno` value `EINVAL`. -/
def EINVAL : Nat := 22

/-- The `errno` value `EOPNOTSUPP`. -/
def EOPNOTSUPP : Nat := 95

/-- The operation identifiers `CSR_VARID_*`. Their numeric values are declared
in `csr.h`; the commands only pass them on to the backend, so they are kept
symbolic. -/
inductive Varid
  | BT_CLOCK | CHIPREV | COLD_RESET | CRYPT_KEY_LENGTH | DISABLE_TX | ENABLE_TX
  | FAULT_ARG | GET_NEXT_BUILDDEF | HOPPING_ON | PANIC_ARG | PS | PS_CLR_STORES
  | PS_MEMORY_TYPE | PS_NEXT | PS_SIZE | RADIOTEST | RAND | READ_BUILD_NAME
  | SINGLE_CHAN | WARM_RESET
  deriving DecidableEq, Repr

/-- The `CSR_PSKEY_*` constants used by the `storage` table. Their numeric
values are declared in `csr.h` and enter through `Env.pskey`. -/
inductive CsrPskey
  | BDADDR | COUNTRYCODE | CLASSOFDEVICE | ENC_KEY_LMIN | ENC_KEY_LMAX
  | LOCAL_SUPPORTED_FEATURES | LOCAL_SUPPORTED_COMMANDS | HCI_LMP_LOCAL_VERSION
  | LMP_REMOTE_VERSION | HOSTIO_USE_HCI_EXTN | HOSTIO_MAP_SCO_PCM | UART_BAUDRATE
  | HOST_INTERFACE | ANA_FREQ | ANA_FTRIM | USB_VENDOR_ID | USB_PRODUCT_ID
  | USB_DFU_PRODUCT_ID | INITIAL_BOOTMODE
  deriving DecidableEq, Repr

/-- The name column of the `storage` table, in the order of the table. -/
def storage_names : List (CsrPskey × String) :=
  [ (.BDADDR, "bdaddr"), (.COUNTRYCODE, "country"), (.CLASSOFDEVICE, "devclass"),
    (.ENC_KEY_LMIN, "keymin"), (.ENC_KEY_LMAX, "keymax"),
    (.LOCAL_SUPPORTED_FEATURES, "features"), (.LOCAL_SUPPORTED_COMMANDS, "commands"),
    (.HCI_LMP_LOCAL_VERSION, "version"), (.LMP_REMOTE_VERSION, "remver"),
    (.HOSTIO_USE_HCI_EXTN, "hciextn"), (.HOSTIO_MAP_SCO_PCM, "mapsco"),
    (.UART_BAUDRATE, "baudrate"), (.HOST_INTERFACE, "hostintf"), (.ANA_FREQ, "anafreq"),
    (.ANA_FTRIM, "anaftrim"), (.USB_VENDOR_ID, "usbvid"), (.USB_PRODUCT_ID, "usbpid"),
    (.USB_DFU_PRODUCT_ID, "dfupid"), (.INITIAL_BOOTMODE, "bootmode") ]

/-- One row of the `storage` table: the `uint16_t pskey` field and the name
(the `type` and `size` columns are not read by the commands modelled here). -/
structure StorageEntry where
  pskey : Nat
  str : CStr
  deriving DecidableEq, Repr

/-- The `storage` table for given values of the `CSR_PSKEY_*` constants,
closed by the `{ 0x0000 }` row. -/
def storage (ids : CsrPskey → Nat) : List StorageEntry :=
  storage_names.map (fun e => { pskey := ids e.1 % 65536, str := cstr e.2 })
    ++ [{ pskey := 0, str := [] }]

/-- The table scan shared by `cmd_psget`, `cmd_psset` and `cmd_psclr`:
`for (i = 0; storage[i].pskey; i++)` with `continue` on a name that differs
and `pskey = storage[i].pskey; break` on the first name that matches. -/
def storage_scan (token : CStr) (pskey : Nat) : List StorageEntry → Nat
  | [] => pskey
  | e :: rest =>
    if e.pskey = 0 then pskey
    else if strcasecmp e.str token ≠ 0 then storage_scan token pskey rest
    else e.pskey

/-- The key resolution block of `cmd_psget`, `cmd_psset` and `cmd_psclr`
(the same text in the three commands): the value left in `pskey`. -/
def resolve_pskey (long_max : Nat) (ids : CsrPskey → Nat) (token : CStr) : Nat :=
  if strncasecmp token (cstr "0x") 2 ≠ 0 then
    storage_scan token (to_u16 (atoi long_max token)) (storage ids)
  else
    to_u16 (strtol long_max (token.drop 2) 16)

/-! ## Environment, transport and option parsing -/

/-- What `bccmd.c` takes from outside: the largest `long`, whether
`HAVE_LIBUSB` is defined, the values of the `CSR_PSKEY_*` constants,
`getopt_long` (for an argument vector and an option string: the options it
returns before `EOF`, each with its `optarg`, and the final `optind`), the
backends `csr_read_*` / `csr_write_*` (transport kind, operation identifier,
buffer, length, chip state; result, buffer afterwards, chip state),
`csr_open_*` (transport kind, device or `NULL`, chip state; result, chip
state) and `csr_close_*`, and the record file reader of `csr.c`: `psr_read`
for a file name gives its result and the records `(pskey, value bytes)` that
the following calls of `psr_get` deliver, one per call, before `psr_get`
returns nonzero. -/
structure Env (σ : Type) where
  long_max : Nat
  have_libusb : Bool
  pskey : CsrPskey → Nat
  getopt_long : List CStr → CStr → List (Nat × CStr) × Nat
  csr_read : Nat → Varid → List Nat → Nat → σ → (Int × List Nat) × σ
  csr_write : Nat → Varid → List Nat → Nat → σ → Int × σ
  csr_open : Nat → Option CStr → σ → Int × σ
  csr_close : Nat → σ → σ
  psr_read : CStr → Int × List (Nat × List Nat)

/-- A call that reached a backend: for a read or a write the operation
identifier, the buffer as passed and the length; for an open the transport
kind and the device; for a close the transport kind. -/
inductive Event
  | read (varid : Varid) (value : List Nat) (length : Nat)
  | write (varid : Varid) (value : List Nat) (length : Nat)
  | open_dev (transport : Nat) (device : Option CStr)
  | close_dev (transport : Nat)
  deriving DecidableEq, Repr

/-- A line printed by a PS command, by its `printf` arguments: the key, then
the value (`cmd_psget`, one and two words), the bytes in the order they are
printed (`cmd_psget` array, `cmd_psread`), the byte count (`cmd_pslist`), or
whether the write was done or failed (`cmd_psload`, per record and for the
warm reset); the heading and the identifiers printed by `cmd_builddef`; the 64
bytes `cmd_buildname` copies into `name` (`none` for a byte read from outside
the `array`); the value printed by `cmd_clock`. -/
inductive Line
  | psget16 (pskey value : Nat)
  | psget32 (pskey val32 : Nat)
  | psget_array (pskey : Nat) (bytes : List (Nat × Nat))
  | pslist (pskey bytes : Nat)
  | psread (pskey : Nat) (bytes : List (Nat × Nat))
  | psload (pskey : Nat) (done : Bool)
  | psload_reset (done : Bool)
  | builddef_header
  | builddef (defn : Nat)
  | buildname (name : List (Option Nat))
  | clock (clock : Nat)
  deriving DecidableEq, Repr

/-- The state a command runs in: the chip behind the backend, `errno` as last
stored by `bccmd.c`, the backend calls made so far and the lines printed so far. -/
structure World (σ : Type) where
  chip : σ
  errno : Nat
  trace : List Event
  out : List Line

/-- The result of `transport_read`: return value, buffer afterwards, state. -/
structure ReadResult (σ : Type) where
  err : Int
  array : List Nat
  world : World σ

/-- The `case` labels of the transport switches that have a backend. -/
def transport_supported (have_libusb : Bool) (transport : Nat) : Bool :=
  decide (transport = CSR_TRANSPORT_HCI)
    || (have_libusb && decide (transport = CSR_TRANSPORT_USB))
    || decide (transport = CSR_TRANSPORT_BCSP)
    || decide (transport = CSR_TRANSPORT_H4)
    || decide (transport = CSR_TRANSPORT_3WIRE)

/-- A `uint8_t` array of `n` elements holding what the backend left in it. -/
def fixbuf (n : Nat) (buf : List Nat) : List Nat :=
  (buf.map (fun b => b % 256) ++ List.replicate n 0).take n

/-- Code of `transport_read`. -/
def transport_read {σ : Type} (E : Env σ) (transport : Nat) (varid : Varid)
    (value : List Nat) (length : Nat) (w : World σ) : ReadResult σ :=
  if transport_supported E.have_libusb transport then
    let r := E.csr_read transport varid value length w.chip
    { err := r.1.1, array := fixbuf value.length r.1.2,
      world := { w with chip := r.2, trace := w.trace ++ [Event.read varid value length] } }
  else
    { err := -1, array := value, world := { w with errno := EOPNOTSUPP } }

/-- Code of `transport_write`. -/
def transport_write {σ : Type} (E : Env σ) (transport : Nat) (varid : Varid)
    (value : List Nat) (length : Nat) (w : World σ) : Int × World σ :=
  if transport_supported E.have_libusb transport then
    let r := E.csr_write transport varid value length w.chip
    (r.1, { w with chip := r.2, trace := w.trace ++ [Event.write varid value length] })
  else
    (-1, { w with errno := EOPNOTSUPP })

/-- `array[i] = v` on a `uint8_t` array. -/
def put (array : List Nat) (i v : Nat) : List Nat := array.set i (v % 256)

/-- `memset(array, 0, sizeof(array))` on a `uint8_t array[n]`. -/
def memset0 (n : Nat) : List Nat := List.replicate n 0

/-- The value `case 's'` of `opt_pskey` stores in `*stores`. -/
def opt_pskey_stores (long_max : Nat) (optarg : CStr) : Nat :=
  if strcasecmp optarg (cstr "default") = 0 then 0x0000
  else if strcasecmp optarg (cstr "implementation") = 0 then 0x0001
  else if strcasecmp optarg (cstr "factory") = 0 then 0x0002
  else if strcasecmp optarg (cstr "rom") = 0 then 0x0004
  else if strcasecmp optarg (cstr "ram") = 0 then 0x0008
  else if strcasecmp optarg (cstr "psi") = 0 then 0x0001
  else if strcasecmp optarg (cstr "psf") = 0 then 0x0002
  else if strcasecmp optarg (cstr "psrom") = 0 then 0x0004
  else if strcasecmp optarg (cstr "psram") = 0 then 0x0008
  else if strncasecmp optarg (cstr "0x") 2 = 0 then to_u16 (strtol long_max optarg 16)
  else to_u16 (atoi long_max optarg)

/-- The `switch` of `opt_pskey`, called with `&stores`, `&reset` and a `NULL`
`help`, for one option returned by `getopt_long`. -/
def opt_pskey_step (long_max : Nat) (st : Nat × Bool) (o : Nat × CStr) : Nat × Bool :=
  if o.1 = 115 then (opt_pskey_stores long_max o.2, st.2)
  else if o.1 = 114 then (st.1, true)
  else st

/-- Code of `opt_pskey` as the PS commands call it: the values left in
`stores` and `reset`, and the returned `optind`. -/
def opt_pskey {σ : Type} (E : Env σ) (argv : List CStr) (stores : Nat) (reset : Bool) :
    Nat × Bool × Nat :=
  let g := E.getopt_long argv (cstr "+s:rh")
  let st := g.1.foldl (opt_pskey_step E.long_max) (stores, reset)
  (st.1, st.2, g.2)

/-- The macro `OPT_RANGE(min, max)` on the arguments left: the `errno` it
stores when it returns -1. -/
def OPT_RANGE (min max : Nat) (argv : List CStr) : Option Nat :=
  if argv.length < min then some EINVAL
  else if argv.length > max then some E2BIG
  else none

/-- The request built by `memset(array, 0, sizeof(array)); array[0] = x & 0xff;
array[1] = x >> 8; array[2] = y & 0xff; array[3] = y >> 8;` on an array of `n`
bytes (size query, enumerate-next and clear-stores, with `x` the key and `y`
the store mask). -/
def frame4 (n x y : Nat) : List Nat :=
  put (put (put (put (memset0 n) 0 (x &&& 0xff)) 1 (x >>> 8)) 2 (y &&& 0xff)) 3 (y >>> 8)

/-- The request built by `memset(array, 0, sizeof(array)); array[0] = pskey & 0xff;
array[1] = pskey >> 8; array[2] = length & 0xff; array[3] = length >> 8;
array[4] = stores & 0xff; array[5] = stores >> 8;` on an array of `n` bytes. -/
def frame6 (n pskey length stores : Nat) : List Nat :=
  put (put (frame4 n pskey length) 4 (stores &&& 0xff)) 5 (stores >>> 8)

/-- The `uint16_t` read by `array[i] + (array[i + 1] << 8)`. -/
def get16 (array : List Nat) (i : Nat) : Nat :=
  (array.getD i 0 + (array.getD (i + 1) 0 <<< 8)) % 65536

/-! ## `cmd_psget` -/

/-- The expression of `case 1` of `cmd_psget`: `array[6] | (array[7] << 8)`,
stored in the `uint16_t value`. -/
def psget_value (array : List Nat) : Nat :=
  (array.getD 6 0 ||| (array.getD 7 0 <<< 8)) % 65536

/-- The expression of `case 2` of `cmd_psget`:
`array[8] | (array[9] << 8) | (array[6] << 16) | (array[7] << 24)`, stored in
the `uint32_t val32`. -/
def psget_val32 (array : List Nat) : Nat :=
  (array.getD 8 0 ||| (array.getD 9 0 <<< 8) ||| (array.getD 6 0 <<< 16)
    ||| (array.getD 7 0 <<< 24)) % 4294967296

/-- The `switch (length)` of `cmd_psget`: the line printed. -/
def psget_print (pskey length : Nat) (array : List Nat) : Line :=
  if length = 1 then Line.psget16 pskey (psget_value array)
  else if length = 2 then Line.psget32 pskey (psget_val32 array)
  else Line.psget_array pskey
    ((List.range length).map (fun i => (array.getD (i * 2 + 6) 0, array.getD (i * 2 + 7) 0)))

/-- The `if (reset) transport_write(transport, CSR_VARID_WARM_RESET, NULL, 0);`
that closes the PS commands. -/
def reset_write {σ : Type} (E : Env σ) (transport : Nat) (reset : Bool) (w : World σ) :
    World σ :=
  if reset then (transport_write E transport Varid.WARM_RESET [] 0 w).2 else w

/-- Code of `cmd_psget`: the return value and the state afterwards. -/
def cmd_psget {σ : Type} (E : Env σ) (transport : Nat) (argv : List CStr) (w : World σ) :
    Int × World σ :=
  let o := opt_pskey E argv CSR_STORES_DEFAULT false
  let stores := o.1
  let reset := o.2.1
  let argv := argv.drop o.2.2
  match OPT_RANGE 1 1 argv with
  | some e => (-1, { w with errno := e })
  | none =>
    let pskey := resolve_pskey E.long_max E.pskey (argv.headD [])
    let r := transport_read E transport Varid.PS_SIZE (frame4 128 pskey stores) 8 w
    if r.err < 0 then (r.err, r.world)
    else
      let length := get16 r.array 2
      if length + 6 > 128 / 2 then (- ( EIO : Int), r.world)
      else
        let r2 := transport_read E transport Varid.PS (frame6 128 pskey length stores)
          ((length + 3) * 2) r.world
        if r2.err < 0 then (r2.err, r2.world)
        else
          let w2 := { r2.world with out := r2.world.out ++ [psget_print pskey length r2.array] }
          (r2.err, reset_write E transport reset w2)

/-! ## `cmd_psset` -/

/-- The value read from a token by `if (!strncasecmp(t, "0x", 2)) strtol(s + 2,
NULL, 16) else atoi(s)`, where `t` is the token tested for the hex mark and
`s` the token converted (the C `long` or `int` result, before it is stored).

Domain of the hex branch: `s + 2` is modelled by `s.drop 2`, which is the C
pointer as long as `s` has at least 2 characters before its terminator. In the
scalar cases `t` and `s` are the same token, which then starts with the hex
mark, so this always holds. In the array loop `t` is `argv[0]` and `s` is
`argv[i]`: for a value token of fewer than 2 characters after a hex-marked
first token, `argv[i] + 2` points past the terminator of `argv[i]`, outside
the token, and what `strtol` reads there is whatever the process holds after
it (on the usual layout the following argument), which is not determined by
the source. For such a token the definition gives the value of the empty rest,
0, and does not describe the byte a run stores. -/
def psset_number (long_max : Nat) (t s : CStr) : Int :=
  if strncasecmp t (cstr "0x") 2 = 0 then strtol long_max (s.drop 2) 16
  else atoi long_max s

/-- The stores of `case 1` of `cmd_psset` for the `uint16_t value`:
`array[6] = value & 0xff; array[7] = value >> 8;`. -/
def psset_put16 (array : List Nat) (value : Nat) : List Nat :=
  put (put array 6 (value &&& 0xff)) 7 (value >>> 8)

/-- The stores of `case 2` of `cmd_psset` for the `uint32_t val32`:
`array[6] = (val32 & 0xff0000) >> 16; array[7] = val32 >> 24;
array[8] = val32 & 0xff; array[9] = (val32 & 0xff00) >> 8;`. -/
def psset_put32 (array : List Nat) (val32 : Nat) : List Nat :=
  put (put (put (put array 6 ((val32 &&& 0xff0000) >>> 16)) 7 (val32 >>> 24))
    8 (val32 &&& 0xff)) 9 ((val32 &&& 0xff00) >>> 8)

/-- The loop of the `default` case of `cmd_psset`:
`for (i = 0; i < length * 2; i++) if (!strncasecmp(argv[0], "0x", 2))
array[i + 6] = strtol(argv[i] + 2, NULL, 16); else array[i + 6] = atoi(argv[i]);`. -/
def psset_put_array (long_max : Nat) (argv : List CStr) (length : Nat) (array : List Nat) :
    List Nat :=
  (List.range (length * 2)).foldl
    (fun a i => put a (i + 6) (to_u8 (psset_number long_max (argv.headD []) (argv.getD i []))))
    array

/-- The `switch (length)` of `cmd_psset` on the value tokens `argv` (the
arguments after the key): the `errno` stored when it returns -1, or the frame
with the payload filled in. -/
def psset_payload (long_max : Nat) (length : Nat) (argv : List CStr) (array : List Nat) :
    Except Nat (List Nat) :=
  if length = 1 then
    if argv.length ≠ 1 then Except.error E2BIG
    else Except.ok
      (psset_put16 array (to_u16 (psset_number long_max (argv.headD []) (argv.headD []))))
  else if length = 2 then
    if argv.length ≠ 1 then Except.error E2BIG
    else Except.ok
      (psset_put32 array (to_u32 (psset_number long_max (argv.headD []) (argv.headD []))))
  else
    if argv.length ≠ length * 2 then Except.error EINVAL
    else Except.ok (psset_put_array long_max argv length array)

/-- Code of `cmd_psset`: the return value and the state afterwards. -/
def cmd_psset {σ : Type} (E : Env σ) (transport : Nat) (argv : List CStr) (w : World σ) :
    Int × World σ :=
  let o := opt_pskey E argv CSR_STORES_PSRAM false
  let stores := o.1
  let reset := o.2.1
  let argv := argv.drop o.2.2
  match OPT_RANGE 2 81 argv with
  | some e => (-1, { w with errno := e })
  | none =>
    let pskey := resolve_pskey E.long_max E.pskey (argv.headD [])
    let r := transport_read E transport Varid.PS_SIZE (frame4 128 pskey stores) 8 w
    if r.err < 0 then (r.err, r.world)
    else
      let length := get16 r.array 2
      if length + 6 > 128 / 2 then (- ( EIO : Int), r.world)
      else
        match psset_payload E.long_max length argv.tail (frame6 128 pskey length stores) with
        | Except.error e => (-1, { r.world with errno := e })
        | Except.ok array =>
          let r2 := transport_write E transport Varid.PS array ((length + 3) * 2) r.world
          if r2.1 < 0 then (r2.1, r2.2)
          else (r2.1, reset_write E transport reset r2.2)

/-! ## `cmd_psclr` -/

/-- Code of `cmd_psclr`: the return value and the state afterwards. -/
def cmd_psclr {σ : Type} (E : Env σ) (transport : Nat) (argv : List CStr) (w : World σ) :
    Int × World σ :=
  let o := opt_pskey E argv CSR_STORES_PSRAM false
  let stores := o.1
  let reset := o.2.1
  let argv := argv.drop o.2.2
  match OPT_RANGE 1 1 argv with
  | some e => (-1, { w with errno := e })
  | none =>
    let pskey := resolve_pskey E.long_max E.pskey (argv.headD [])
    let r := transport_write E transport Varid.PS_CLR_STORES (frame4 8 pskey stores) 8 w
    if r.1 < 0 then (r.1, r.2)
    else (r.1, reset_write E transport reset r.2)

/-! ## `cmd_pslist` and `cmd_psread` -/

/-- The `while (1)` loop of `cmd_pslist`, entered with the given `pskey`; one
unit of fuel per iteration, `none` when the fuel runs out inside the loop. -/
def pslist_loop {σ : Type} (E : Env σ) (transport stores : Nat) :
    Nat → Nat → World σ → Option (World σ)
  | 0, _, _ => none
  | fuel + 1, pskey, w =>
    let r := transport_read E transport Varid.PS_NEXT (frame4 8 pskey stores) 8 w
    if r.err < 0 then some r.world
    else
      let pskey := get16 r.array 4
      if pskey = 0x0000 then some r.world
      else
        let r2 := transport_read E transport Varid.PS_SIZE (frame4 8 pskey stores) 8 r.world
        if r2.err < 0 then pslist_loop E transport stores fuel pskey r2.world
        else
          let length := get16 r2.array 2
          pslist_loop E transport stores fuel pskey
            { r2.world with out := r2.world.out ++ [Line.pslist pskey (length * 2)] }

/-- Code of `cmd_pslist`: the return value and the state afterwards, `none`
when the loop is still running after `fuel` iterations. -/
def cmd_pslist {σ : Type} (E : Env σ) (fuel : Nat) (transport : Nat) (argv : List CStr)
    (w : World σ) : Option (Int × World σ) :=
  let o := opt_pskey E argv CSR_STORES_DEFAULT false
  let stores := o.1
  let reset := o.2.1
  let argv := argv.drop o.2.2
  match OPT_RANGE 0 0 argv with
  | some e => some (-1, { w with errno := e })
  | none =>
    match pslist_loop E transport stores fuel 0x0000 w with
    | none => none
    | some w1 => some (0, reset_write E transport reset w1)

/-- The `while (1)` loop of `cmd_psread`, entered with the given `pskey`; one
unit of fuel per iteration, `none` when the fuel runs out inside the loop. -/
def psread_loop {σ : Type} (E : Env σ) (transport stores : Nat) :
    Nat → Nat → World σ → Option (World σ)
  | 0, _, _ => none
  | fuel + 1, pskey, w =>
    let r := transport_read E transport Varid.PS_NEXT (frame4 256 pskey stores) 8 w
    if r.err < 0 then some r.world
    else
      let pskey := get16 r.array 4
      if pskey = 0x0000 then some r.world
      else
        let r2 := transport_read E transport Varid.PS_SIZE (frame4 256 pskey stores) 8 r.world
        if r2.err < 0 then psread_loop E transport stores fuel pskey r2.world
        else
          let length := get16 r2.array 2
          if length + 6 > 256 / 2 then psread_loop E transport stores fuel pskey r2.world
          else
            let r3 := transport_read E transport Varid.PS (frame6 256 pskey length stores)
              ((length + 3) * 2) r2.world
            if r3.err < 0 then psread_loop E transport stores fuel pskey r3.world
            else
              psread_loop E transport stores fuel pskey
                { r3.world with out := r3.world.out ++ [Line.psread pskey
                    ((List.range length).map
                      (fun i => (r3.array.getD (i * 2 + 7) 0, r3.array.getD (i * 2 + 6) 0)))] }

/-- Code of `cmd_psread`: the return value and the state afterwards, `none`
when the loop is still running after `fuel` iterations. -/
def cmd_psread {σ : Type} (E : Env σ) (fuel : Nat) (transport : Nat) (argv : List CStr)
    (w : World σ) : Option (Int × World σ) :=
  let o := opt_pskey E argv CSR_STORES_DEFAULT false
  let stores := o.1
  let reset := o.2.1
  let argv := argv.drop o.2.2
  match OPT_RANGE 0 0 argv with
  | some e => some (-1, { w with errno := e })
  | none =>
    match psread_loop E transport stores fuel 0x0000 w with
    | none => none
    | some w1 => some (0, reset_write E transport reset w1)


/-! ## Simulated environments -/

/-- Sample values for the `CSR_PSKEY_*` constants. -/
def sim_pskey : CsrPskey → Nat
  | .BDADDR => 0x0001 | .COUNTRYCODE => 0x0002 | .CLASSOFDEVICE => 0x0003
  | .ENC_KEY_LMIN => 0x00da | .ENC_KEY_LMAX => 0x00db
  | .LOCAL_SUPPORTED_FEATURES => 0x00ef | .LOCAL_SUPPORTED_COMMANDS => 0x0106
  | .HCI_LMP_LOCAL_VERSION => 0x010d | .LMP_REMOTE_VERSION => 0x010e
  | .HOSTIO_USE_HCI_EXTN => 0x01a5 | .HOSTIO_MAP_SCO_PCM => 0x01ab
  | .UART_BAUDRATE => 0x01be | .HOST_INTERFACE => 0x01f9 | .ANA_FREQ => 0x01fe
  | .ANA_FTRIM => 0x01f6 | .USB_VENDOR_ID => 0x02be | .USB_PRODUCT_ID => 0x02bf
  | .USB_DFU_PRODUCT_ID => 0x02cb | .INITIAL_BOOTMODE => 0x03cd

/-- The backend read of the simulated responder: enumerate-next answers with
the next key of the script (the chip state) in bytes 4-5 and fails once the
script is used up, the size query answers `len` in bytes 2-3, the PS read
returns `payload` from byte 6 on. -/
def sim_read (len : Nat) (payload : List Nat) (_kind : Nat) (varid : Varid)
    (value : List Nat) (_length : Nat) (s : List Nat) : (Int × List Nat) × List Nat :=
  match varid with
  | Varid.PS_NEXT =>
    match s with
    | k :: rest => ((0, [0, 0, 0, 0, k % 256, k / 256 % 256, 0, 0]), rest)
    | [] => ((-1, value), [])
  | Varid.PS_SIZE => ((0, put (put value 2 (len &&& 0xff)) 3 (len >>> 8)), s)
  | Varid.PS => ((0, value.take 6 ++ payload), s)
  | _ => ((0, value), s)

/-- A simulated environment: 32-bit `long`, no option on the command line
(`getopt_long` returns `EOF` at once, `optind` is 1), every write and every
open accepted, no record file. -/
def simEnv (len : Nat) (payload : List Nat) : Env (List Nat) where
  long_max := 2147483647
  have_libusb := false
  pskey := sim_pskey
  getopt_long := fun _ _ => ([], 1)
  csr_read := sim_read len payload
  csr_write := fun _ _ _ _ s => (0, s)
  csr_open := fun _ _ s => (0, s)
  csr_close := fun _ s => s
  psr_read := fun _ => (0, [])

/-- The initial state over a chip state. -/
def World.init {σ : Type} (s : σ) : World σ := { chip := s, errno := 0, trace := [], out := [] }

/-! ## Notions used in the statements -/

/-- The characters of a C string before its first NUL, in lower case. -/
def ckey (t : CStr) : List Nat := (t.takeWhile (fun c => decide (c ≠ 0))).map tolower

/-- The characters of `ds` are all digits of the given base. -/
def all_digits (base : Nat) (ds : CStr) : Prop :=
  ∀ c ∈ ds, ∃ d, digitVal c = some d ∧ d < base

instance all_digits_decidable (base : Nat) (ds : CStr) : Decidable (all_digits base ds) :=
  decidable_of_iff (∀ c ∈ ds, (digitVal c).any (fun d => decide (d < base)) = true) (by
    unfold all_digits
    refine forall_congr' (fun c => forall_congr' (fun _ => ?_))
    cases digitVal c <;> simp)

/-- The number written by the digit characters `ds` in the given base, most
significant digit first. -/
def digits_value (base : Nat) (ds : CStr) : Nat :=
  Nat.ofDigits base ((ds.map (fun c => (digitVal c).getD 0)).reverse)

/-- Byte `i` of a buffer as the backend left it, read as `uint8_t`. -/
def byte (frame : List Nat) (i : Nat) : Nat := frame.getD i 0 % 256

/-- The previous-key fields (bytes 0-1) of the enumerate-next requests of a
trace, in the order they were sent. -/
def next_requests (trace : List Event) : List Nat :=
  trace.filterMap (fun e =>
    match e with
    | Event.read Varid.PS_NEXT value _ => some (get16 value 0)
    | _ => none)

/-- The key fields (bytes 0-1) of the size queries of a trace, in the order
they were sent. -/
def size_requests (trace : List Event) : List Nat :=
  trace.filterMap (fun e =>
    match e with
    | Event.read Varid.PS_SIZE value _ => some (get16 value 0)
    | _ => none)

/-- The successive enumerate-next responses of the backend carry the keys
listed by `script`: whenever the script of the chip state is `k :: rest`, an
enumerate-next read succeeds, returns `k` in bytes 4-5 and leaves a state
whose script is `rest`; every other read leaves the script as it is. -/
def Enumerates {σ : Type} (E : Env σ) (script : σ → List Nat) : Prop :=
  (∀ kind value length s k rest, script s = k :: rest →
    0 ≤ (E.csr_read kind Varid.PS_NEXT value length s).1.1 ∧
    byte (E.csr_read kind Varid.PS_NEXT value length s).1.2 4
      + (byte (E.csr_read kind Varid.PS_NEXT value length s).1.2 5 <<< 8) = k ∧
    script (E.csr_read kind Varid.PS_NEXT value length s).2 = rest) ∧
  (∀ kind varid value length s, varid ≠ Varid.PS_NEXT →
    script (E.csr_read kind varid value length s).2 = script s)

/-- A responder that answers every enumerate-next request with next-key
0x0001 and leaves the buffer of every other read as it is; same command line
and `long` as `simEnv`. -/
def stuckEnv : Env Unit where
  long_max := 2147483647
  have_libusb := false
  pskey := sim_pskey
  getopt_long := fun _ _ => ([], 1)
  csr_read := fun _ varid value _ s =>
    match varid with
    | Varid.PS_NEXT => ((0, [0, 0, 0, 0, 1, 0, 0, 0]), s)
    | _ => ((0, value), s)
  csr_write := fun _ _ _ _ s => (0, s)
  csr_open := fun _ _ s => (0, s)
  csr_close := fun _ s => s
  psr_read := fun _ => (0, [])

/-- The number of value tokens `cmd_psset` accepts for a key of `length`
words, as its `switch (length)` tests it. -/
def psset_tokens (length : Nat) : Nat :=
  if length = 1 then 1 else if length = 2 then 1 else length * 2

/-- The first `n` payload bytes (offsets 6 and up) of each PS write of a trace. -/
def written_payload (n : Nat) (trace : List Event) : List (List Nat) :=
  trace.filterMap (fun e =>
    match e with
    | Event.write Varid.PS value _ => some ((value.drop 6).take n)
    | _ => none)

/-! ## `transport_open` and `transport_close` -/

/-- Code of `transport_open`: the return value and the state afterwards (the
`default` case prints to `stderr` and returns -1). -/
def transport_open {σ : Type} (E : Env σ) (transport : Nat) (device : Option CStr)
    (w : World σ) : Int × World σ :=
  if transport_supported E.have_libusb transport then
    let r := E.csr_open transport device w.chip
    (r.1, { w with chip := r.2, trace := w.trace ++ [Event.open_dev transport device] })
  else
    (-1, w)

/-- Code of `transport_close` (its `switch` has no `default` case). -/
def transport_close {σ : Type} (E : Env σ) (transport : Nat) (w : World σ) : World σ :=
  if transport_supported E.have_libusb transport then
    { w with chip := E.csr_close transport w.chip,
             trace := w.trace ++ [Event.close_dev transport] }
  else
    w

/-! ## `cmd_psload` -/

/-- The buffer `cmd_psload` passes to `transport_write` for one record: the
zeroed `array[256]` with the value bytes left by `psr_get` from offset 6 on,
then `array[0] = pskey & 0xff; array[1] = pskey >> 8; array[2] = length & 0xff;
array[3] = length >> 8; array[4] = stores & 0xff; array[5] = stores >> 8;`
with `length = size / 2`. -/
def psload_frame (stores : Nat) (record : Nat × List Nat) : List Nat :=
  let size := record.2.length % 65536
  let length := size / 2
  let array := fixbuf 256 (memset0 6 ++ record.2)
  put (put (put (put (put (put array 0 ((record.1 % 65536) &&& 0xff))
    1 ((record.1 % 65536) >>> 8)) 2 (length &&& 0xff)) 3 (length >>> 8))
    4 (stores &&& 0xff)) 5 (stores >>> 8)

/-- The `while (psr_get(&pskey, array + 6, &size) == 0)` loop of `cmd_psload`
over the records that `psr_get` delivers: one `transport_write` of `size + 6`
bytes per record, `failed` or `done` printed, then the next record. -/
def psload_loop {σ : Type} (E : Env σ) (transport stores : Nat) :
    List (Nat × List Nat) → World σ → World σ
  | [], w => w
  | record :: rest, w =>
    let r := transport_write E transport Varid.PS (psload_frame stores record)
      ((record.2.length % 65536 + 6) % 65536) w
    psload_loop E transport stores rest
      { r.2 with out := r.2.out ++ [Line.psload (record.1 % 65536) (decide (¬ r.1 < 0))] }

/-- Code of `cmd_psload`: the return value and the state afterwards. The
result of `psr_read` is not looked at. -/
def cmd_psload {σ : Type} (E : Env σ) (transport : Nat) (argv : List CStr) (w : World σ) :
    Int × World σ :=
  let o := opt_pskey E argv CSR_STORES_PSRAM false
  let stores := o.1
  let reset := o.2.1
  let argv := argv.drop o.2.2
  match OPT_RANGE 1 1 argv with
  | some e => (-1, { w with errno := e })
  | none =>
    let records := (E.psr_read (argv.headD [])).2
    let w1 := psload_loop E transport stores records w
    if reset then
      let r := transport_write E transport Varid.WARM_RESET [] 0 w1
      (0, { r.2 with out := r.2.out ++ [Line.psload_reset (decide (¬ r.1 < 0))] })
    else (0, w1)

/-! ## The `psset` helpers, `cmd_psload_default` and `main` -/

/-- The bytes `memcpy(&array[6], (uint8_t*)value, size*2)` stores for `size`
words of `value` (each word low byte first, as on the little-endian target). -/
def psset_memcpy (value : List Nat) (size : Nat) (array : List Nat) : List Nat :=
  (List.range size).foldl
    (fun a i => put (put a (6 + 2 * i) ((value.getD i 0 % 65536) &&& 0xff))
      (6 + 2 * i + 1) ((value.getD i 0 % 65536) >>> 8))
    array

/-- Code of the helper `psset(transport, pskey, value, size)`: the frame is
built in `array[256]` with `length = size` and `stores = CSR_STORES_PSRAM`,
written with `size*2 + 6` bytes; the result of the write is logged only and
the helper returns 0. -/
def psset {σ : Type} (E : Env σ) (transport : Nat) (pskey : Nat) (value : List Nat)
    (size : Nat) (w : World σ) : Int × World σ :=
  let array := psset_memcpy value size (frame6 256 pskey size CSR_STORES_PSRAM)
  let r := transport_write E transport Varid.PS array ((size * 2 + 6) % 65536) w
  (0, r.2)

/-- The calls `psset(transport, pskey, value, size)` of `cmd_psload_default`,
in order: key, value words, size. -/
def psload_default_table : List (Nat × List Nat × Nat) :=
  [ (0x0001, [0x0078, 0x9abc, 0x0056, 0x1234], 0x0004),
    (0x01f6, [0x0015], 0x0001),
    (0x01f9, [0x0001], 0x0001),
    (0x0205, [0x0006], 0x0001),
    (0x0246, [0x0001], 0x0001),
    (0x023b, [0x0000], 0x0001),
    (0x01b3, [0x08C0, 0x0004], 0x0002),
    (0x01fe, [0x6590], 0x0001),
    (0x01b1, [0x0000], 0x0001),
    (0x01b2, [0x0000], 0x0001),
    (0x01ab, [0x0001], 0x0001),
    (0x01ac, [0x0001], 0x0001),
    (0x01b5, [0x0001], 0x0001),
    (0x01b6, [0x0060], 0x0001),
    (0x01ba, [0x0404, 0x0177], 0x0002),
    (0x024d, [0x0000], 0x0001),
    (0x0017, [0x0006], 0x0001),
    (0x01be, [0x0ebf], 0x0001),
    (0x01bf, [0x082e], 0x0001) ]

/-- Code of `cmd_psload_default`: the nineteen `psset` calls, then `return 0`. -/
def cmd_psload_default {σ : Type} (E : Env σ) (transport : Nat) (w : World σ) :
    Int × World σ :=
  (0, psload_default_table.foldl (fun w1 c => (psset E transport c.1 c.2.1 c.2.2 w1).2) w)

/-- Code of `psset_warmreset`: `some 1` when it calls `exit(1)` (the warm-reset
write failed), `none` when it returns. -/
def psset_warmreset {σ : Type} (E : Env σ) (transport : Nat) (w : World σ) :
    Option Nat × World σ :=
  let r := transport_write E transport Varid.WARM_RESET [] 0 w
  if r.1 < 0 then (some 1, r.2) else (none, r.2)

/-- The value `case 't'` of `main` stores in `transport`. -/
def main_transport (optarg : CStr) : Nat :=
  if strcasecmp optarg (cstr "hci") = 0 then CSR_TRANSPORT_HCI
  else if strcasecmp optarg (cstr "usb") = 0 then CSR_TRANSPORT_USB
  else if strcasecmp optarg (cstr "bcsp") = 0 then CSR_TRANSPORT_BCSP
  else if strcasecmp optarg (cstr "h4") = 0 then CSR_TRANSPORT_H4
  else if strcasecmp optarg (cstr "h5") = 0 then CSR_TRANSPORT_3WIRE
  else if strcasecmp optarg (cstr "3wire") = 0 then CSR_TRANSPORT_3WIRE
  else if strcasecmp optarg (cstr "twutl") = 0 then CSR_TRANSPORT_3WIRE
  else CSR_TRANSPORT_UNKNOWN

/-- The option loop of `main` over the options `getopt_long` returns: the
values left in `transport` and `device`, or `none` when `case 'h'` or
`default` is reached (`usage(); exit(0);`). -/
def main_options : List (Nat × CStr) → Nat × Option CStr → Option (Nat × Option CStr)
  | [], st => some st
  | o :: rest, st =>
    if o.1 = 116 then main_options rest (main_transport o.2, st.2)
    else if o.1 = 100 ∨ o.1 = 105 then main_options rest (st.1, some o.2)
    else none

/-- Code of `main`: the exit status of the process and the state at its end. -/
def main {σ : Type} (E : Env σ) (argv : List CStr) (w : World σ) : Nat × World σ :=
  let g := E.getopt_long argv (cstr "+t:d:i:h")
  match main_options g.1 (CSR_TRANSPORT_HCI, none) with
  | none => (0, w)
  | some st =>
    let transport := st.1
    let device := st.2
    let argv := argv.drop g.2
    if argv.length < 1 then (1, w)
    else
      let o := transport_open E transport device w
      if o.1 < 0 then (1, o.2)
      else
        let w1 := (cmd_psload_default E transport o.2).2
        let r := psset_warmreset E transport w1
        match r.1 with
        | some status => (status, r.2)
        | none => (0, transport_close E transport r.2)

/-! ## More notions used in the statements -/

/-- The number of warm-reset writes of a trace. -/
def warm_resets (trace : List Event) : Nat :=
  trace.countP (fun e => decide (e = Event.write Varid.WARM_RESET [] 0))

/-- The simulated environment for a command line whose only option is `-r`
(`getopt_long` returns `r` once, `optind` is 2): the size query reports 1
word, every PS write and clear is accepted, the warm-reset write fails. -/
def resetEnv : Env (List Nat) where
  long_max := 2147483647
  have_libusb := false
  pskey := sim_pskey
  getopt_long := fun _ _ => ([(114, [])], 2)
  csr_read := sim_read 1 []
  csr_write := fun _ varid _ _ s => (if varid = Varid.WARM_RESET then -1 else 0, s)
  csr_open := fun _ _ s => (0, s)
  csr_close := fun _ s => s
  psr_read := fun _ => (0, [])

/-- The PS write `cmd_psload` issues for one record. -/
def psload_write (stores : Nat) (record : Nat × List Nat) : Event :=
  Event.write Varid.PS (psload_frame stores record) ((record.2.length % 65536 + 6) % 65536)

/-- The simulated environment of a bulk load: `psr_read` succeeds and the
cursor delivers `records`; the chip state lists the results of the writes to
come, one per write (0 once the list is used up). -/
def loadEnv (records : List (Nat × List Nat)) : Env (List Int) where
  long_max := 2147483647
  have_libusb := false
  pskey := sim_pskey
  getopt_long := fun _ _ => ([], 1)
  csr_read := fun _ _ value _ s => ((0, value), s)
  csr_write := fun _ _ _ _ s => (s.headD 0, s.tail)
  csr_open := fun _ _ s => (0, s)
  csr_close := fun _ s => s
  psr_read := fun _ => (0, records)

/-- A fixture of three records for the bulk load. -/
def load_fixture : List (Nat × List Nat) :=
  [(0x0001, [0x78, 0x00]), (0x01f6, [0x15, 0x00]), (0x01be, [0xbf, 0x0e])]

/-- The simulated environment of a bulk load whose record file cannot be
opened: `psr_read` returns `-ENOENT` and the cursor delivers no record. -/
def nofileEnv : Env (List Int) where
  long_max := 2147483647
  have_libusb := false
  pskey := sim_pskey
  getopt_long := fun _ _ => ([], 1)
  csr_read := fun _ _ value _ s => ((0, value), s)
  csr_write := fun _ _ _ _ s => (s.headD 0, s.tail)
  csr_open := fun _ _ s => (0, s)
  csr_close := fun _ s => s
  psr_read := fun _ => (-2, [])

/-- The two bytes of the store field of a PS request, low byte first: bytes
2-3 of a size query, an enumerate-next request and a clear-stores request,
bytes 4-5 of a PS read and a PS write; other calls have no store field. -/
def store_bytes : Event → Option (Nat × Nat)
  | Event.read Varid.PS_SIZE value _ => some (value.getD 2 0, value.getD 3 0)
  | Event.read Varid.PS_NEXT value _ => some (value.getD 2 0, value.getD 3 0)
  | Event.read Varid.PS value _ => some (value.getD 4 0, value.getD 5 0)
  | Event.write Varid.PS value _ => some (value.getD 4 0, value.getD 5 0)
  | Event.write Varid.PS_CLR_STORES value _ => some (value.getD 2 0, value.getD 3 0)
  | _ => none

/-- A call whose store field, if it has one, holds the bytes `lo`, `hi`. -/
def stores_are (lo hi : Nat) (e : Event) : Prop :=
  store_bytes e = none ∨ store_bytes e = some (lo, hi)

/-- A PS write whose frame size is 6 bytes of header plus two bytes for each
word counted by its length field (bytes 2-3); any other call. -/
def ps_write_sized : Event → Prop
  | Event.write Varid.PS value size => size = 6 + 2 * get16 value 2 ∧ size = (get16 value 2 + 3) * 2
  | _ => True

/-- The simulated environment of a run of `main` whose `getopt_long` returns
the options `opts` and the index `optind`; the chip state lists the results of
the writes to come, one per write (0 once the list is used up). -/
def optEnv (opts : List (Nat × CStr)) (optind : Nat) : Env (List Int) where
  long_max := 2147483647
  have_libusb := false
  pskey := sim_pskey
  getopt_long := fun _ _ => (opts, optind)
  csr_read := fun _ _ value _ s => ((0, value), s)
  csr_write := fun _ _ _ _ s => (s.headD 0, s.tail)
  csr_open := fun _ _ s => (0, s)
  csr_close := fun _ s => s
  psr_read := fun _ => (0, [])

/-- The simulated environment in which every PS write fails (the backend
returns -1) and every other call succeeds; `getopt_long` returns no option. -/
def failEnv : Env Unit where
  long_max := 2147483647
  have_libusb := false
  pskey := sim_pskey
  getopt_long := fun _ _ => ([], 1)
  csr_read := fun _ _ value _ s => ((0, value), s)
  csr_write := fun _ varid _ _ s => (if varid = Varid.PS then -1 else 0, s)
  csr_open := fun _ _ s => (0, s)
  csr_close := fun _ s => s
  psr_read := fun _ => (0, [])

/-! ## `cmd_builddef` and `cmd_buildname` -/

/-- Code of `opt_help` as `OPT_HELP(range, NULL)` calls it: with `help` a
`NULL` pointer no option has an effect; the returned `optind`. -/
def opt_help {σ : Type} (E : Env σ) (argv : List CStr) : Nat :=
  (E.getopt_long argv (cstr "+h")).2

/-- The request of `cmd_builddef`: `memset(array, 0, sizeof(array));
array[0] = def & 0xff; array[1] = def >> 8;` on `uint8_t array[8]`. -/
def builddef_frame (defn : Nat) : List Nat :=
  put (put (memset0 8) 0 (defn &&& 0xff)) 1 (defn >>> 8)

/-- The `while (1)` loop of `cmd_builddef`, entered with the given `def`; one
unit of fuel per iteration, `none` when the fuel runs out inside the loop.
The result is the value of `err` at the `return` and the state. -/
def builddef_loop {σ : Type} (E : Env σ) (transport : Nat) :
    Nat → Nat → World σ → Option (Int × World σ)
  | 0, _, _ => none
  | fuel + 1, defn, w =>
    let r := transport_read E transport Varid.GET_NEXT_BUILDDEF (builddef_frame defn) 8 w
    if r.err < 0 then some (r.err, { r.world with errno := (- r.err).toNat })
    else
      let nextdef := (r.array.getD 2 0 ||| (r.array.getD 3 0 <<< 8)) % 65536
      if nextdef = 0x0000 then some (r.err, r.world)
      else
        builddef_loop E transport fuel nextdef
          { r.world with out := r.world.out ++ [Line.builddef nextdef] }

/-- Code of `cmd_builddef`: the return value and the state afterwards, `none`
when the loop is still running after `fuel` iterations. -/
def cmd_builddef {σ : Type} (E : Env σ) (fuel : Nat) (transport : Nat) (argv : List CStr)
    (w : World σ) : Option (Int × World σ) :=
  let argv := argv.drop (opt_help E argv)
  match OPT_RANGE 0 0 argv with
  | some e => some (-1, { w with errno := e })
  | none =>
    builddef_loop E transport fuel 0x0000 { w with out := w.out ++ [Line.builddef_header] }

/-- The index `(i * 2) + 4` of `array` that `cmd_buildname` copies to `name[i]`. -/
def buildname_index (i : Nat) : Nat := (i * 2) + 4

/-- Code of `cmd_buildname`: the return value and the state afterwards. The
loop `for (i = 0; i < sizeof(name); i++) name[i] = array[(i * 2) + 4];` runs
over the 64 elements of `name`; an element of `array` outside its 130 bytes
is `none`. -/
def cmd_buildname {σ : Type} (E : Env σ) (transport : Nat) (argv : List CStr) (w : World σ) :
    Int × World σ :=
  let argv := argv.drop (opt_help E argv)
  match OPT_RANGE 0 0 argv with
  | some e => (-1, { w with errno := e })
  | none =>
    let r := transport_read E transport Varid.READ_BUILD_NAME (memset0 130) 128 w
    if r.err < 0 then (-1, { r.world with errno := (- r.err).toNat })
    else
      let name := (List.range 64).map (fun i => r.array[buildname_index i]?)
      (0, { r.world with out := r.world.out ++ [Line.buildname name] })

/-! ## `psset_bdaddr` -/

/-- The local `bdaddr` of `psset_bdaddr`. -/
def bdaddr : List Nat := [0x11, 0x11, 0x11, 0x11, 0x22, 0x22, 0x22, 0x22]

/-- The buffer `psset_bdaddr` passes to `transport_write`: the header for
`pskey = 0x0001`, `length = 4`, `stores = 0x8` in `array[128]`, then
`for (i = 0; i < 8; i++) array[i+6] = bdaddr[i];`. -/
def psset_bdaddr_frame : List Nat :=
  (List.range 8).foldl (fun a i => put a (i + 6) (bdaddr.getD i 0)) (frame6 128 0x0001 4 0x8)

/-- Code of `psset_bdaddr`: the write of `(length + 2)*2` bytes with
`length = 4`; `some 1` when it calls `exit(1)` (the write failed), `none`
when it returns. -/
def psset_bdaddr {σ : Type} (E : Env σ) (transport : Nat) (w : World σ) :
    Option Nat × World σ :=
  let r := transport_write E transport Varid.PS psset_bdaddr_frame ((4 + 2) * 2) w
  if r.1 < 0 then (some 1, r.2) else (none, r.2)

/-! ## Notions for the statements about `main`, frames and buffers -/

/-- The number of `transport_open` calls of a trace that reached a backend. -/
def opens (trace : List Event) : Nat :=
  trace.countP (fun e =>
    match e with
    | Event.open_dev _ _ => true
    | _ => false)

/-- The number of `transport_close` calls of a trace that reached a backend. -/
def closes (trace : List Event) : Nat :=
  trace.countP (fun e =>
    match e with
    | Event.close_dev _ => true
    | _ => false)

/-- The 16-bit number a reader sees in two bytes printed one after the other
with `%02x%02x`: the first byte printed gives the high-order digits. -/
def shown16 (p : Nat × Nat) : Nat := p.1 * 256 + p.2

/-- The PS reads of a trace, in the order they were sent: key field (bytes
0-1), length field (bytes 2-3) and requested size. -/
def ps_reads (trace : List Event) : List (Nat × Nat × Nat) :=
  trace.filterMap (fun e =>
    match e with
    | Event.read Varid.PS value size => some (get16 value 0, get16 value 2, size)
    | _ => none)

/-- A PS read whose length field is at most 122 words and whose requested
size is at most 250 bytes; any other call. -/
def ps_read_small : Event → Prop
  | Event.read Varid.PS value size => get16 value 2 ≤ 122 ∧ size ≤ 250
  | _ => True

/-- A buffer passed with length 8 whose first 8 bytes are `[key & 0xff,
key >> 8, stores & 0xff, stores >> 8, 0, 0, 0, 0]` for the given key and
store mask, which are the values of bytes 0-1 and 2-3 read as little-endian
16-bit fields. -/
def is_request8 (key stores : Nat) (value : List Nat) (length : Nat) : Prop :=
  length = 8 ∧
    value.take 8 = [key &&& 0xff, key >>> 8, stores &&& 0xff, stores >>> 8, 0, 0, 0, 0] ∧
    get16 value 0 = key ∧ get16 value 2 = stores

/-- A size query, enumerate-next request or clear-stores request that is the
8-byte frame of the given key and store mask; any other call. -/
def request8 (key stores : Nat) : Event → Prop
  | Event.read Varid.PS_SIZE value length => is_request8 key stores value length
  | Event.read Varid.PS_NEXT value length => is_request8 key stores value length
  | Event.write Varid.PS_CLR_STORES value length => is_request8 key stores value length
  | _ => True

/-- The enumerate-next requests and size queries of a trace, in the order
they were sent. -/
def enum_requests (trace : List Event) : List Event :=
  trace.filter (fun e =>
    match e with
    | Event.read Varid.PS_NEXT _ _ => true
    | Event.read Varid.PS_SIZE _ _ => true
    | _ => false)

/-- The enumerate-next requests and size queries of an enumeration that works
in an array of `n` bytes with store mask `stores`, starts from the previous
key `prev` and is answered with the next keys `ks` and then 0x0000: the
enumerate-next request for `prev`, and for each key its size query followed by
the enumerate-next request that carries it as previous key. -/
def enum_expected (n stores : Nat) : Nat → List Nat → List Event
  | prev, [] => [Event.read Varid.PS_NEXT (frame4 n prev stores) 8]
  | prev, k :: ks =>
    Event.read Varid.PS_NEXT (frame4 n prev stores) 8
      :: Event.read Varid.PS_SIZE (frame4 n k stores) 8 :: enum_expected n stores k ks

/-- The identifier fields (bytes 0-1) of the next-build-definition reads of a
trace, in the order they were sent. -/
def builddef_requests (trace : List Event) : List Nat :=
  trace.filterMap (fun e =>
    match e with
    | Event.read Varid.GET_NEXT_BUILDDEF value _ => some (get16 value 0)
    | _ => none)

/-- The successive next-build-definition responses of the backend carry the
identifiers listed by `script`: whenever the script of the chip state is
`d :: rest`, such a read succeeds, returns `d` in bytes 2-3 and leaves a state
whose script is `rest`. -/
def EnumeratesDefs {σ : Type} (E : Env σ) (script : σ → List Nat) : Prop :=
  ∀ kind value length s d rest, script s = d :: rest →
    0 ≤ (E.csr_read kind Varid.GET_NEXT_BUILDDEF value length s).1.1 ∧
    byte (E.csr_read kind Varid.GET_NEXT_BUILDDEF value length s).1.2 2
      + (byte (E.csr_read kind Varid.GET_NEXT_BUILDDEF value length s).1.2 3 <<< 8) = d ∧
    script (E.csr_read kind Varid.GET_NEXT_BUILDDEF value length s).2 = rest

/-- The simulated responder for the build commands: a next-build-definition
read pops the next identifier of the chip state into bytes 2-3 of the response
(it fails on an empty state), the build-name read returns 130 bytes 0x41, any
other read leaves the buffer as it is. -/
def buildEnv : Env (List Nat) where
  long_max := 2147483647
  have_libusb := false
  pskey := sim_pskey
  getopt_long := fun _ _ => ([], 1)
  csr_read := fun _ varid value _ s =>
    match varid with
    | Varid.GET_NEXT_BUILDDEF =>
      match s with
      | d :: rest => ((0, [0, 0, d % 256, d / 256 % 256, 0, 0, 0, 0]), rest)
      | [] => ((-1, value), [])
    | Varid.READ_BUILD_NAME => ((0, List.replicate 130 0x41), s)
    | _ => ((0, value), s)
  csr_write := fun _ _ _ _ s => (0, s)
  csr_open := fun _ _ s => (0, s)
  csr_close := fun _ s => s
  psr_read := fun _ => (0, [])

/-- The indices of `array` read by the `switch (length)` of `cmd_psget`:
`array[6]`, `array[7]` in `case 1`; `array[8]`, `array[9]`, `array[6]`,
`array[7]` in `case 2`; `array[(i * 2) + 6]`, `array[(i * 2) + 7]` for
`i < length` in the `default` case. -/
def psget_indices (length : Nat) : List Nat :=
  if length = 1 then [6, 7]
  else if length = 2 then [8, 9, 6, 7]
  else (List.range length).flatMap (fun i => [(i * 2) + 6, (i * 2) + 7])

/-- The indices of `array` written by the `switch (length)` of `cmd_psset`:
`array[6]`, `array[7]` in `case 1`; `array[6]` .. `array[9]` in `case 2`;
`array[i + 6]` for `i < length * 2` in the `default` case. -/
def psset_indices (length : Nat) : List Nat :=
  if length = 1 then [6, 7]
  else if length = 2 then [6, 7, 8, 9]
  else (List.range (length * 2)).map (fun i => i + 6)

/-- The indices of `array` read by the print loop of `cmd_psread`:
`array[(i * 2) + 7]`, `array[(i * 2) + 6]` for `i < length`. -/
def psread_indices (length : Nat) : List Nat :=
  (List.range length).flatMap (fun i => [(i * 2) + 7, (i * 2) + 6])

/-- A read, or a PS write, whose buffer has `n` bytes and whose length is at
most `n`; any other call (the warm-reset write passes `NULL` and 0). -/
def frame_within (n : Nat) : Event → Prop
  | Event.read _ value length => value.length = n ∧ length ≤ n
  | Event.write Varid.PS value length => value.length = n ∧ length ≤ n
  | _ => True

/-! ## `cmd_clock`, `cmd_singlechan`, `cmd_rttxdata1` and `cmd_radiotest` -/

/-- The expression of `cmd_clock`:
`array[2] | (array[3] << 8) | (array[0] << 16) | (array[1] << 24)`, stored in
the `uint32_t clock`. -/
def clock_value (array : List Nat) : Nat :=
  (array.getD 2 0 ||| (array.getD 3 0 <<< 8) ||| (array.getD 0 0 <<< 16)
    ||| (array.getD 1 0 <<< 24)) % 4294967296

/-- Code of `cmd_clock`: the return value and the state afterwards. -/
def cmd_clock {σ : Type} (E : Env σ) (transport : Nat) (argv : List CStr) (w : World σ) :
    Int × World σ :=
  let argv := argv.drop (opt_help E argv)
  match OPT_RANGE 0 0 argv with
  | some e => (-1, { w with errno := e })
  | none =>
    let r := transport_read E transport Varid.BT_CLOCK (memset0 8) 8 w
    if r.err < 0 then (-1, { r.world with errno := (- r.err).toNat })
    else (0, { r.world with out := r.world.out ++ [Line.clock (clock_value r.array)] })

/-- Code of `cmd_singlechan`: the return value and the state afterwards.
`channel` is a `uint16_t`; `channel -= 2402` is reached only with
`channel > 2401`. -/
def cmd_singlechan {σ : Type} (E : Env σ) (transport : Nat) (argv : List CStr)
    (w : World σ) : Int × World σ :=
  let argv := argv.drop (opt_help E argv)
  match OPT_RANGE 1 1 argv with
  | some e => (-1, { w with errno := e })
  | none =>
    let channel := to_u16 (atoi E.long_max (argv.headD []))
    let channel := if channel > 2401 ∧ channel < 2481 then (channel - 2402) % 65536 else channel
    if channel > 78 then (-1, { w with errno := EINVAL })
    else
      let array := put (put (memset0 8) 0 (channel &&& 0xff)) 1 (channel >>> 8)
      transport_write E transport Varid.SINGLE_CHAN array 8 w

/-- Code of `cmd_rttxdata1`: the return value and the state afterwards. -/
def cmd_rttxdata1 {σ : Type} (E : Env σ) (transport : Nat) (argv : List CStr)
    (w : World σ) : Int × World σ :=
  let argv := argv.drop (opt_help E argv)
  match OPT_RANGE 2 2 argv with
  | some e => (-1, { w with errno := e })
  | none =>
    let freq := to_u16 (atoi E.long_max (argv.getD 0 []))
    let level :=
      if strncasecmp (argv.getD 1 []) (cstr "0x") 2 = 0 then
        to_u16 (strtol E.long_max (argv.getD 1 []) 16)
      else to_u16 (atoi E.long_max (argv.getD 1 []))
    let array := put (put (put (put (put (put (memset0 8) 0 0x04) 1 0x00)
      2 (freq &&& 0xff)) 3 (freq >>> 8)) 4 (level &&& 0xff)) 5 (level >>> 8)
    transport_write E transport Varid.RADIOTEST array 8 w

/-- Code of `cmd_radiotest`: the return value and the state afterwards. -/
def cmd_radiotest {σ : Type} (E : Env σ) (transport : Nat) (argv : List CStr)
    (w : World σ) : Int × World σ :=
  let argv := argv.drop (opt_help E argv)
  match OPT_RANGE 3 3 argv with
  | some e => (-1, { w with errno := e })
  | none =>
    let freq := to_u16 (atoi E.long_max (argv.getD 0 []))
    let level :=
      if strncasecmp (argv.getD 1 []) (cstr "0x") 2 = 0 then
        to_u16 (strtol E.long_max (argv.getD 1 []) 16)
      else to_u16 (atoi E.long_max (argv.getD 1 []))
    let test := to_u16 (atoi E.long_max (argv.getD 2 []))
    let array := put (put (put (put (put (put (memset0 8) 0 (test &&& 0xff)) 1 (test >>> 8))
      2 (freq &&& 0xff)) 3 (freq >>> 8)) 4 (level &&& 0xff)) 5 (level >>> 8)
    transport_write E transport Varid.RADIOTEST array 8 w

/-- The simulated responder for `cmd_clock`: every read returns the bytes
0x11, 0x22, 0x33, 0x44 followed by zeros. -/
def clockEnv : Env Unit where
  long_max := 2147483647
  have_libusb := false
  pskey := sim_pskey
  getopt_long := fun _ _ => ([], 1)
  csr_read := fun _ _ _ _ s => ((0, [0x11, 0x22, 0x33, 0x44, 0, 0, 0, 0]), s)
  csr_write := fun _ _ _ _ s => (0, s)
  csr_open := fun _ _ s => (0, s)
  csr_close := fun _ s => s
  psr_read := fun _ => (0, [])

/-- A PS write whose length field (bytes 2-3) is between `lo` and `hi` words;
any other call. -/
def ps_write_words (lo hi : Nat) : Event → Prop
  | Event.write Varid.PS value _ => lo ≤ get16 value 2 ∧ get16 value 2 ≤ hi
  | _ => True

/-- The write calls of a trace, in the order they were made. -/
def writes (trace : List Event) : List Event :=
  trace.filter (fun e =>
    match e with
    | Event.write _ _ _ => true
    | _ => false)

/-- The PS write the helper `psset` makes for one entry (key, value words,
size) of `psload_default_table`. -/
def psset_write (c : Nat × List Nat × Nat) : Event :=
  Event.write Varid.PS (psset_memcpy c.2.1 c.2.2 (frame6 256 c.1 c.2.2 CSR_STORES_PSRAM))
    ((c.2.2 * 2 + 6) % 65536)

/-! # The interactive shell (`attrib/interactive.c`) -/

/-- The `enum state` of `interactive.c`. -/
inductive state
  | STATE_DISCONNECTED
  | STATE_CONNECTING
  | STATE_CONNECTED
  deriving DecidableEq, Repr

/-- What `interactive.c` takes from outside: `gatt_connect` (source,
destination, security level, PSM, MTU; whether the channel returned is not
`NULL`), `g_attrib_new` (whether its result is not `NULL`, given whether the
channel is not `NULL`), `bt_string2uuid` (the UUID, or `none` for a negative
result) and `strtoll` in base 16 (value, the rest of the string at `*e`, the
`errno` it leaves). -/
structure ShellEnv where
  gatt_connect : Option CStr → CStr → Option CStr → Int → Int → Bool
  g_attrib_new : Bool → Bool
  bt_string2uuid : CStr → Option Nat
  strtoll : CStr → Int × CStr × Nat

/-- A call into the GATT layer or the I/O channel made by a shell command. -/
inductive Call
  | gatt_connect (dst : CStr)
  | g_attrib_new
  | g_attrib_unref
  | g_io_channel_shutdown
  | gatt_discover_primary (uuid : Option Nat)
  | gatt_discover_char (start end_handle : Int)
  | gatt_find_info (start end_handle : Int)
  deriving DecidableEq, Repr

/-- A message printed by a shell command. -/
inductive Note
  | connect_error
  | address_required
  | command_failed_disconnected
  | invalid_uuid
  | invalid_start_handle (arg : CStr)
  | invalid_end_handle (arg : CStr)
  deriving DecidableEq, Repr

/-- The file-scope variables of `interactive.c` that the commands use
(`iochannel` and `attrib` as whether they are not `NULL`), the calls made so
far and the messages printed so far. -/
structure Shell where
  conn_state : state
  opt_src : Option CStr
  opt_dst : Option CStr
  opt_sec_level : Option CStr
  opt_psm : Int
  opt_mtu : Int
  iochannel : Bool
  attrib : Bool
  calls : List Call
  notes : List Note
  deriving DecidableEq, Repr

/-- Code of `set_state` (the prompt it redisplays is a function of the
variables and is not kept). -/
def set_state (st : state) (s : Shell) : Shell := { s with conn_state := st }

/-- Code of `connect_cb`; `err` tells whether the `GError` is set. -/
def connect_cb (E : ShellEnv) (err : Bool) (s : Shell) : Shell :=
  if err then set_state state.STATE_DISCONNECTED { s with notes := s.notes ++ [Note.connect_error] }
  else
    set_state state.STATE_CONNECTED
      { s with attrib := E.g_attrib_new s.iochannel, calls := s.calls ++ [Call.g_attrib_new] }

/-- Code of `cmd_connect`. -/
def cmd_connect (E : ShellEnv) (argvp : List CStr) (s : Shell) : Shell :=
  if s.conn_state ≠ state.STATE_DISCONNECTED then s
  else
    let s1 := if argvp.length > 1 then { s with opt_dst := some (argvp.getD 1 []) } else s
    match s1.opt_dst with
    | none => { s1 with notes := s1.notes ++ [Note.address_required] }
    | some dst =>
      let s2 := set_state state.STATE_CONNECTING s1
      let io := E.gatt_connect s2.opt_src dst s2.opt_sec_level s2.opt_psm s2.opt_mtu
      let s3 := { s2 with iochannel := io, calls := s2.calls ++ [Call.gatt_connect dst] }
      if io = false then set_state state.STATE_DISCONNECTED s3 else s3

/-- Code of `cmd_disconnect`. -/
def cmd_disconnect (s : Shell) : Shell :=
  if s.conn_state = state.STATE_DISCONNECTED then s
  else
    set_state state.STATE_DISCONNECTED
      { s with attrib := false, iochannel := false,
               calls := s.calls ++ [Call.g_attrib_unref, Call.g_io_channel_shutdown] }

/-- Code of `cmd_primary`. -/
def cmd_primary (E : ShellEnv) (argvp : List CStr) (s : Shell) : Shell :=
  if s.conn_state ≠ state.STATE_CONNECTED then
    { s with notes := s.notes ++ [Note.command_failed_disconnected] }
  else if argvp.length = 1 then
    { s with calls := s.calls ++ [Call.gatt_discover_primary none] }
  else
    match E.bt_string2uuid (argvp.getD 1 []) with
    | none => { s with notes := s.notes ++ [Note.invalid_uuid] }
    | some uuid => { s with calls := s.calls ++ [Call.gatt_discover_primary (some uuid)] }

/-- Code of `strtohandle`: `strtoll` in base 16, `-EINVAL` when `errno` is set
or the string is not used up, else the value as `int`. -/
def strtohandle (E : ShellEnv) (src : CStr) : Int :=
  let r := E.strtoll src
  if r.2.2 ≠ 0 ∨ r.2.1.headD 0 ≠ 0 then - (EINVAL : Int) else to_int r.1

/-- The argument handling shared by `cmd_char` and `cmd_char_desc` (the same
text in both): the `start` and `end` handles, or the message printed when one
of them is invalid. -/
def handle_range (E : ShellEnv) (argvp : List CStr) : Except Note (Int × Int) :=
  let start : Int := if argvp.length > 1 then strtohandle E (argvp.getD 1 []) else 0x0001
  if argvp.length > 1 ∧ start < 0 then Except.error (Note.invalid_start_handle (argvp.getD 1 []))
  else
    let end_handle : Int :=
      if argvp.length > 2 then strtohandle E (argvp.getD 2 []) else 0xffff
    if argvp.length > 2 ∧ end_handle < 0 then
      Except.error (Note.invalid_end_handle (argvp.getD 2 []))
    else Except.ok (start, end_handle)

/-- Code of `cmd_char`. -/
def cmd_char (E : ShellEnv) (argvp : List CStr) (s : Shell) : Shell :=
  if s.conn_state ≠ state.STATE_CONNECTED then
    { s with notes := s.notes ++ [Note.command_failed_disconnected] }
  else
    match handle_range E argvp with
    | Except.error n => { s with notes := s.notes ++ [n] }
    | Except.ok r => { s with calls := s.calls ++ [Call.gatt_discover_char r.1 r.2] }

/-- Code of `cmd_char_desc`. -/
def cmd_char_desc (E : ShellEnv) (argvp : List CStr) (s : Shell) : Shell :=
  if s.conn_state ≠ state.STATE_CONNECTED then
    { s with notes := s.notes ++ [Note.command_failed_disconnected] }
  else
    match handle_range E argvp with
    | Except.error n => { s with notes := s.notes ++ [n] }
    | Except.ok r => { s with calls := s.calls ++ [Call.gatt_find_info r.1 r.2] }

/-- A step of the shell: a command line dispatched by `parse_line` to one of
the six handlers, or the completion callback of a connection attempt. -/
inductive Step
  | cmd_connect (argvp : List CStr)
  | connect_cb (err : Bool)
  | cmd_disconnect
  | cmd_primary (argvp : List CStr)
  | cmd_char (argvp : List CStr)
  | cmd_char_desc (argvp : List CStr)
  deriving DecidableEq, Repr

/-- The effect of one step. -/
def step (E : ShellEnv) (s : Shell) : Step → Shell
  | Step.cmd_connect argvp => cmd_connect E argvp s
  | Step.connect_cb err => connect_cb E err s
  | Step.cmd_disconnect => cmd_disconnect s
  | Step.cmd_primary argvp => cmd_primary E argvp s
  | Step.cmd_char argvp => cmd_char E argvp s
  | Step.cmd_char_desc argvp => cmd_char_desc E argvp s

/-- The effect of a sequence of steps. -/
def run (E : ShellEnv) (steps : List Step) (s : Shell) : Shell := steps.foldl (step E) s

/-- Whether a call is a discovery request. -/
def is_discovery : Call → Bool
  | Call.gatt_discover_primary _ => true
  | Call.gatt_discover_char _ _ => true
  | Call.gatt_find_info _ _ => true
  | _ => false

/-- The number of discovery requests among the calls. -/
def discoveries (calls : List Call) : Nat := calls.countP is_discovery

/-- The number of connection attempts among the calls. -/
def connects (calls : List Call) : Nat :=
  calls.countP (fun c =>
    match c with
    | Call.gatt_connect _ => true
    | _ => false)

/-- The shell as `interactive` leaves it before the first command, for a
destination `dst`: disconnected, security level `low`. -/
def Shell.init (dst : Option CStr) (psm : Int) : Shell :=
  { conn_state := state.STATE_DISCONNECTED, opt_src := none, opt_dst := dst,
    opt_sec_level := some (cstr "low"), opt_psm := psm, opt_mtu := 0,
    iochannel := false, attrib := false, calls := [], notes := [] }

/-- A simulated GATT layer: every connection attempt returns a channel, a UUID
string is accepted when it is not empty, `strtoll` is the `strtol` of the
C library model with nothing left over. -/
def shellEnv : ShellEnv where
  gatt_connect := fun _ _ _ _ _ => true
  g_attrib_new := fun io => io
  bt_string2uuid := fun t => if t = [] then none else some t.length
  strtoll := fun t => (strtol 9223372036854775807 t 16, [], 0)

/-! # Theorems -/

/-! ## Facts about the C library model -/

theorem tolower_eq_zero (c : Nat) : tolower c = 0 ↔ c = 0 := by
  unfold tolower
  split <;> omega

theorem strcasecmp_eq_zero_ckey : ∀ (a b : CStr), strcasecmp a b = 0 → ckey a = ckey b := by
  intro a
  induction a with
  | nil =>
    intro b h
    have h0 : tolower (b.headD 0) = 0 := by
      simp only [strcasecmp] at h
      omega
    rw [tolower_eq_zero] at h0
    cases b with
    | nil => rfl
    | cons y ys =>
      simp only [List.headD_cons] at h0
      subst h0
      simp [ckey]
  | cons x xs ih =>
    intro b h
    unfold strcasecmp at h
    split at h
    · omega
    · rename_i heq
      simp only [ne_eq, not_not] at heq
      split at h
      · rename_i hx0
        have hb0 : tolower (b.headD 0) = 0 := by omega
        rw [tolower_eq_zero] at hx0 hb0
        subst hx0
        cases b with
        | nil => simp [ckey]
        | cons y ys =>
          simp only [List.headD_cons] at hb0
          subst hb0
          simp [ckey]
      · rename_i hx0
        have hxne : x ≠ 0 := fun hx => hx0 ((tolower_eq_zero x).2 hx)
        cases b with
        | nil =>
          simp only [List.headD_nil] at heq
          exact absurd heq hx0
        | cons y ys =>
          simp only [List.headD_cons] at heq
          have hyne : y ≠ 0 := fun hy => hx0 (by rw [heq]; exact (tolower_eq_zero y).2 hy)
          have := ih ys (by simpa using h)
          simp only [ckey] at this ⊢
          simp only [List.takeWhile_cons, hxne, hyne, heq, ne_eq, not_false_eq_true,
            decide_True, if_true, List.map_cons, this]


theorem storage_scan_append (token : CStr) (p : Nat) (L rest : List StorageEntry)
    (hL : ∀ e ∈ L, e.pskey ≠ 0) :
    storage_scan token p (L ++ rest) =
      match L.find? (fun e => decide (strcasecmp e.str token = 0)) with
      | some e => e.pskey
      | none => storage_scan token p rest := by
  induction L with
  | nil => simp
  | cons e es ih =>
    have he : e.pskey ≠ 0 := hL e (List.mem_cons_self _ _)
    have hes : ∀ e ∈ es, e.pskey ≠ 0 := fun x hx => hL x (List.mem_cons_of_mem _ hx)
    by_cases hm : strcasecmp e.str token = 0
    · simp [storage_scan, he, hm, List.find?_cons]
    · simp [storage_scan, he, hm, List.find?_cons, ih hes]

theorem strtol_digits_ofDigits (base : Nat) :
    ∀ (ds : CStr) (acc : Nat), all_digits base ds →
      strtol_digits base ds acc =
        Nat.ofDigits base ((ds.map (fun c => (digitVal c).getD 0)).reverse ++ [acc]) := by
  intro ds
  induction ds with
  | nil => intro acc _; simp [strtol_digits]
  | cons c cs ih =>
    intro acc h
    obtain ⟨d, hd, hlt⟩ := h c (List.mem_cons_self _ _)
    have hcs : all_digits base cs := fun x hx => h x (List.mem_cons_of_mem _ hx)
    simp only [strtol_digits, hd, hlt, if_true, ih _ hcs, List.map_cons, List.reverse_cons,
      Option.getD_some, List.append_assoc, List.singleton_append]
    simp only [Nat.ofDigits_append, Nat.ofDigits_cons, Nat.ofDigits_nil]
    ring

theorem strtol_of_digits (long_max base : Nat) (ds : CStr) (hb : base ≤ 16)
    (h : all_digits base ds) (hv : digits_value base ds ≤ long_max) :
    strtol long_max ds base = (digits_value base ds : Int) := by
  have hval : strtol_digits base ds 0 = digits_value base ds := by
    rw [strtol_digits_ofDigits base ds 0 h]
    simp [digits_value, Nat.ofDigits_append]
  cases ds with
  | nil => simp [strtol, strtol_sign, strtol_0x, strtol_digits, digits_value]
  | cons c cs =>
    obtain ⟨d, hd, hlt⟩ := h c (List.mem_cons_self _ _)
    have hd16 : d < 16 := lt_of_lt_of_le hlt hb
    have hc : (48 ≤ c ∧ c ≤ 57) ∨ (97 ≤ c ∧ c ≤ 102) ∨ (65 ≤ c ∧ c ≤ 70) := by
      unfold digitVal at hd
      split at hd
      · left; assumption
      · split at hd
        · simp only [Option.some.injEq] at hd; omega
        · split at hd
          · simp only [Option.some.injEq] at hd; omega
          · cases hd
    have hsp : isspace c = false := by
      simp only [isspace, Bool.or_eq_false_iff, Bool.and_eq_false_iff, decide_eq_false_iff_not]
      omega
    have hsign : strtol_sign (c :: cs) = (false, c :: cs) := by
      unfold strtol_sign
      split
      · rename_i heq; simp only [List.cons.injEq] at heq; omega
      · rename_i heq; simp only [List.cons.injEq] at heq; omega
      · rfl
    have h0x : strtol_0x base (c :: cs) = c :: cs := by
      unfold strtol_0x
      split
      · rename_i x d2 r heq
        have hcs : cs = x :: d2 :: r := (List.cons.inj heq).2
        obtain ⟨dx, hdx, hltx⟩ := h x (by simp [hcs])
        have hx : ¬ (x = 120 ∨ x = 88) := by
          rintro (rfl | rfl)
          · simp [digitVal] at hdx; omega
          · simp [digitVal] at hdx; omega
        rw [if_neg (fun hh => hx hh.2.1)]
        exact heq.symm
      · rfl
    have hdrop : (c :: cs).dropWhile isspace = c :: cs := by
      simp [List.dropWhile_cons, hsp]
    dsimp only [strtol]
    rw [hdrop, hsign]
    dsimp only
    rw [h0x, hval]
    simp only [Bool.false_eq_true, if_false]
    rw [if_neg (by omega)]

theorem to_int_of_small (v : Nat) (hv : v ≤ 2147483647) : to_int (v : Int) = (v : Int) := by
  unfold to_int
  omega

theorem to_u16_natCast (v : Nat) : to_u16 (v : Int) = v % 65536 := by
  unfold to_u16
  omega

theorem storage_names_nodup : (storage_names.map (fun e => ckey (cstr e.2))).Nodup := by
  decide


theorem storage_scan_name (ids : CsrPskey → Nat) (hids : ∀ k, ids k % 65536 ≠ 0)
    (token : CStr) (p : Nat) (e : CsrPskey × String) (he : e ∈ storage_names)
    (hm : strcasecmp (cstr e.2) token = 0) :
    storage_scan token p (storage ids) = ids e.1 % 65536 := by
  unfold storage
  rw [storage_scan_append]
  · split
    · rename_i e1 hfind
      have hmem := List.mem_of_find?_eq_some hfind
      have hp := List.find?_some hfind
      simp only [decide_eq_true_eq] at hp
      obtain ⟨e2, he2, rfl⟩ := List.mem_map.1 hmem
      have hk : ckey (cstr e2.2) = ckey (cstr e.2) := by
        rw [strcasecmp_eq_zero_ckey _ _ hp, strcasecmp_eq_zero_ckey _ _ hm]
      have hee : e2 = e := List.inj_on_of_nodup_map storage_names_nodup he2 he hk
      rw [hee]
    · rename_i hfind
      rw [List.find?_eq_none] at hfind
      have := hfind _ (List.mem_map.2 ⟨e, he, rfl⟩)
      simp only [decide_eq_true_eq] at this
      exact absurd hm this
  · intro x hx
    obtain ⟨e2, _, rfl⟩ := List.mem_map.1 hx
    exact hids _

theorem storage_scan_no_name (ids : CsrPskey → Nat) (hids : ∀ k, ids k % 65536 ≠ 0)
    (token : CStr) (p : Nat)
    (hm : ∀ e ∈ storage_names, strcasecmp (cstr e.2) token ≠ 0) :
    storage_scan token p (storage ids) = p := by
  unfold storage
  rw [storage_scan_append]
  · split
    · rename_i e1 hfind
      have hmem := List.mem_of_find?_eq_some hfind
      have hp := List.find?_some hfind
      simp only [decide_eq_true_eq] at hp
      obtain ⟨e2, he2, rfl⟩ := List.mem_map.1 hmem
      exact absurd hp (hm e2 he2)
    · simp [storage_scan]
  · intro x hx
    obtain ⟨e2, _, rfl⟩ := List.mem_map.1 hx
    exact hids _

theorem cstr_0x : cstr "0x" = [48, 120] := by decide

theorem strncasecmp_0x_iff (token : CStr) :
    strncasecmp token (cstr "0x") 2 = 0 ↔
      ∃ c rest, token = 48 :: c :: rest ∧ (c = 120 ∨ c = 88) := by
  rw [cstr_0x]
  have t48 : ∀ c, tolower c = 48 ↔ c = 48 := by
    intro c; unfold tolower; split <;> omega
  have t120 : ∀ c, tolower c = 120 ↔ (c = 120 ∨ c = 88) := by
    intro c; unfold tolower; split <;> omega
  have l48 : tolower 48 = 48 := by decide
  have l120 : tolower 120 = 120 := by decide
  have l0 : tolower 0 = 0 := by decide
  constructor
  · intro h
    simp only [strncasecmp, List.headD_cons, List.tail_cons, l48, l120] at h
    split_ifs at h with h1 h2 h3 h4
    · omega
    · omega
    · omega
    · omega
    · simp only [ne_eq, not_not] at h1 h3
      cases token with
      | nil => simp [l0] at h1
      | cons a r =>
        cases r with
        | nil => simp [l0] at h3
        | cons b r2 =>
          simp only [List.headD_cons, List.tail_cons] at h1 h3
          exact ⟨b, r2, by rw [(t48 a).1 h1], (t120 b).1 h3⟩
  · rintro ⟨c, rest, rfl, hc⟩
    have := (t120 c).2 hc
    simp [strncasecmp, l48, l120, this]

/-! ## Key resolution -/

/-- C4: the key resolution block of `cmd_psget`, `cmd_psset` and `cmd_psclr`
follows the order hex mark, symbolic name, decimal for every token. A token
with the hex mark (`strncasecmp(token, "0x", 2) == 0`) resolves to
`strtol(token + 2, NULL, 16)`; otherwise a token that `strcasecmp` finds equal
to a name of the `storage` table resolves to the key id of that row; otherwise
it resolves to `atoi(token)`; each stored in the `uint16_t pskey`. The hex
mark is there exactly when the token starts with `0` and `x` or `X`. On a string
of hexadecimal (decimal) digits `strtol` (`atoi`) returns the number they write.
In particular `0x1234` resolves to 0x1234, `1234` to 1234 and `bdaddr` to
`CSR_PSKEY_BDADDR`. The `CSR_PSKEY_*` constants are taken nonzero and `long`
at least 32 bits wide. -/
theorem resolve_pskey_order (long_max : Nat) (ids : CsrPskey → Nat)
    (hlong : 2147483647 ≤ long_max) (hids : ∀ k, ids k % 65536 ≠ 0) (token : CStr) :
    (strncasecmp token (cstr "0x") 2 = 0 →
      resolve_pskey long_max ids token = to_u16 (strtol long_max (token.drop 2) 16)) ∧
    (strncasecmp token (cstr "0x") 2 ≠ 0 →
      ∀ e ∈ storage_names, strcasecmp (cstr e.2) token = 0 →
        resolve_pskey long_max ids token = ids e.1 % 65536) ∧
    (strncasecmp token (cstr "0x") 2 ≠ 0 →
      (∀ e ∈ storage_names, strcasecmp (cstr e.2) token ≠ 0) →
        resolve_pskey long_max ids token = to_u16 (atoi long_max token)) ∧
    (∀ ds, all_digits 16 ds → digits_value 16 ds ≤ 2147483647 →
      to_u16 (strtol long_max ds 16) = digits_value 16 ds % 65536) ∧
    (∀ ds, all_digits 10 ds → digits_value 10 ds ≤ 2147483647 →
      to_u16 (atoi long_max ds) = digits_value 10 ds % 65536) ∧
    resolve_pskey long_max ids (cstr "0x1234") = 0x1234 ∧
    resolve_pskey long_max ids (cstr "1234") = 1234 ∧
    resolve_pskey long_max ids (cstr "bdaddr") = ids CsrPskey.BDADDR % 65536 ∧
    (strncasecmp token (cstr "0x") 2 = 0 ↔
      ∃ c rest, token = 48 :: c :: rest ∧ (c = 120 ∨ c = 88)) := by
  have hhex : ∀ ds, all_digits 16 ds → digits_value 16 ds ≤ 2147483647 →
      to_u16 (strtol long_max ds 16) = digits_value 16 ds % 65536 := by
    intro ds hds hv
    rw [strtol_of_digits long_max 16 ds (le_refl _) hds (le_trans hv hlong), to_u16_natCast]
  have hdec : ∀ ds, all_digits 10 ds → digits_value 10 ds ≤ 2147483647 →
      to_u16 (atoi long_max ds) = digits_value 10 ds % 65536 := by
    intro ds hds hv
    unfold atoi
    rw [strtol_of_digits long_max 10 ds (by omega) hds (le_trans hv hlong),
      to_int_of_small _ hv, to_u16_natCast]
  have hname : ∀ t, strncasecmp t (cstr "0x") 2 ≠ 0 →
      ∀ e ∈ storage_names, strcasecmp (cstr e.2) t = 0 →
        resolve_pskey long_max ids t = ids e.1 % 65536 := by
    intro t hx e he hm
    unfold resolve_pskey
    rw [if_pos hx]
    exact storage_scan_name ids hids t _ e he hm
  have hnone : ∀ t, strncasecmp t (cstr "0x") 2 ≠ 0 →
      (∀ e ∈ storage_names, strcasecmp (cstr e.2) t ≠ 0) →
        resolve_pskey long_max ids t = to_u16 (atoi long_max t) := by
    intro t hx hm
    unfold resolve_pskey
    rw [if_pos hx]
    exact storage_scan_no_name ids hids t _ hm
  refine ⟨?_, hname token, hnone token, hhex, hdec, ?_, ?_, ?_, strncasecmp_0x_iff token⟩
  · intro hx
    unfold resolve_pskey
    rw [if_neg (not_not.2 hx)]
  · have h1 : resolve_pskey long_max ids (cstr "0x1234")
        = to_u16 (strtol long_max ((cstr "0x1234").drop 2) 16) := by
      unfold resolve_pskey
      rw [if_neg (by decide)]
    rw [h1, show (cstr "0x1234").drop 2 = cstr "1234" by decide,
      hhex (cstr "1234") (by decide) (by decide)]
    decide
  · rw [hnone (cstr "1234") (by decide) (by decide),
      hdec (cstr "1234") (by decide) (by decide)]
    decide
  · exact hname (cstr "bdaddr") (by decide) (CsrPskey.BDADDR, "bdaddr") (by decide) (by decide)

/-- C4, at a concrete input: with the sample key ids the token `BdAddr`, which
has no hex mark and matches the row `bdaddr` ignoring case, resolves to 0x0001. -/
theorem resolve_pskey_order_witness :
    (2147483647 ≤ 2147483647) ∧ (∀ k, sim_pskey k % 65536 ≠ 0) ∧
    strncasecmp (cstr "BdAddr") (cstr "0x") 2 ≠ 0 ∧
    strcasecmp (cstr "bdaddr") (cstr "BdAddr") = 0 ∧
    resolve_pskey 2147483647 sim_pskey (cstr "BdAddr") = 0x0001 :=
  ⟨le_refl _, fun k => by cases k <;> decide, by decide, by decide,
    (resolve_pskey_order 2147483647 sim_pskey (le_refl _) (fun k => by cases k <;> decide)
      (cstr "BdAddr")).2.1 (by decide) (CsrPskey.BDADDR, "bdaddr") (by decide) (by decide)⟩

/-! ## Buffers and transport -/

theorem length_put (a : List Nat) (i v : Nat) : (put a i v).length = a.length := by
  simp [put]

theorem length_frame4 (n x y : Nat) : (frame4 n x y).length = n := by
  simp [frame4, length_put, memset0]

theorem length_frame6 (n k l s : Nat) : (frame6 n k l s).length = n := by
  simp [frame6, length_put, length_frame4]

theorem length_fixbuf (n : Nat) (buf : List Nat) : (fixbuf n buf).length = n := by
  simp [fixbuf]

theorem getD_fixbuf (n : Nat) (buf : List Nat) (i : Nat) (hi : i < n) :
    (fixbuf n buf).getD i 0 = byte buf i := by
  unfold fixbuf byte
  rw [List.getD_eq_getElem?_getD, List.getD_eq_getElem?_getD, List.getElem?_take_of_lt hi]
  by_cases h : i < buf.length
  · rw [List.getElem?_append_left (by simpa using h)]
    simp [List.getElem?_eq_getElem h]
  · have h2 : buf.length ≤ i := Nat.le_of_not_lt h
    rw [List.getElem?_append_right (by simpa using h2)]
    simp only [List.length_map, List.getElem?_eq_none h2, Option.getD_none, Nat.zero_mod]
    rw [List.getElem?_replicate]
    split <;> rfl

theorem byte_lt (frame : List Nat) (i : Nat) : byte frame i < 256 :=
  Nat.mod_lt _ (by decide)

theorem get16_fixbuf (n : Nat) (buf : List Nat) (i : Nat) (hi : i + 1 < n) :
    get16 (fixbuf n buf) i = byte buf i + (byte buf (i + 1) <<< 8) := by
  unfold get16
  rw [getD_fixbuf n buf i (by omega), getD_fixbuf n buf (i + 1) hi]
  have h1 := byte_lt buf i
  have h2 := byte_lt buf (i + 1)
  rw [Nat.shiftLeft_eq]
  omega

theorem transport_read_supported {σ : Type} (E : Env σ) (transport : Nat) (varid : Varid)
    (value : List Nat) (length : Nat) (w : World σ)
    (hsup : transport_supported E.have_libusb transport = true) :
    transport_read E transport varid value length w =
      { err := (E.csr_read transport varid value length w.chip).1.1,
        array := fixbuf value.length (E.csr_read transport varid value length w.chip).1.2,
        world := { w with chip := (E.csr_read transport varid value length w.chip).2,
                          trace := w.trace ++ [Event.read varid value length] } } := by
  simp [transport_read, hsup]

theorem transport_write_supported {σ : Type} (E : Env σ) (transport : Nat) (varid : Varid)
    (value : List Nat) (length : Nat) (w : World σ)
    (hsup : transport_supported E.have_libusb transport = true) :
    transport_write E transport varid value length w =
      ((E.csr_write transport varid value length w.chip).1,
        { w with chip := (E.csr_write transport varid value length w.chip).2,
                 trace := w.trace ++ [Event.write varid value length] }) := by
  simp [transport_write, hsup]

theorem reset_write_out {σ : Type} (E : Env σ) (transport : Nat) (reset : Bool) (w : World σ) :
    (reset_write E transport reset w).out = w.out := by
  unfold reset_write transport_write
  split
  · split <;> rfl
  · rfl

theorem psget_val32_fixbuf (n : Nat) (buf : List Nat) (hn : 9 < n) :
    psget_val32 (fixbuf n buf) =
      byte buf 8 ||| (byte buf 9 <<< 8) ||| (byte buf 6 <<< 16) ||| (byte buf 7 <<< 24) := by
  unfold psget_val32
  rw [getD_fixbuf n buf 8 (by omega), getD_fixbuf n buf 9 hn, getD_fixbuf n buf 6 (by omega),
    getD_fixbuf n buf 7 (by omega)]
  apply Nat.mod_eq_of_lt
  have h6 := byte_lt buf 6
  have h7 := byte_lt buf 7
  have h8 := byte_lt buf 8
  have h9 := byte_lt buf 9
  have e : (4294967296 : Nat) = 2 ^ 32 := by norm_num
  rw [e]
  refine Nat.or_lt_two_pow (Nat.or_lt_two_pow (Nat.or_lt_two_pow ?_ ?_) ?_) ?_
  · omega
  · rw [Nat.shiftLeft_eq]; omega
  · rw [Nat.shiftLeft_eq]; omega
  · rw [Nat.shiftLeft_eq]; omega

/-! ## `cmd_psget`: decoding -/

/-- C1: in `cmd_psget`, when the size query reports a length of 2 words and
the PS read succeeds, the line printed carries the 32-bit value
`b8 | (b9 << 8) | (b6 << 16) | (b7 << 24)` of the bytes of the read response:
low 16 bits from offsets 8-9, high 16 bits from offsets 6-7. In particular the
bytes 0x01, 0x02, 0x03, 0x04 at offsets 6, 7, 8, 9 give 0x02010403. -/
theorem cmd_psget_scalar32 {σ : Type} (E : Env σ) (transport : Nat) (argv : List CStr)
    (w : World σ) (pskey stores : Nat) (size_rsp rsp : (Int × List Nat) × σ)
    (hsup : transport_supported E.have_libusb transport = true)
    (hargs : OPT_RANGE 1 1 (argv.drop (opt_pskey E argv CSR_STORES_DEFAULT false).2.2) = none)
    (hkey : resolve_pskey E.long_max E.pskey
      ((argv.drop (opt_pskey E argv CSR_STORES_DEFAULT false).2.2).headD []) = pskey)
    (hstores : (opt_pskey E argv CSR_STORES_DEFAULT false).1 = stores)
    (hsize : E.csr_read transport Varid.PS_SIZE (frame4 128 pskey stores) 8 w.chip = size_rsp)
    (hsize_ok : 0 ≤ size_rsp.1.1)
    (hlen : byte size_rsp.1.2 2 + (byte size_rsp.1.2 3 <<< 8) = 2)
    (hread : E.csr_read transport Varid.PS (frame6 128 pskey 2 stores) ((2 + 3) * 2) size_rsp.2
      = rsp)
    (hread_ok : 0 ≤ rsp.1.1) :
    (cmd_psget E transport argv w).2.out =
      w.out ++ [Line.psget32 pskey
        (byte rsp.1.2 8 ||| (byte rsp.1.2 9 <<< 8) ||| (byte rsp.1.2 6 <<< 16)
          ||| (byte rsp.1.2 7 <<< 24))] ∧
    (byte rsp.1.2 6 = 0x01 → byte rsp.1.2 7 = 0x02 → byte rsp.1.2 8 = 0x03 →
      byte rsp.1.2 9 = 0x04 →
      (cmd_psget E transport argv w).2.out = w.out ++ [Line.psget32 pskey 0x02010403]) := by
  have hmain : (cmd_psget E transport argv w).2.out =
      w.out ++ [Line.psget32 pskey
        (byte rsp.1.2 8 ||| (byte rsp.1.2 9 <<< 8) ||| (byte rsp.1.2 6 <<< 16)
          ||| (byte rsp.1.2 7 <<< 24))] := by
    have hl : get16 (fixbuf 128 size_rsp.1.2) 2 = 2 := by
      rw [get16_fixbuf 128 _ 2 (by omega)]; exact hlen
    unfold cmd_psget
    simp only [hargs, hkey, hstores, transport_read_supported _ _ _ _ _ _ hsup, hsize,
      length_frame4, length_frame6, hl, hread, not_lt.2 hsize_ok, not_lt.2 hread_ok, if_false,
      reset_write_out, psget_print, psget_val32_fixbuf 128 _ (by omega)]
    simp [reset_write_out]
  refine ⟨hmain, ?_⟩
  intro h6 h7 h8 h9
  rw [hmain, h6, h7, h8, h9]
  rfl

/-- C1, at a concrete input: `psget 0x1234` over HCI against the simulated
responder that reports 2 words and returns the bytes 0x01, 0x02, 0x03, 0x04 at
offsets 6..9 prints the value 0x02010403. -/
theorem cmd_psget_scalar32_witness :
    transport_supported (simEnv 2 [1, 2, 3, 4]).have_libusb CSR_TRANSPORT_HCI = true ∧
    (cmd_psget (simEnv 2 [1, 2, 3, 4]) CSR_TRANSPORT_HCI [cstr "psget", cstr "0x1234"]
      (World.init [])).2.out = [Line.psget32 0x1234 0x02010403] :=
  ⟨by decide,
    (cmd_psget_scalar32 (simEnv 2 [1, 2, 3, 4]) CSR_TRANSPORT_HCI [cstr "psget", cstr "0x1234"]
      (World.init []) 0x1234 CSR_STORES_DEFAULT _ _ (by decide) (by decide) (by decide)
      (by decide) rfl (by decide) (by decide) rfl (by decide)).2
      (by decide) (by decide) (by decide) (by decide)⟩

/-! ## Round trips between `cmd_psset` and `cmd_psget` -/

theorem getD_put (a : List Nat) (i v j : Nat) :
    (put a i v).getD j 0 = if i = j ∧ i < a.length then v % 256 else a.getD j 0 := by
  unfold put
  rw [List.getD_eq_getElem?_getD, List.getD_eq_getElem?_getD, List.getElem?_set]
  by_cases hij : i = j
  · subst hij
    by_cases hl : i < a.length
    · simp [hl]
    · have hl2 : a.length ≤ i := by omega
      simp [hl, List.getElem?_eq_none hl2]
  · simp [hij]

theorem and_mask_shift (v k : Nat) : (v &&& (255 <<< k)) >>> k = (v / 2 ^ k) % 256 := by
  have h : (v &&& (255 <<< k)) >>> k = (v >>> k) &&& (2 ^ 8 - 1) := by
    apply Nat.eq_of_testBit_eq
    intro i
    simp only [Nat.testBit_shiftRight, Nat.testBit_and, Nat.testBit_shiftLeft]
    simp
  rw [h, Nat.and_pow_two_sub_one_eq_mod, Nat.shiftRight_eq_div_pow]

theorem or_shift_eq_add (a b k : Nat) (ha : a < 2 ^ k) : a ||| (b <<< k) = a + 2 ^ k * b := by
  rw [Nat.or_comm, Nat.shiftLeft_eq, Nat.mul_comm b, ← Nat.mul_add_lt_is_or ha b]
  omega

/-- C2: scalar32 round trip. For every 32-bit value `v`, a read response whose
bytes 6..9 are the bytes that `case 2` of `cmd_psset` stores at offsets 6..9
for `val32 = v` is decoded by `case 2` of `cmd_psget` to exactly `v`; and
`case 2` of `cmd_psset` stores these bytes for the value read from its single
value token. -/
theorem scalar32_round_trip (v : Nat) (hv : v < 4294967296) (array rsp : List Nat)
    (hlen : 10 ≤ array.length)
    (hrsp : ∀ i, 6 ≤ i → i ≤ 9 → byte rsp i = (psset_put32 array v).getD i 0) :
    psget_val32 (fixbuf 128 rsp) = v ∧
    (∀ long_max tok, psset_payload long_max 2 [tok] array =
      Except.ok (psset_put32 array (to_u32 (psset_number long_max tok tok)))) := by
  constructor
  · rw [psget_val32_fixbuf 128 rsp (by omega), hrsp 6 (by omega) (by omega),
      hrsp 7 (by omega) (by omega), hrsp 8 (by omega) (by omega), hrsp 9 (by omega) (by omega)]
    simp only [psset_put32, getD_put, length_put]
    have e8 : v &&& 0xff = v % 256 := Nat.and_pow_two_sub_one_eq_mod v 8
    have e9 : (v &&& 0xff00) >>> 8 = (v / 2 ^ 8) % 256 := and_mask_shift v 8
    have e6 : (v &&& 0xff0000) >>> 16 = (v / 2 ^ 16) % 256 := and_mask_shift v 16
    have e7 : v >>> 24 = v / 2 ^ 24 := Nat.shiftRight_eq_div_pow v 24
    rw [e6, e7, e8, e9]
    have h6 : (6 : Nat) < array.length := by omega
    have h7 : (7 : Nat) < array.length := by omega
    have h8 : (8 : Nat) < array.length := by omega
    have h9 : (9 : Nat) < array.length := by omega
    simp only [h6, h7, h8, h9, and_true, if_true, if_false, Nat.reduceEqDiff, false_and,
      Nat.mod_mod]
    rw [or_shift_eq_add _ _ 8 (by omega), or_shift_eq_add _ _ 16 (by omega),
      or_shift_eq_add _ _ 24 (by omega)]
    omega
  · intro long_max tok
    simp [psset_payload]

/-- C2, at a concrete input: the value 0x02010403 stored in a PS write frame
and read back from the same frame. -/
theorem scalar32_round_trip_witness :
    (0x02010403 < 4294967296) ∧
    psget_val32 (fixbuf 128 (psset_put32 (frame6 128 0x1234 2 8) 0x02010403)) = 0x02010403 :=
  ⟨by decide,
    (scalar32_round_trip 0x02010403 (by decide) (frame6 128 0x1234 2 8)
      (psset_put32 (frame6 128 0x1234 2 8) 0x02010403) (by simp [length_frame6])
      (fun i h1 h2 => by
        have hi : i = 6 ∨ i = 7 ∨ i = 8 ∨ i = 9 := by omega
        rcases hi with rfl | rfl | rfl | rfl <;> rfl)).1⟩

/-- C3: scalar16 round trip. For every 16-bit value `v`, `case 1` of
`cmd_psset` stores the low byte of `v` at offset 6 and the high byte at
offset 7, and a read response whose bytes 6 and 7 are these two bytes is
decoded by `case 1` of `cmd_psget` (`array[6] | (array[7] << 8)`) to exactly
`v`; `case 1` of `cmd_psset` stores these bytes for the value read from its
single value token. -/
theorem scalar16_round_trip (v : Nat) (hv : v < 65536) (array rsp : List Nat)
    (hlen : 8 ≤ array.length)
    (hrsp : ∀ i, 6 ≤ i → i ≤ 7 → byte rsp i = (psset_put16 array v).getD i 0) :
    psget_value (fixbuf 128 rsp) = v ∧
    (psset_put16 array v).getD 6 0 = v % 256 ∧
    (psset_put16 array v).getD 7 0 = v / 256 ∧
    (∀ long_max tok, psset_payload long_max 1 [tok] array =
      Except.ok (psset_put16 array (to_u16 (psset_number long_max tok tok)))) := by
  have h6 : (6 : Nat) < array.length := by omega
  have h7 : (7 : Nat) < array.length := by omega
  have e6 : v &&& 0xff = v % 256 := Nat.and_pow_two_sub_one_eq_mod v 8
  have e7 : v >>> 8 = v / 2 ^ 8 := Nat.shiftRight_eq_div_pow v 8
  have g6 : (psset_put16 array v).getD 6 0 = v % 256 := by
    simp only [psset_put16, getD_put, length_put, e6, e7]
    simp [h6]
  have g7 : (psset_put16 array v).getD 7 0 = v / 256 := by
    simp only [psset_put16, getD_put, length_put, e6, e7]
    simp only [h7, and_true, if_true]
    omega
  refine ⟨?_, g6, g7, ?_⟩
  · unfold psget_value
    rw [getD_fixbuf 128 rsp 6 (by omega), getD_fixbuf 128 rsp 7 (by omega),
      hrsp 6 (by omega) (by omega), hrsp 7 (by omega) (by omega), g6, g7,
      or_shift_eq_add _ _ 8 (by omega)]
    omega
  · intro long_max tok
    simp [psset_payload]

/-- C3, at a concrete input: the value 0x1d8 stored in a PS write frame and
read back from the same frame. -/
theorem scalar16_round_trip_witness :
    (0x1d8 < 65536) ∧
    psget_value (fixbuf 128 (psset_put16 (frame6 128 0x1be 1 8) 0x1d8)) = 0x1d8 :=
  ⟨by decide,
    (scalar16_round_trip 0x1d8 (by decide) (frame6 128 0x1be 1 8)
      (psset_put16 (frame6 128 0x1be 1 8) 0x1d8) (by simp [length_frame6])
      (fun i h1 h2 => by
        have hi : i = 6 ∨ i = 7 := by omega
        rcases hi with rfl | rfl <;> rfl)).1⟩

/-! ## Tokens that are no key -/

theorem reset_write_trace {σ : Type} (E : Env σ) (transport : Nat) (reset : Bool) (w : World σ) :
    (reset_write E transport reset w).trace =
      w.trace ++ (if reset = true ∧ transport_supported E.have_libusb transport = true
        then [Event.write Varid.WARM_RESET [] 0] else []) := by
  unfold reset_write transport_write
  by_cases hr : reset = true <;> by_cases hs : transport_supported E.have_libusb transport = true
    <;> simp [hr, hs]

theorem cmd_psget_first_request {σ : Type} (E : Env σ) (transport : Nat) (argv : List CStr)
    (w : World σ)
    (hsup : transport_supported E.have_libusb transport = true)
    (hargs : OPT_RANGE 1 1 (argv.drop (opt_pskey E argv CSR_STORES_DEFAULT false).2.2) = none) :
    ∃ rest, (cmd_psget E transport argv w).2.trace =
      w.trace ++ Event.read Varid.PS_SIZE
        (frame4 128 (resolve_pskey E.long_max E.pskey
            ((argv.drop (opt_pskey E argv CSR_STORES_DEFAULT false).2.2).headD []))
          (opt_pskey E argv CSR_STORES_DEFAULT false).1) 8 :: rest := by
  unfold cmd_psget
  simp only [hargs, transport_read_supported _ _ _ _ _ _ hsup]
  split_ifs
  · exact ⟨[], by simp⟩
  · exact ⟨[], by simp⟩
  · simp only [List.append_assoc, List.singleton_append, List.append_cancel_left_eq,
      List.cons.injEq, true_and]
    exact ⟨_, rfl⟩
  · simp only [reset_write_trace, List.append_assoc, List.singleton_append,
      List.cons_append, List.append_cancel_left_eq, List.cons.injEq, true_and]
    exact ⟨_, rfl⟩

theorem atoi_no_number (long_max : Nat) (token : CStr)
    (hsp : isspace (token.headD 0) = false)
    (hsign : token.headD 0 ≠ 43 ∧ token.headD 0 ≠ 45)
    (hdig : ¬ (48 ≤ token.headD 0 ∧ token.headD 0 ≤ 57)) :
    atoi long_max token = 0 := by
  cases token with
  | nil => simp [atoi, strtol, strtol_sign, strtol_0x, strtol_digits, to_int]
  | cons c cs =>
    simp only [List.headD_cons] at hsp hsign hdig
    have hdrop : (c :: cs).dropWhile isspace = c :: cs := by
      simp [List.dropWhile_cons, hsp]
    have hs : strtol_sign (c :: cs) = (false, c :: cs) := by
      unfold strtol_sign
      split
      · rename_i heq; simp only [List.cons.injEq] at heq; omega
      · rename_i heq; simp only [List.cons.injEq] at heq; omega
      · rfl
    have h0x : strtol_0x 10 (c :: cs) = c :: cs := by
      unfold strtol_0x
      split
      · rename_i heq; simp only [List.cons.injEq] at heq; omega
      · rfl
    have hd : strtol_digits 10 (c :: cs) 0 = 0 := by
      unfold strtol_digits digitVal
      split_ifs <;> simp <;> omega
    unfold atoi
    dsimp only [strtol]
    rw [hdrop, hs]
    dsimp only
    rw [h0x, hd]
    simp [to_int]

set_option maxRecDepth 100000 in
/-- C5, refuted at `psget not-a-key`: the token has no hex mark, matches no
name of the `storage` table and is no decimal number, yet `cmd_psget` returns
0 and sends the size query and the PS read for key id 0x0000. -/
theorem cmd_psget_invalid_key_counterexample :
    strncasecmp (cstr "not-a-key") (cstr "0x") 2 ≠ 0 ∧
    (∀ e ∈ storage_names, strcasecmp (cstr e.2) (cstr "not-a-key") ≠ 0) ∧
    ¬ all_digits 10 (cstr "not-a-key") ∧
    (cmd_psget (simEnv 1 [0x34, 0x12]) CSR_TRANSPORT_HCI [cstr "psget", cstr "not-a-key"]
      (World.init [])).1 = 0 ∧
    (cmd_psget (simEnv 1 [0x34, 0x12]) CSR_TRANSPORT_HCI [cstr "psget", cstr "not-a-key"]
      (World.init [])).2.trace =
        [Event.read Varid.PS_SIZE (frame4 128 0x0000 CSR_STORES_DEFAULT) 8,
          Event.read Varid.PS (frame6 128 0x0000 1 CSR_STORES_DEFAULT) 8] :=
  ⟨by decide, by decide, by decide, rfl, rfl⟩

/-- C5, as amended: a key token without hex mark that matches no name of the
`storage` table and does not start with white space, a sign or a decimal
digit resolves to key id 0x0000 (`atoi` returns 0), and `cmd_psget` goes on to
send the size query for key id 0x0000 as its first request; there is no
invalid-key error. -/
theorem cmd_psget_unparsable_key {σ : Type} (E : Env σ) (transport : Nat) (argv : List CStr)
    (w : World σ) (token : CStr)
    (hsup : transport_supported E.have_libusb transport = true)
    (hargs : OPT_RANGE 1 1 (argv.drop (opt_pskey E argv CSR_STORES_DEFAULT false).2.2) = none)
    (hids : ∀ k, E.pskey k % 65536 ≠ 0)
    (htok : (argv.drop (opt_pskey E argv CSR_STORES_DEFAULT false).2.2).headD [] = token)
    (hhex : strncasecmp token (cstr "0x") 2 ≠ 0)
    (hname : ∀ e ∈ storage_names, strcasecmp (cstr e.2) token ≠ 0)
    (hsp : isspace (token.headD 0) = false)
    (hsign : token.headD 0 ≠ 43 ∧ token.headD 0 ≠ 45)
    (hdig : ¬ (48 ≤ token.headD 0 ∧ token.headD 0 ≤ 57)) :
    resolve_pskey E.long_max E.pskey token = 0x0000 ∧
    ∃ rest, (cmd_psget E transport argv w).2.trace =
      w.trace ++ Event.read Varid.PS_SIZE
        (frame4 128 0x0000 (opt_pskey E argv CSR_STORES_DEFAULT false).1) 8 :: rest := by
  have hres : resolve_pskey E.long_max E.pskey token = 0x0000 := by
    unfold resolve_pskey
    rw [if_pos hhex, storage_scan_no_name E.pskey hids token _ hname,
      atoi_no_number E.long_max token hsp hsign hdig]
    rfl
  refine ⟨hres, ?_⟩
  have h := cmd_psget_first_request E transport argv w hsup hargs
  rw [htok, hres] at h
  exact h

/-- C5 as amended, at a concrete input: `psget not-a-key` against the
simulated responder. -/
theorem cmd_psget_unparsable_key_witness :
    resolve_pskey (simEnv 1 [0x34, 0x12]).long_max (simEnv 1 [0x34, 0x12]).pskey
      (cstr "not-a-key") = 0x0000 ∧
    ∃ rest, (cmd_psget (simEnv 1 [0x34, 0x12]) CSR_TRANSPORT_HCI
        [cstr "psget", cstr "not-a-key"] (World.init [])).2.trace =
      (World.init ([] : List Nat)).trace ++ Event.read Varid.PS_SIZE
        (frame4 128 0x0000 (opt_pskey (simEnv 1 [0x34, 0x12])
          [cstr "psget", cstr "not-a-key"] CSR_STORES_DEFAULT false).1) 8 :: rest :=
  cmd_psget_unparsable_key (simEnv 1 [0x34, 0x12]) CSR_TRANSPORT_HCI
    [cstr "psget", cstr "not-a-key"] (World.init []) (cstr "not-a-key")
    (by decide) (by decide) (fun k => by cases k <;> decide) rfl (by decide) (by decide)
    (by decide) (by decide) (by decide)

/-! ## Enumeration -/

theorem get16_frame4_key (n x y : Nat) (hn : 2 ≤ n) (hx : x < 65536) :
    get16 (frame4 n x y) 0 = x := by
  have e0 : x &&& 0xff = x % 256 := Nat.and_pow_two_sub_one_eq_mod x 8
  have e1 : x >>> 8 = x / 2 ^ 8 := Nat.shiftRight_eq_div_pow x 8
  have hl : (memset0 n).length = n := by simp [memset0]
  unfold get16 frame4
  simp only [getD_put, length_put, hl, e0, e1]
  have h0 : 0 < n := by omega
  have h1 : 1 < n := by omega
  simp only [h0, h1, and_true, if_true, Nat.reduceEqDiff, false_and, if_false, Nat.mod_mod,
    Nat.reduceAdd, OfNat.zero_ne_ofNat, OfNat.ofNat_ne_zero, OfNat.ofNat_ne_one,
    OfNat.one_ne_ofNat, one_ne_zero, zero_ne_one]
  rw [Nat.shiftLeft_eq]
  omega

theorem get16_lt (a : List Nat) (i : Nat) : get16 a i < 65536 :=
  Nat.mod_lt _ (by decide)

theorem next_requests_append (a b : List Event) :
    next_requests (a ++ b) = next_requests a ++ next_requests b := by
  simp [next_requests, List.filterMap_append]

theorem size_requests_append (a b : List Event) :
    size_requests (a ++ b) = size_requests a ++ size_requests b := by
  simp [size_requests, List.filterMap_append]

theorem pslist_loop_enumerates {σ : Type} (E : Env σ) (transport stores : Nat)
    (script : σ → List Nat)
    (hsup : transport_supported E.have_libusb transport = true)
    (hE : Enumerates E script) :
    ∀ (ks : List Nat) (prev : Nat) (w : World σ), prev < 65536 → (∀ k ∈ ks, k ≠ 0) →
      script w.chip = ks ++ [0] →
      ∃ w1 new, pslist_loop E transport stores (ks.length + 1) prev w = some w1 ∧
        w1.trace = w.trace ++ new ∧ next_requests new = prev :: ks ∧
        size_requests new = ks := by
  intro ks
  induction ks with
  | nil =>
    intro prev w hprev _ hscript
    obtain ⟨h1, h2, _⟩ := hE.1 transport (frame4 8 prev stores) 8 w.chip 0 [] hscript
    refine ⟨{ w with
        chip := (E.csr_read transport Varid.PS_NEXT (frame4 8 prev stores) 8 w.chip).2,
        trace := w.trace ++ [Event.read Varid.PS_NEXT (frame4 8 prev stores) 8] },
      [Event.read Varid.PS_NEXT (frame4 8 prev stores) 8], ?_, rfl, ?_, rfl⟩
    · simp only [List.length_nil, Nat.zero_add, pslist_loop,
        transport_read_supported _ _ _ _ _ _ hsup, length_frame4,
        get16_fixbuf 8 _ 4 (by omega), h2, not_lt.2 h1, if_false, if_true]
    · simp [next_requests, get16_frame4_key 8 prev stores (by omega) hprev]
  | cons k ks ih =>
    intro prev w hprev hks hscript
    obtain ⟨h1, h2, h3⟩ := hE.1 transport (frame4 8 prev stores) 8 w.chip k (ks ++ [0])
      (by simpa using hscript)
    have hk0 : k ≠ 0 := hks k (List.mem_cons_self _ _)
    have hklt : k < 65536 := by
      have := get16_lt (fixbuf 8 (E.csr_read transport Varid.PS_NEXT (frame4 8 prev stores) 8
        w.chip).1.2) 4
      rw [get16_fixbuf 8 _ 4 (by omega), h2] at this
      exact this
    have hks2 : ∀ x ∈ ks, x ≠ 0 := fun x hx => hks x (List.mem_cons_of_mem _ hx)
    have h4 := hE.2 transport Varid.PS_SIZE (frame4 8 k stores) 8
      (E.csr_read transport Varid.PS_NEXT (frame4 8 prev stores) 8 w.chip).2 (by decide)
    rw [h3] at h4
    have key : ∀ W : World σ,
        W.chip = (E.csr_read transport Varid.PS_SIZE (frame4 8 k stores) 8
          (E.csr_read transport Varid.PS_NEXT (frame4 8 prev stores) 8 w.chip).2).2 →
        W.trace = w.trace ++ [Event.read Varid.PS_NEXT (frame4 8 prev stores) 8,
          Event.read Varid.PS_SIZE (frame4 8 k stores) 8] →
        ∃ w1 new, pslist_loop E transport stores (ks.length + 1) k W = some w1 ∧
          w1.trace = w.trace ++ new ∧ next_requests new = prev :: k :: ks ∧
          size_requests new = k :: ks := by
      intro W hchip htrace
      obtain ⟨w1, new, e1, e2, e3, e4⟩ := ih k W hklt hks2 (by rw [hchip]; exact h4)
      refine ⟨w1, [Event.read Varid.PS_NEXT (frame4 8 prev stores) 8,
        Event.read Varid.PS_SIZE (frame4 8 k stores) 8] ++ new, e1, ?_, ?_, ?_⟩
      · rw [e2, htrace]; simp
      · rw [next_requests_append, e3]
        simp [next_requests, get16_frame4_key 8 prev stores (by omega) hprev]
      · rw [size_requests_append, e4]
        simp [size_requests, get16_frame4_key 8 k stores (by omega) hklt]
    rw [List.length_cons, pslist_loop]
    simp only [transport_read_supported _ _ _ _ _ _ hsup,
      length_frame4, get16_fixbuf 8 _ 4 (by omega), h2, not_lt.2 h1, if_false, hk0]
    split_ifs
    · apply key
      · rfl
      · simp
    · apply key
      · rfl
      · simp

theorem psread_loop_enumerates {σ : Type} (E : Env σ) (transport stores : Nat)
    (script : σ → List Nat)
    (hsup : transport_supported E.have_libusb transport = true)
    (hE : Enumerates E script) :
    ∀ (ks : List Nat) (prev : Nat) (w : World σ), prev < 65536 → (∀ k ∈ ks, k ≠ 0) →
      script w.chip = ks ++ [0] →
      ∃ w1 new, psread_loop E transport stores (ks.length + 1) prev w = some w1 ∧
        w1.trace = w.trace ++ new ∧ next_requests new = prev :: ks ∧
        size_requests new = ks := by
  intro ks
  induction ks with
  | nil =>
    intro prev w hprev _ hscript
    obtain ⟨h1, h2, _⟩ := hE.1 transport (frame4 256 prev stores) 8 w.chip 0 [] hscript
    refine ⟨{ w with
        chip := (E.csr_read transport Varid.PS_NEXT (frame4 256 prev stores) 8 w.chip).2,
        trace := w.trace ++ [Event.read Varid.PS_NEXT (frame4 256 prev stores) 8] },
      [Event.read Varid.PS_NEXT (frame4 256 prev stores) 8], ?_, rfl, ?_, rfl⟩
    · simp only [List.length_nil, Nat.zero_add, psread_loop,
        transport_read_supported _ _ _ _ _ _ hsup, length_frame4,
        get16_fixbuf 256 _ 4 (by omega), h2, not_lt.2 h1, if_false, if_true]
    · simp [next_requests, get16_frame4_key 256 prev stores (by omega) hprev]
  | cons k ks ih =>
    intro prev w hprev hks hscript
    obtain ⟨h1, h2, h3⟩ := hE.1 transport (frame4 256 prev stores) 8 w.chip k (ks ++ [0])
      (by simpa using hscript)
    have hk0 : k ≠ 0 := hks k (List.mem_cons_self _ _)
    have hklt : k < 65536 := by
      have := get16_lt (fixbuf 256 (E.csr_read transport Varid.PS_NEXT
        (frame4 256 prev stores) 8 w.chip).1.2) 4
      rw [get16_fixbuf 256 _ 4 (by omega), h2] at this
      exact this
    have hks2 : ∀ x ∈ ks, x ≠ 0 := fun x hx => hks x (List.mem_cons_of_mem _ hx)
    have h4 := hE.2 transport Varid.PS_SIZE (frame4 256 k stores) 8
      (E.csr_read transport Varid.PS_NEXT (frame4 256 prev stores) 8 w.chip).2 (by decide)
    rw [h3] at h4
    have hn2 : next_requests [Event.read Varid.PS_NEXT (frame4 256 prev stores) 8,
        Event.read Varid.PS_SIZE (frame4 256 k stores) 8] = [prev] := by
      simp [next_requests, get16_frame4_key 256 prev stores (by omega) hprev]
    have hs2 : size_requests [Event.read Varid.PS_NEXT (frame4 256 prev stores) 8,
        Event.read Varid.PS_SIZE (frame4 256 k stores) 8] = [k] := by
      simp [size_requests, get16_frame4_key 256 k stores (by omega) hklt]
    have key : ∀ (W : World σ) (extra : List Event), script W.chip = ks ++ [0] →
        W.trace = w.trace ++ [Event.read Varid.PS_NEXT (frame4 256 prev stores) 8]
          ++ [Event.read Varid.PS_SIZE (frame4 256 k stores) 8] ++ extra →
        next_requests extra = [] → size_requests extra = [] →
        ∃ w1 new, psread_loop E transport stores (ks.length + 1) k W = some w1 ∧
          w1.trace = w.trace ++ new ∧ next_requests new = prev :: k :: ks ∧
          size_requests new = k :: ks := by
      intro W extra hchip htrace hn hs
      obtain ⟨w1, new, e1, e2, e3, e4⟩ := ih k W hklt hks2 hchip
      refine ⟨w1, [Event.read Varid.PS_NEXT (frame4 256 prev stores) 8,
        Event.read Varid.PS_SIZE (frame4 256 k stores) 8] ++ (extra ++ new), e1, ?_, ?_, ?_⟩
      · rw [e2, htrace]; simp
      · rw [next_requests_append, next_requests_append, e3, hn, hn2]; rfl
      · rw [size_requests_append, size_requests_append, e4, hs, hs2]; rfl
    rw [List.length_cons, psread_loop]
    simp only [transport_read_supported _ _ _ _ _ _ hsup,
      length_frame4, length_frame6, get16_fixbuf 256 _ 4 (by omega), h2, not_lt.2 h1,
      if_false, hk0]
    split_ifs
    · exact key _ [] h4 (by simp) rfl rfl
    · exact key _ [] h4 (by simp) rfl rfl
    · refine key _ _ ?_ rfl rfl rfl
      rw [hE.2 transport Varid.PS _ _ _ (by decide)]; exact h4
    · refine key _ _ ?_ rfl rfl rfl
      rw [hE.2 transport Varid.PS _ _ _ (by decide)]; exact h4

theorem next_requests_reset (b : Bool) :
    next_requests (if b then [Event.write Varid.WARM_RESET [] 0] else []) = [] := by
  cases b <;> rfl

theorem size_requests_reset (b : Bool) :
    size_requests (if b then [Event.write Varid.WARM_RESET [] 0] else []) = [] := by
  cases b <;> rfl

theorem reset_write_trace_bool {σ : Type} (E : Env σ) (transport : Nat) (reset : Bool)
    (w : World σ) :
    (reset_write E transport reset w).trace =
      w.trace ++ (if (reset && transport_supported E.have_libusb transport) = true
        then [Event.write Varid.WARM_RESET [] 0] else []) := by
  rw [reset_write_trace]
  simp only [Bool.and_eq_true]

/-- C6: enumeration in `cmd_pslist` and `cmd_psread`. Against a backend whose
successive enumerate-next responses carry the next-keys `k1, ..., kn` (all
nonzero) followed by 0x0000, each command returns 0 after `n + 1` iterations
of its loop, having sent exactly `n + 1` enumerate-next requests whose
previous-key fields are `0x0000, k1, ..., kn` (the first carries 0x0000, each
later one the key of the preceding response) and having gone on to the size
query for exactly the keys `k1, ..., kn`, in that order. -/
theorem enumeration_discovers_keys {σ : Type} (E : Env σ) (transport : Nat)
    (argv : List CStr) (w : World σ) (script : σ → List Nat) (ks : List Nat)
    (hsup : transport_supported E.have_libusb transport = true)
    (hE : Enumerates E script)
    (hargs : OPT_RANGE 0 0 (argv.drop (opt_pskey E argv CSR_STORES_DEFAULT false).2.2) = none)
    (hks : ∀ k ∈ ks, k ≠ 0)
    (hscript : script w.chip = ks ++ [0]) :
    (∃ w1 new, cmd_pslist E (ks.length + 1) transport argv w = some (0, w1) ∧
      w1.trace = w.trace ++ new ∧ next_requests new = 0x0000 :: ks ∧
      (next_requests new).length = ks.length + 1 ∧ size_requests new = ks) ∧
    (∃ w1 new, cmd_psread E (ks.length + 1) transport argv w = some (0, w1) ∧
      w1.trace = w.trace ++ new ∧ next_requests new = 0x0000 :: ks ∧
      (next_requests new).length = ks.length + 1 ∧ size_requests new = ks) := by
  constructor
  · obtain ⟨w0, new, e1, e2, e3, e4⟩ := pslist_loop_enumerates E transport
      (opt_pskey E argv CSR_STORES_DEFAULT false).1 script hsup hE ks 0 w (by decide) hks hscript
    refine ⟨reset_write E transport (opt_pskey E argv CSR_STORES_DEFAULT false).2.1 w0,
      new ++ (if ((opt_pskey E argv CSR_STORES_DEFAULT false).2.1
          && transport_supported E.have_libusb transport) = true
        then [Event.write Varid.WARM_RESET [] 0] else []), ?_, ?_, ?_, ?_, ?_⟩
    · unfold cmd_pslist
      simp only [hargs, e1]
    · rw [reset_write_trace_bool, e2, List.append_assoc]
    · rw [next_requests_append, next_requests_reset, e3, List.append_nil]
    · rw [next_requests_append, next_requests_reset, e3, List.append_nil, List.length_cons]
    · rw [size_requests_append, size_requests_reset, e4, List.append_nil]
  · obtain ⟨w0, new, e1, e2, e3, e4⟩ := psread_loop_enumerates E transport
      (opt_pskey E argv CSR_STORES_DEFAULT false).1 script hsup hE ks 0 w (by decide) hks hscript
    refine ⟨reset_write E transport (opt_pskey E argv CSR_STORES_DEFAULT false).2.1 w0,
      new ++ (if ((opt_pskey E argv CSR_STORES_DEFAULT false).2.1
          && transport_supported E.have_libusb transport) = true
        then [Event.write Varid.WARM_RESET [] 0] else []), ?_, ?_, ?_, ?_, ?_⟩
    · unfold cmd_psread
      simp only [hargs, e1]
    · rw [reset_write_trace_bool, e2, List.append_assoc]
    · rw [next_requests_append, next_requests_reset, e3, List.append_nil]
    · rw [next_requests_append, next_requests_reset, e3, List.append_nil, List.length_cons]
    · rw [size_requests_append, size_requests_reset, e4, List.append_nil]

theorem simEnv_enumerates (len : Nat) (payload : List Nat) :
    Enumerates (simEnv len payload) (fun s => s.map (fun k => k % 65536)) := by
  constructor
  · intro kind value length s k rest h
    cases s with
    | nil => simp at h
    | cons k0 rest0 =>
      simp only [List.map_cons, List.cons.injEq] at h
      obtain ⟨hk, hrest⟩ := h
      simp only [simEnv, sim_read, byte, le_refl, true_and, hrest, and_true]
      simp only [List.getD_eq_getElem?_getD, List.getElem?_cons_succ, List.getElem?_cons_zero,
        Option.getD_some, Nat.mod_mod, Nat.shiftLeft_eq]
      omega
  · intro kind varid value length s hv
    cases varid <;> first | exact absurd rfl hv | rfl

/-- C6, at a concrete input: against the simulated responder that answers
0x0001, 0x0002, 0x0000, `pslist` and `psread` return after three iterations,
and the keys `pslist` has gone on to query are exactly 0x0001 and 0x0002. -/
theorem enumeration_discovers_keys_witness :
    ((∃ w1 new, cmd_pslist (simEnv 1 [0x34, 0x12]) 3 CSR_TRANSPORT_HCI [cstr "pslist"]
        (World.init [1, 2, 0]) = some (0, w1) ∧
      w1.trace = (World.init [1, 2, 0]).trace ++ new ∧ next_requests new = [0, 1, 2] ∧
      (next_requests new).length = 3 ∧ size_requests new = [1, 2]) ∧
    (∃ w1 new, cmd_psread (simEnv 1 [0x34, 0x12]) 3 CSR_TRANSPORT_HCI [cstr "pslist"]
        (World.init [1, 2, 0]) = some (0, w1) ∧
      w1.trace = (World.init [1, 2, 0]).trace ++ new ∧ next_requests new = [0, 1, 2] ∧
      (next_requests new).length = 3 ∧ size_requests new = [1, 2])) ∧
    (cmd_pslist (simEnv 1 [0x34, 0x12]) 3 CSR_TRANSPORT_HCI [cstr "pslist"]
        (World.init [1, 2, 0])).map (fun r => (r.1, size_requests r.2.trace, r.2.out))
      = some (0, [1, 2], [Line.pslist 1 2, Line.pslist 2 2]) :=
  ⟨enumeration_discovers_keys (simEnv 1 [0x34, 0x12]) CSR_TRANSPORT_HCI [cstr "pslist"]
      (World.init [1, 2, 0]) (fun s => s.map (fun k => k % 65536)) [1, 2]
      (by decide) (simEnv_enumerates 1 [0x34, 0x12]) (by decide) (by decide) (by decide),
    by decide⟩

/-! ## Termination of the enumeration loop -/

theorem stuckEnv_read_next (kind : Nat) (value : List Nat) (length : Nat) (s : Unit) :
    stuckEnv.csr_read kind Varid.PS_NEXT value length s = ((0, [0, 0, 0, 0, 1, 0, 0, 0]), s) :=
  rfl

theorem stuckEnv_read_size (kind : Nat) (value : List Nat) (length : Nat) (s : Unit) :
    stuckEnv.csr_read kind Varid.PS_SIZE value length s = ((0, value), s) :=
  rfl

theorem stuckEnv_read_ps (kind : Nat) (value : List Nat) (length : Nat) (s : Unit) :
    stuckEnv.csr_read kind Varid.PS value length s = ((0, value), s) :=
  rfl

theorem stuck_key :
    byte [0, 0, 0, 0, 1, 0, 0, 0] 4 + (byte [0, 0, 0, 0, 1, 0, 0, 0] 5 <<< 8) = 1 := by
  decide

theorem pslist_loop_stuck (stores : Nat) :
    ∀ (fuel pskey : Nat) (w : World Unit),
      pslist_loop stuckEnv CSR_TRANSPORT_HCI stores fuel pskey w = none := by
  intro fuel
  induction fuel with
  | zero => intro pskey w; rfl
  | succ n ih =>
    intro pskey w
    rw [pslist_loop]
    simp only [transport_read_supported stuckEnv CSR_TRANSPORT_HCI _ _ _ _ (by decide),
      length_frame4, get16_fixbuf 8 _ 4 (by omega), stuckEnv_read_next, stuckEnv_read_size,
      stuck_key, ih]
    simp
    decide

theorem psread_loop_stuck (stores : Nat) :
    ∀ (fuel pskey : Nat) (w : World Unit),
      psread_loop stuckEnv CSR_TRANSPORT_HCI stores fuel pskey w = none := by
  intro fuel
  induction fuel with
  | zero => intro pskey w; rfl
  | succ n ih =>
    intro pskey w
    rw [psread_loop]
    simp only [transport_read_supported stuckEnv CSR_TRANSPORT_HCI _ _ _ _ (by decide),
      length_frame4, get16_fixbuf 256 _ 4 (by omega), stuckEnv_read_next, stuckEnv_read_size,
      stuckEnv_read_ps, stuck_key, ih]
    simp
    decide

/-- C7, refuted: against the responder that answers every enumerate-next
request with next-key 0x0001, the loops of `cmd_pslist` and `cmd_psread` are
still running after any number of iterations, so neither command returns. -/
theorem enumeration_loop_counterexample :
    (¬ ∃ fuel, (cmd_pslist stuckEnv fuel CSR_TRANSPORT_HCI [cstr "pslist"]
      (World.init ())).isSome = true) ∧
    (¬ ∃ fuel, (cmd_psread stuckEnv fuel CSR_TRANSPORT_HCI [cstr "psread"]
      (World.init ())).isSome = true) := by
  constructor
  · rintro ⟨fuel, h⟩
    have hargs : OPT_RANGE 0 0 (([cstr "pslist"] : List CStr).drop
        (opt_pskey stuckEnv [cstr "pslist"] CSR_STORES_DEFAULT false).2.2) = none := by decide
    unfold cmd_pslist at h
    simp only [hargs, pslist_loop_stuck] at h
    exact absurd h (by decide)
  · rintro ⟨fuel, h⟩
    have hargs : OPT_RANGE 0 0 (([cstr "psread"] : List CStr).drop
        (opt_pskey stuckEnv [cstr "psread"] CSR_STORES_DEFAULT false).2.2) = none := by decide
    unfold cmd_psread at h
    simp only [hargs, psread_loop_stuck] at h
    exact absurd h (by decide)

/-- C7, as amended: the loops of `cmd_pslist` and `cmd_psread` make no cycle
detection. Each is left at the first enumerate-next read that fails or returns
next-key 0x0000, so the commands return against every backend whose
enumerate-next responses carry nonzero keys `k1, ..., kn` (keys already
returned included) followed by 0x0000. -/
theorem enumeration_terminates_on_sentinel {σ : Type} (E : Env σ) (transport : Nat)
    (argv : List CStr) (w : World σ) (script : σ → List Nat) (ks : List Nat)
    (hsup : transport_supported E.have_libusb transport = true)
    (hE : Enumerates E script)
    (hargs : OPT_RANGE 0 0 (argv.drop (opt_pskey E argv CSR_STORES_DEFAULT false).2.2) = none)
    (hks : ∀ k ∈ ks, k ≠ 0)
    (hscript : script w.chip = ks ++ [0]) :
    (∃ fuel, (cmd_pslist E fuel transport argv w).isSome = true) ∧
    (∃ fuel, (cmd_psread E fuel transport argv w).isSome = true) ∧
    (∀ stores fuel pskey (w0 : World σ),
      (transport_read E transport Varid.PS_NEXT (frame4 8 pskey stores) 8 w0).err < 0 ∨
        get16 (transport_read E transport Varid.PS_NEXT (frame4 8 pskey stores) 8 w0).array 4
          = 0x0000 →
      pslist_loop E transport stores (fuel + 1) pskey w0 =
        some (transport_read E transport Varid.PS_NEXT (frame4 8 pskey stores) 8 w0).world) ∧
    (∀ stores fuel pskey (w0 : World σ),
      (transport_read E transport Varid.PS_NEXT (frame4 256 pskey stores) 8 w0).err < 0 ∨
        get16 (transport_read E transport Varid.PS_NEXT (frame4 256 pskey stores) 8 w0).array 4
          = 0x0000 →
      psread_loop E transport stores (fuel + 1) pskey w0 =
        some (transport_read E transport Varid.PS_NEXT (frame4 256 pskey stores) 8 w0).world) := by
  refine ⟨?_, ?_, ?_, ?_⟩
  · obtain ⟨w0, new, e1, _⟩ := pslist_loop_enumerates E transport
      (opt_pskey E argv CSR_STORES_DEFAULT false).1 script hsup hE ks 0 w (by decide) hks hscript
    refine ⟨ks.length + 1, ?_⟩
    unfold cmd_pslist
    simp only [hargs, e1, Option.isSome_some]
  · obtain ⟨w0, new, e1, _⟩ := psread_loop_enumerates E transport
      (opt_pskey E argv CSR_STORES_DEFAULT false).1 script hsup hE ks 0 w (by decide) hks hscript
    refine ⟨ks.length + 1, ?_⟩
    unfold cmd_psread
    simp only [hargs, e1, Option.isSome_some]
  · intro stores fuel pskey w0 h
    rw [pslist_loop]
    rcases h with h | h
    · simp only [h, if_true]
    · simp only [h, if_true, ite_self]
  · intro stores fuel pskey w0 h
    rw [psread_loop]
    rcases h with h | h
    · simp only [h, if_true]
    · simp only [h, if_true, ite_self]

/-- C7 as amended, at a concrete input: the simulated responder that answers
0x0001, 0x0001 (a key already returned), 0x0000. -/
theorem enumeration_terminates_on_sentinel_witness :
    (∃ fuel, (cmd_pslist (simEnv 1 [0x34, 0x12]) fuel CSR_TRANSPORT_HCI [cstr "pslist"]
      (World.init [1, 1, 0])).isSome = true) ∧
    (∃ fuel, (cmd_psread (simEnv 1 [0x34, 0x12]) fuel CSR_TRANSPORT_HCI [cstr "psread"]
      (World.init [1, 1, 0])).isSome = true) :=
  ⟨(enumeration_terminates_on_sentinel (simEnv 1 [0x34, 0x12]) CSR_TRANSPORT_HCI
      [cstr "pslist"] (World.init [1, 1, 0]) (fun s => s.map (fun k => k % 65536)) [1, 1]
      (by decide) (simEnv_enumerates 1 [0x34, 0x12]) (by decide) (by decide) (by decide)).1,
    (enumeration_terminates_on_sentinel (simEnv 1 [0x34, 0x12]) CSR_TRANSPORT_HCI
      [cstr "psread"] (World.init [1, 1, 0]) (fun s => s.map (fun k => k % 65536)) [1, 1]
      (by decide) (simEnv_enumerates 1 [0x34, 0x12]) (by decide) (by decide) (by decide)).2.1⟩

/-! ## `cmd_psset`: the value tokens -/

theorem cmd_psset_after_size {σ : Type} (E : Env σ) (transport : Nat) (argv : List CStr)
    (w : World σ) (pskey stores length : Nat) (size_rsp : (Int × List Nat) × σ)
    (hsup : transport_supported E.have_libusb transport = true)
    (hargs : OPT_RANGE 2 81 (argv.drop (opt_pskey E argv CSR_STORES_PSRAM false).2.2) = none)
    (hkey : resolve_pskey E.long_max E.pskey
      ((argv.drop (opt_pskey E argv CSR_STORES_PSRAM false).2.2).headD []) = pskey)
    (hstores : (opt_pskey E argv CSR_STORES_PSRAM false).1 = stores)
    (hsize : E.csr_read transport Varid.PS_SIZE (frame4 128 pskey stores) 8 w.chip = size_rsp)
    (hsize_ok : 0 ≤ size_rsp.1.1)
    (hlen : byte size_rsp.1.2 2 + (byte size_rsp.1.2 3 <<< 8) = length)
    (hfit : length + 6 ≤ 64) :
    cmd_psset E transport argv w =
      match psset_payload E.long_max length
          (argv.drop (opt_pskey E argv CSR_STORES_PSRAM false).2.2).tail
          (frame6 128 pskey length stores) with
      | Except.error e =>
        (-1, { chip := size_rsp.2, errno := e,
               trace := w.trace ++ [Event.read Varid.PS_SIZE (frame4 128 pskey stores) 8],
               out := w.out })
      | Except.ok array =>
        if (E.csr_write transport Varid.PS array ((length + 3) * 2) size_rsp.2).1 < 0 then
          ((E.csr_write transport Varid.PS array ((length + 3) * 2) size_rsp.2).1,
            { chip := (E.csr_write transport Varid.PS array ((length + 3) * 2) size_rsp.2).2,
              errno := w.errno,
              trace := w.trace ++ [Event.read Varid.PS_SIZE (frame4 128 pskey stores) 8,
                Event.write Varid.PS array ((length + 3) * 2)],
              out := w.out })
        else
          ((E.csr_write transport Varid.PS array ((length + 3) * 2) size_rsp.2).1,
            reset_write E transport (opt_pskey E argv CSR_STORES_PSRAM false).2.1
              { chip := (E.csr_write transport Varid.PS array ((length + 3) * 2) size_rsp.2).2,
                errno := w.errno,
                trace := w.trace ++ [Event.read Varid.PS_SIZE (frame4 128 pskey stores) 8,
                  Event.write Varid.PS array ((length + 3) * 2)],
                out := w.out }) := by
  have hl : get16 (fixbuf 128 size_rsp.1.2) 2 = length := by
    rw [get16_fixbuf 128 _ 2 (by omega)]; exact hlen
  have hfit2 : ¬ (length + 6 > 128 / 2) := by omega
  unfold cmd_psset
  simp only [hargs, hkey, hstores, transport_read_supported _ _ _ _ _ _ hsup, hsize,
    length_frame4, hl, not_lt.2 hsize_ok, if_false, hfit2,
    transport_write_supported _ _ _ _ _ _ hsup]
  cases psset_payload E.long_max length
      (argv.drop (opt_pskey E argv CSR_STORES_PSRAM false).2.2).tail
      (frame6 128 pskey length stores) with
  | error e => rfl
  | ok array => simp

theorem cmd_psset_too_long {σ : Type} (E : Env σ) (transport : Nat) (argv : List CStr)
    (w : World σ) (pskey stores length : Nat) (size_rsp : (Int × List Nat) × σ)
    (hsup : transport_supported E.have_libusb transport = true)
    (hargs : OPT_RANGE 2 81 (argv.drop (opt_pskey E argv CSR_STORES_PSRAM false).2.2) = none)
    (hkey : resolve_pskey E.long_max E.pskey
      ((argv.drop (opt_pskey E argv CSR_STORES_PSRAM false).2.2).headD []) = pskey)
    (hstores : (opt_pskey E argv CSR_STORES_PSRAM false).1 = stores)
    (hsize : E.csr_read transport Varid.PS_SIZE (frame4 128 pskey stores) 8 w.chip = size_rsp)
    (hsize_ok : 0 ≤ size_rsp.1.1)
    (hlen : byte size_rsp.1.2 2 + (byte size_rsp.1.2 3 <<< 8) = length)
    (hfit : ¬ (length + 6 ≤ 64)) :
    cmd_psset E transport argv w =
      (- ( EIO : Int),
        { chip := size_rsp.2, errno := w.errno,
          trace := w.trace ++ [Event.read Varid.PS_SIZE (frame4 128 pskey stores) 8],
          out := w.out }) := by
  have hl : get16 (fixbuf 128 size_rsp.1.2) 2 = length := by
    rw [get16_fixbuf 128 _ 2 (by omega)]; exact hlen
  have hfit2 : length + 6 > 128 / 2 := by omega
  unfold cmd_psset
  simp only [hargs, hkey, hstores, transport_read_supported _ _ _ _ _ _ hsup, hsize,
    length_frame4, hl, not_lt.2 hsize_ok, if_false, hfit2, if_true]

theorem psset_payload_error (long_max length : Nat) (tokens : List CStr) (array : List Nat)
    (h : tokens.length ≠ psset_tokens length) :
    psset_payload long_max length tokens array =
      Except.error (if length = 1 ∨ length = 2 then E2BIG else EINVAL) := by
  unfold psset_tokens at h
  unfold psset_payload
  by_cases h1 : length = 1
  · simp only [h1, if_true] at h
    simp [h1, h]
  · by_cases h2 : length = 2
    · simp only [h2] at h
      simp [h2, h]
      exact h
    · simp only [h1, h2, if_false] at h
      simp [h1, h2, h]

theorem psset_payload_ok (long_max length : Nat) (tokens : List CStr) (array : List Nat)
    (h : tokens.length = psset_tokens length) :
    ∃ frame, psset_payload long_max length tokens array = Except.ok frame := by
  unfold psset_tokens at h
  unfold psset_payload
  by_cases h1 : length = 1
  · simp only [h1, if_true] at h
    simp only [h1, if_true, h, ne_eq, not_true_eq_false, if_false]
    exact ⟨_, rfl⟩
  · by_cases h2 : length = 2
    · simp only [h2] at h
      simp only [h2, if_true, h, ne_eq, not_true_eq_false, if_false]
      exact ⟨_, rfl⟩
    · simp only [h1, h2, if_false] at h
      simp only [h1, h2, if_false, h, ne_eq, not_true_eq_false]
      exact ⟨_, rfl⟩

/-- C8: `cmd_psset` checks the number of value tokens against the length `L`
reported by the size query: 1 token for `L = 1`, 1 token for `L = 2`, `2 * L`
tokens otherwise. With any other number of tokens it returns a negative
result and the size query is the only operation it has sent to the backend
(no PS write); when the length passes the buffer check the result is -1 with
`errno` E2BIG (`L` 1 or 2) or EINVAL. With the number of tokens it asks for
(and a length that passes the buffer check) it goes on to the PS write. -/
theorem cmd_psset_token_count {σ : Type} (E : Env σ) (transport : Nat) (argv : List CStr)
    (w : World σ) (pskey stores length : Nat) (size_rsp : (Int × List Nat) × σ)
    (hsup : transport_supported E.have_libusb transport = true)
    (hargs : OPT_RANGE 2 81 (argv.drop (opt_pskey E argv CSR_STORES_PSRAM false).2.2) = none)
    (hkey : resolve_pskey E.long_max E.pskey
      ((argv.drop (opt_pskey E argv CSR_STORES_PSRAM false).2.2).headD []) = pskey)
    (hstores : (opt_pskey E argv CSR_STORES_PSRAM false).1 = stores)
    (hsize : E.csr_read transport Varid.PS_SIZE (frame4 128 pskey stores) 8 w.chip = size_rsp)
    (hsize_ok : 0 ≤ size_rsp.1.1)
    (hlen : byte size_rsp.1.2 2 + (byte size_rsp.1.2 3 <<< 8) = length) :
    ((argv.drop (opt_pskey E argv CSR_STORES_PSRAM false).2.2).tail.length
        ≠ psset_tokens length →
      (cmd_psset E transport argv w).1 < 0 ∧
      (cmd_psset E transport argv w).2.trace =
        w.trace ++ [Event.read Varid.PS_SIZE (frame4 128 pskey stores) 8] ∧
      (length + 6 ≤ 64 →
        (cmd_psset E transport argv w).1 = -1 ∧
        (cmd_psset E transport argv w).2.errno =
          if length = 1 ∨ length = 2 then E2BIG else EINVAL)) ∧
    ((argv.drop (opt_pskey E argv CSR_STORES_PSRAM false).2.2).tail.length
        = psset_tokens length →
      length + 6 ≤ 64 →
      ∃ frame rest, (cmd_psset E transport argv w).2.trace =
        w.trace ++ Event.read Varid.PS_SIZE (frame4 128 pskey stores) 8
          :: Event.write Varid.PS frame ((length + 3) * 2) :: rest) ∧
    psset_tokens 1 = 1 ∧ psset_tokens 2 = 1 ∧
    (∀ L, L ≠ 1 → L ≠ 2 → psset_tokens L = 2 * L) := by
  refine ⟨?_, ?_, rfl, rfl, ?_⟩
  · intro hcount
    by_cases hfit : length + 6 ≤ 64
    · rw [cmd_psset_after_size E transport argv w pskey stores length size_rsp hsup hargs hkey
        hstores hsize hsize_ok hlen hfit, psset_payload_error _ _ _ _ hcount]
      exact ⟨by show (-1 : Int) < 0; decide, rfl, fun _ => ⟨rfl, rfl⟩⟩
    · rw [cmd_psset_too_long E transport argv w pskey stores length size_rsp hsup hargs hkey
        hstores hsize hsize_ok hlen hfit]
      exact ⟨by show (-5 : Int) < 0; decide, rfl, fun h => absurd h hfit⟩
  · intro hcount hfit
    obtain ⟨frame, hframe⟩ := psset_payload_ok E.long_max length _
      (frame6 128 pskey length stores) hcount
    rw [cmd_psset_after_size E transport argv w pskey stores length size_rsp hsup hargs hkey
      hstores hsize hsize_ok hlen hfit, hframe]
    refine ⟨frame, ?_⟩
    dsimp only
    split_ifs
    · exact ⟨[], by simp⟩
    · simp only [reset_write_trace, List.append_assoc, List.cons_append, List.nil_append,
        List.append_cancel_left_eq, List.cons.injEq, true_and]
      exact ⟨_, rfl⟩
  · intro L h1 h2
    simp [psset_tokens, h1, h2, Nat.mul_comm]

/-- C8, at a concrete input: `psset 0x1234 1 2` against the simulated responder
that reports 3 words (6 tokens wanted, 2 given). -/
theorem cmd_psset_token_count_witness :
    (cmd_psset (simEnv 3 []) CSR_TRANSPORT_HCI
      [cstr "psset", cstr "0x1234", cstr "1", cstr "2"] (World.init [])).1 < 0 ∧
    (cmd_psset (simEnv 3 []) CSR_TRANSPORT_HCI
      [cstr "psset", cstr "0x1234", cstr "1", cstr "2"] (World.init [])).2.trace =
        (World.init ([] : List Nat)).trace
          ++ [Event.read Varid.PS_SIZE (frame4 128 0x1234 CSR_STORES_PSRAM) 8] ∧
    (3 + 6 ≤ 64 →
      (cmd_psset (simEnv 3 []) CSR_TRANSPORT_HCI
        [cstr "psset", cstr "0x1234", cstr "1", cstr "2"] (World.init [])).1 = -1 ∧
      (cmd_psset (simEnv 3 []) CSR_TRANSPORT_HCI
        [cstr "psset", cstr "0x1234", cstr "1", cstr "2"] (World.init [])).2.errno =
          if 3 = 1 ∨ 3 = 2 then E2BIG else EINVAL) :=
  (cmd_psset_token_count (simEnv 3 []) CSR_TRANSPORT_HCI
    [cstr "psset", cstr "0x1234", cstr "1", cstr "2"] (World.init []) 0x1234 CSR_STORES_PSRAM 3
    _ (by decide) (by decide) (by decide) (by decide) rfl (by decide) (by decide)).1 (by decide)

set_option maxRecDepth 100000 in
/-- C9, refuted: against the simulated responder that reports 2 words,
`psset 0x1234 0x02010403` (1 value token) returns 0 and sends the PS write,
while `psset 0x1234 1 2 3 4` (4 value tokens) returns -1 with `errno` E2BIG
and sends nothing after the size query. -/
theorem cmd_psset_two_words_counterexample :
    (cmd_psset (simEnv 2 []) CSR_TRANSPORT_HCI
        [cstr "psset", cstr "0x1234", cstr "0x02010403"] (World.init [])).1 = 0 ∧
    (cmd_psset (simEnv 2 []) CSR_TRANSPORT_HCI
        [cstr "psset", cstr "0x1234", cstr "0x02010403"] (World.init [])).2.trace =
      [Event.read Varid.PS_SIZE (frame4 128 0x1234 CSR_STORES_PSRAM) 8,
        Event.write Varid.PS
          (psset_put32 (frame6 128 0x1234 2 CSR_STORES_PSRAM) 0x02010403) 10] ∧
    (cmd_psset (simEnv 2 []) CSR_TRANSPORT_HCI
        [cstr "psset", cstr "0x1234", cstr "1", cstr "2", cstr "3", cstr "4"]
        (World.init [])).1 = -1 ∧
    (cmd_psset (simEnv 2 []) CSR_TRANSPORT_HCI
        [cstr "psset", cstr "0x1234", cstr "1", cstr "2", cstr "3", cstr "4"]
        (World.init [])).2.errno = E2BIG ∧
    (cmd_psset (simEnv 2 []) CSR_TRANSPORT_HCI
        [cstr "psset", cstr "0x1234", cstr "1", cstr "2", cstr "3", cstr "4"]
        (World.init [])).2.trace =
      [Event.read Varid.PS_SIZE (frame4 128 0x1234 CSR_STORES_PSRAM) 8] :=
  ⟨rfl, rfl, rfl, rfl, rfl⟩

/-- C9, as amended: for a key whose size query reports 2 words, `cmd_psset`
with exactly 1 value token sends the PS write (10 bytes, the 32-bit value of
the token in bytes 6..9) and returns what the write returns; with any other
number of value tokens, 4 included, it returns -1 with `errno` E2BIG and sends
nothing after the size query. -/
theorem cmd_psset_two_words {σ : Type} (E : Env σ) (transport : Nat) (argv : List CStr)
    (w : World σ) (pskey stores : Nat) (size_rsp : (Int × List Nat) × σ)
    (hsup : transport_supported E.have_libusb transport = true)
    (hargs : OPT_RANGE 2 81 (argv.drop (opt_pskey E argv CSR_STORES_PSRAM false).2.2) = none)
    (hkey : resolve_pskey E.long_max E.pskey
      ((argv.drop (opt_pskey E argv CSR_STORES_PSRAM false).2.2).headD []) = pskey)
    (hstores : (opt_pskey E argv CSR_STORES_PSRAM false).1 = stores)
    (hsize : E.csr_read transport Varid.PS_SIZE (frame4 128 pskey stores) 8 w.chip = size_rsp)
    (hsize_ok : 0 ≤ size_rsp.1.1)
    (hlen : byte size_rsp.1.2 2 + (byte size_rsp.1.2 3 <<< 8) = 2) :
    (∀ tok, (argv.drop (opt_pskey E argv CSR_STORES_PSRAM false).2.2).tail = [tok] →
      (cmd_psset E transport argv w).1 =
        (E.csr_write transport Varid.PS
          (psset_put32 (frame6 128 pskey 2 stores) (to_u32 (psset_number E.long_max tok tok)))
          10 size_rsp.2).1 ∧
      ∃ rest, (cmd_psset E transport argv w).2.trace =
        w.trace ++ Event.read Varid.PS_SIZE (frame4 128 pskey stores) 8
          :: Event.write Varid.PS
            (psset_put32 (frame6 128 pskey 2 stores) (to_u32 (psset_number E.long_max tok tok)))
            10 :: rest) ∧
    ((argv.drop (opt_pskey E argv CSR_STORES_PSRAM false).2.2).tail.length ≠ 1 →
      (cmd_psset E transport argv w).1 = -1 ∧
      (cmd_psset E transport argv w).2.errno = E2BIG ∧
      (cmd_psset E transport argv w).2.trace =
        w.trace ++ [Event.read Varid.PS_SIZE (frame4 128 pskey stores) 8]) := by
  have hrun := cmd_psset_after_size E transport argv w pskey stores 2 size_rsp hsup hargs hkey
    hstores hsize hsize_ok hlen (by decide)
  constructor
  · intro tok htok
    have hp : psset_payload E.long_max 2
        (argv.drop (opt_pskey E argv CSR_STORES_PSRAM false).2.2).tail
        (frame6 128 pskey 2 stores) =
        Except.ok (psset_put32 (frame6 128 pskey 2 stores)
          (to_u32 (psset_number E.long_max tok tok))) := by
      rw [htok]
      simp [psset_payload]
    rw [hrun, hp]
    dsimp only
    split_ifs
    · exact ⟨rfl, [], by simp⟩
    · refine ⟨rfl, ?_⟩
      simp only [reset_write_trace, List.append_assoc, List.cons_append, List.nil_append,
        List.append_cancel_left_eq, List.cons.injEq, true_and]
      exact ⟨_, rfl⟩
  · intro hcount
    rw [hrun, psset_payload_error E.long_max 2 _ _ (by simpa [psset_tokens] using hcount)]
    exact ⟨rfl, rfl, rfl⟩

/-- C9 as amended, at a concrete input: `psset 0x1234 1 2 3 4` against the
simulated responder that reports 2 words. -/
theorem cmd_psset_two_words_witness :
    (cmd_psset (simEnv 2 []) CSR_TRANSPORT_HCI
      [cstr "psset", cstr "0x1234", cstr "1", cstr "2", cstr "3", cstr "4"]
      (World.init [])).1 = -1 ∧
    (cmd_psset (simEnv 2 []) CSR_TRANSPORT_HCI
      [cstr "psset", cstr "0x1234", cstr "1", cstr "2", cstr "3", cstr "4"]
      (World.init [])).2.errno = E2BIG ∧
    (cmd_psset (simEnv 2 []) CSR_TRANSPORT_HCI
      [cstr "psset", cstr "0x1234", cstr "1", cstr "2", cstr "3", cstr "4"]
      (World.init [])).2.trace =
        (World.init ([] : List Nat)).trace
          ++ [Event.read Varid.PS_SIZE (frame4 128 0x1234 CSR_STORES_PSRAM) 8] :=
  (cmd_psset_two_words (simEnv 2 []) CSR_TRANSPORT_HCI
    [cstr "psset", cstr "0x1234", cstr "1", cstr "2", cstr "3", cstr "4"] (World.init [])
    0x1234 CSR_STORES_PSRAM _ (by decide) (by decide) (by decide) (by decide) rfl (by decide)
    (by decide)).2 (by decide)

set_option maxRecDepth 100000 in
/-- C10, the code at the failing input: for a 3-word key the loop of the
`default` case tests the hex mark on `argv[0]` for every token. With the
tokens `16 0x10 16 0x10 16 0x10` every token goes through `atoi`, so each
`0x10` yields the byte 0x00; with the tokens `0x10 16 0x10 16 0x10 16` every
token goes through `strtol(argv[i] + 2, NULL, 16)`, so each `16` yields the
byte 0x00. In both runs the payload written is 10 00 10 00 10 00 instead of
six times 0x10. -/
theorem cmd_psset_array_hex_mark :
    written_payload 6 (cmd_psset (simEnv 3 []) CSR_TRANSPORT_HCI
      [cstr "psset", cstr "0x1234", cstr "16", cstr "0x10", cstr "16", cstr "0x10",
        cstr "16", cstr "0x10"] (World.init [])).2.trace
      = [[0x10, 0x00, 0x10, 0x00, 0x10, 0x00]] ∧
    written_payload 6 (cmd_psset (simEnv 3 []) CSR_TRANSPORT_HCI
      [cstr "psset", cstr "0x1234", cstr "0x10", cstr "16", cstr "0x10", cstr "16",
        cstr "0x10", cstr "16"] (World.init [])).2.trace
      = [[0x10, 0x00, 0x10, 0x00, 0x10, 0x00]] ∧
    psset_number 2147483647 (cstr "16") (cstr "16") = 0x10 ∧
    psset_number 2147483647 (cstr "0x10") (cstr "0x10") = 0x10 :=
  ⟨rfl, rfl, rfl, rfl⟩

/-! ## `cmd_psget`: the length check -/

set_option maxRecDepth 100000 in
/-- C11, refuted at a 60-word key: its read frame of 126 bytes fits 256 bytes,
yet `psget 0x1234` returns `-EIO` and sends nothing after the size query. -/
theorem cmd_psget_length_counterexample :
    6 + 2 * 60 ≤ 256 ∧
    (cmd_psget (simEnv 60 []) CSR_TRANSPORT_HCI [cstr "psget", cstr "0x1234"]
      (World.init [])).1 = -5 ∧
    (cmd_psget (simEnv 60 []) CSR_TRANSPORT_HCI [cstr "psget", cstr "0x1234"]
      (World.init [])).2.trace =
        [Event.read Varid.PS_SIZE (frame4 128 0x1234 CSR_STORES_DEFAULT) 8] ∧
    (cmd_psget (simEnv 60 []) CSR_TRANSPORT_HCI [cstr "psget", cstr "0x1234"]
      (World.init [])).2.out = [] :=
  ⟨by decide, rfl, rfl, rfl⟩

/-- C11, as amended: `cmd_psget` works on a buffer of 128 bytes. When the size
query reports `length` words it returns `-EIO` before the PS read exactly when
`length + 6 > 64`, that is `length > 58`; for every `length ≤ 58` it sends the
PS read for `(length + 3) * 2` bytes (at most 122) and, when that read
succeeds, prints the key and returns the result of the read. -/
theorem cmd_psget_length_check {σ : Type} (E : Env σ) (transport : Nat) (argv : List CStr)
    (w : World σ) (pskey stores length : Nat) (size_rsp rsp : (Int × List Nat) × σ)
    (hsup : transport_supported E.have_libusb transport = true)
    (hargs : OPT_RANGE 1 1 (argv.drop (opt_pskey E argv CSR_STORES_DEFAULT false).2.2) = none)
    (hkey : resolve_pskey E.long_max E.pskey
      ((argv.drop (opt_pskey E argv CSR_STORES_DEFAULT false).2.2).headD []) = pskey)
    (hstores : (opt_pskey E argv CSR_STORES_DEFAULT false).1 = stores)
    (hsize : E.csr_read transport Varid.PS_SIZE (frame4 128 pskey stores) 8 w.chip = size_rsp)
    (hsize_ok : 0 ≤ size_rsp.1.1)
    (hlen : byte size_rsp.1.2 2 + (byte size_rsp.1.2 3 <<< 8) = length)
    (hread : E.csr_read transport Varid.PS (frame6 128 pskey length stores)
      ((length + 3) * 2) size_rsp.2 = rsp) :
    (58 < length →
      cmd_psget E transport argv w =
        (- ( EIO : Int),
          { chip := size_rsp.2, errno := w.errno,
            trace := w.trace ++ [Event.read Varid.PS_SIZE (frame4 128 pskey stores) 8],
            out := w.out })) ∧
    (length ≤ 58 →
      (length + 3) * 2 ≤ 122 ∧
      (cmd_psget E transport argv w).1 = rsp.1.1 ∧
      (∃ rest, (cmd_psget E transport argv w).2.trace =
        w.trace ++ Event.read Varid.PS_SIZE (frame4 128 pskey stores) 8
          :: Event.read Varid.PS (frame6 128 pskey length stores) ((length + 3) * 2) :: rest) ∧
      (0 ≤ rsp.1.1 →
        (cmd_psget E transport argv w).2.out =
          w.out ++ [psget_print pskey length (fixbuf 128 rsp.1.2)])) := by
  have hl : get16 (fixbuf 128 size_rsp.1.2) 2 = length := by
    rw [get16_fixbuf 128 _ 2 (by omega)]; exact hlen
  constructor
  · intro hbig
    have hfit : length + 6 > 128 / 2 := by omega
    unfold cmd_psget
    simp only [hargs, hkey, hstores, transport_read_supported _ _ _ _ _ _ hsup, hsize,
      length_frame4, hl, not_lt.2 hsize_ok, if_false, hfit, if_true]
  · intro hsmall
    have hfit : ¬ (length + 6 > 128 / 2) := by omega
    have hrun : cmd_psget E transport argv w =
        if rsp.1.1 < 0 then
          (rsp.1.1,
            { chip := rsp.2, errno := w.errno,
              trace := w.trace ++ [Event.read Varid.PS_SIZE (frame4 128 pskey stores) 8,
                Event.read Varid.PS (frame6 128 pskey length stores) ((length + 3) * 2)],
              out := w.out })
        else
          (rsp.1.1, reset_write E transport (opt_pskey E argv CSR_STORES_DEFAULT false).2.1
            { chip := rsp.2, errno := w.errno,
              trace := w.trace ++ [Event.read Varid.PS_SIZE (frame4 128 pskey stores) 8,
                Event.read Varid.PS (frame6 128 pskey length stores) ((length + 3) * 2)],
              out := w.out ++ [psget_print pskey length (fixbuf 128 rsp.1.2)] }) := by
      unfold cmd_psget
      simp only [hargs, hkey, hstores, transport_read_supported _ _ _ _ _ _ hsup, hsize,
        length_frame4, length_frame6, hl, not_lt.2 hsize_ok, if_false, hfit, hread]
      simp
    refine ⟨by omega, ?_, ?_, ?_⟩
    · rw [hrun]; split_ifs <;> rfl
    · rw [hrun]
      split_ifs
      · exact ⟨[], by simp⟩
      · simp only [reset_write_trace, List.append_assoc, List.cons_append, List.nil_append,
          List.append_cancel_left_eq, List.cons.injEq, true_and]
        exact ⟨_, rfl⟩
    · intro hok
      rw [hrun, if_neg (not_lt.2 hok)]
      simp only [reset_write_out]

/-- C11 as amended, at a concrete input: `psget 0x1234` against the simulated
responder that reports 60 words. -/
theorem cmd_psget_length_check_witness :
    cmd_psget (simEnv 60 []) CSR_TRANSPORT_HCI [cstr "psget", cstr "0x1234"] (World.init []) =
      (- ( EIO : Int),
        { chip := [], errno := 0,
          trace := (World.init ([] : List Nat)).trace
            ++ [Event.read Varid.PS_SIZE (frame4 128 0x1234 CSR_STORES_DEFAULT) 8],
          out := [] }) :=
  (cmd_psget_length_check (simEnv 60 []) CSR_TRANSPORT_HCI [cstr "psget", cstr "0x1234"]
    (World.init []) 0x1234 CSR_STORES_DEFAULT 60 _ _ (by decide) (by decide) (by decide)
    (by decide) rfl (by decide) (by decide) rfl).1 (by decide)

/-! ## The store option -/

theorem strcasecmp_of_map_tolower :
    ∀ (a b : CStr), a.map tolower = b.map tolower → strcasecmp a b = 0 := by
  intro a
  induction a with
  | nil =>
    intro b h
    cases b with
    | nil => rfl
    | cons y ys => simp at h
  | cons x xs ih =>
    intro b h
    cases b with
    | nil => simp at h
    | cons y ys =>
      simp only [List.map_cons, List.cons.injEq] at h
      unfold strcasecmp
      simp only [List.headD_cons, h.1, ne_eq, not_true_eq_false, if_false, List.tail_cons]
      split
      · rfl
      · exact ih ys h.2

theorem strcasecmp_head_ne (c : Nat) (cs b : CStr) (h : tolower c ≠ tolower (b.headD 0)) :
    strcasecmp (c :: cs) b ≠ 0 := by
  unfold strcasecmp
  rw [if_pos h]
  omega

theorem opt_pskey_stores_numeric (long_max c : Nat) (cs : CStr) (hc : 48 ≤ c ∧ c ≤ 57) :
    opt_pskey_stores long_max (c :: cs) =
      if strncasecmp (c :: cs) (cstr "0x") 2 = 0 then to_u16 (strtol long_max (c :: cs) 16)
      else to_u16 (atoi long_max (c :: cs)) := by
  have hl : tolower c = c := by unfold tolower; split <;> omega
  have hne : ∀ name : CStr, 97 ≤ name.headD 0 ∧ name.headD 0 ≤ 122 →
      strcasecmp (c :: cs) name ≠ 0 := by
    intro name hn
    apply strcasecmp_head_ne
    have : tolower (name.headD 0) = name.headD 0 := by unfold tolower; split <;> omega
    rw [hl, this]
    omega
  unfold opt_pskey_stores
  rw [if_neg (hne _ (by decide)), if_neg (hne _ (by decide)), if_neg (hne _ (by decide)),
    if_neg (hne _ (by decide)), if_neg (hne _ (by decide)), if_neg (hne _ (by decide)),
    if_neg (hne _ (by decide)), if_neg (hne _ (by decide)), if_neg (hne _ (by decide))]

theorem strtol_0x_digits (long_max x : Nat) (ds : CStr) (hx : x = 120 ∨ x = 88)
    (hne : ds ≠ []) (h : all_digits 16 ds) (hv : digits_value 16 ds ≤ long_max) :
    strtol long_max (48 :: x :: ds) 16 = (digits_value 16 ds : Int) := by
  have hval : strtol_digits 16 ds 0 = digits_value 16 ds := by
    rw [strtol_digits_ofDigits 16 ds 0 h]
    simp [digits_value, Nat.ofDigits_append]
  cases ds with
  | nil => exact absurd rfl hne
  | cons d r =>
    obtain ⟨v, hd, hlt⟩ := h d (List.mem_cons_self _ _)
    have hdrop : (48 :: x :: d :: r).dropWhile isspace = 48 :: x :: d :: r := by
      simp [List.dropWhile_cons, isspace]
    have hsign : strtol_sign (48 :: x :: d :: r) = (false, 48 :: x :: d :: r) := rfl
    have h0x : strtol_0x 16 (48 :: x :: d :: r) = d :: r := by
      unfold strtol_0x
      simp [hx, hd, hlt]
    dsimp only [strtol]
    rw [hdrop, hsign]
    dsimp only
    rw [h0x, hval]
    simp only [Bool.false_eq_true, if_false]
    rw [if_neg (by omega)]

theorem strcasecmp_two_names (t a b : CStr) (h : strcasecmp t a = 0) (hab : ckey a ≠ ckey b) :
    strcasecmp t b ≠ 0 := by
  intro hb
  exact hab ((strcasecmp_eq_zero_ckey t a h).symm.trans (strcasecmp_eq_zero_ckey t b hb))

/-- C13: the value `opt_pskey` stores for the argument of the store option.
A token that `strcasecmp` finds equal to `default` gives 0x0000, to
`implementation` or `psi` 0x0001, to `factory` or `psf` 0x0002, to `rom` or
`psrom` 0x0004, to `ram` or `psram` 0x0008, and `strcasecmp` finds two tokens
equal whenever they agree after `tolower`; any other token is read by
`strtol` in base 16 if it has the hex mark and by `atoi` otherwise, which on
`0x` followed by hexadecimal digits, and on decimal digits, is the number
written (`long` at least 32 bits wide). With the single option `s` returned
by `getopt_long`, `opt_pskey` leaves this value in `stores`. -/
theorem opt_pskey_stores_map (long_max : Nat) (hlong : 2147483647 ≤ long_max)
    (optarg : CStr) :
    (strcasecmp optarg (cstr "default") = 0 → opt_pskey_stores long_max optarg = 0x0000) ∧
    (strcasecmp optarg (cstr "implementation") = 0 ∨ strcasecmp optarg (cstr "psi") = 0 →
      opt_pskey_stores long_max optarg = 0x0001) ∧
    (strcasecmp optarg (cstr "factory") = 0 ∨ strcasecmp optarg (cstr "psf") = 0 →
      opt_pskey_stores long_max optarg = 0x0002) ∧
    (strcasecmp optarg (cstr "rom") = 0 ∨ strcasecmp optarg (cstr "psrom") = 0 →
      opt_pskey_stores long_max optarg = 0x0004) ∧
    (strcasecmp optarg (cstr "ram") = 0 ∨ strcasecmp optarg (cstr "psram") = 0 →
      opt_pskey_stores long_max optarg = 0x0008) ∧
    ((∀ name ∈ [cstr "default", cstr "implementation", cstr "factory", cstr "rom",
        cstr "ram", cstr "psi", cstr "psf", cstr "psrom", cstr "psram"],
        strcasecmp optarg name ≠ 0) →
      opt_pskey_stores long_max optarg =
        if strncasecmp optarg (cstr "0x") 2 = 0 then to_u16 (strtol long_max optarg 16)
        else to_u16 (atoi long_max optarg)) ∧
    (∀ name : CStr, optarg.map tolower = name.map tolower → strcasecmp optarg name = 0) ∧
    (∀ x ds, x = 120 ∨ x = 88 → ds ≠ [] → all_digits 16 ds →
      digits_value 16 ds ≤ 2147483647 →
      opt_pskey_stores long_max (48 :: x :: ds) = digits_value 16 ds % 65536) ∧
    (∀ ds, ds ≠ [] → all_digits 10 ds → digits_value 10 ds ≤ 2147483647 →
      opt_pskey_stores long_max ds = digits_value 10 ds % 65536) ∧
    (∀ {σ : Type} (E : Env σ) (argv : List CStr) (stores : Nat) (reset : Bool) (optind : Nat),
      E.long_max = long_max →
      E.getopt_long argv (cstr "+s:rh") = ([(115, optarg)], optind) →
      opt_pskey E argv stores reset = (opt_pskey_stores long_max optarg, reset, optind)) := by
  refine ⟨?_, ?_, ?_, ?_, ?_, ?_, ?_, ?_, ?_, ?_⟩
  · intro h
    unfold opt_pskey_stores
    rw [if_pos h]
  · rintro (h | h)
    · have hd := fun b hab => strcasecmp_two_names optarg (cstr "implementation") b h hab
      unfold opt_pskey_stores
      rw [if_neg (hd _ (by decide)), if_pos h]
    · have hd := fun b hab => strcasecmp_two_names optarg (cstr "psi") b h hab
      unfold opt_pskey_stores
      rw [if_neg (hd _ (by decide)), if_neg (hd _ (by decide)), if_neg (hd _ (by decide)),
        if_neg (hd _ (by decide)), if_neg (hd _ (by decide)), if_pos h]
  · rintro (h | h)
    · have hd := fun b hab => strcasecmp_two_names optarg (cstr "factory") b h hab
      unfold opt_pskey_stores
      rw [if_neg (hd _ (by decide)), if_neg (hd _ (by decide)), if_pos h]
    · have hd := fun b hab => strcasecmp_two_names optarg (cstr "psf") b h hab
      unfold opt_pskey_stores
      rw [if_neg (hd _ (by decide)), if_neg (hd _ (by decide)), if_neg (hd _ (by decide)),
        if_neg (hd _ (by decide)), if_neg (hd _ (by decide)), if_neg (hd _ (by decide)),
        if_pos h]
  · rintro (h | h)
    · have hd := fun b hab => strcasecmp_two_names optarg (cstr "rom") b h hab
      unfold opt_pskey_stores
      rw [if_neg (hd _ (by decide)), if_neg (hd _ (by decide)), if_neg (hd _ (by decide)),
        if_pos h]
    · have hd := fun b hab => strcasecmp_two_names optarg (cstr "psrom") b h hab
      unfold opt_pskey_stores
      rw [if_neg (hd _ (by decide)), if_neg (hd _ (by decide)), if_neg (hd _ (by decide)),
        if_neg (hd _ (by decide)), if_neg (hd _ (by decide)), if_neg (hd _ (by decide)),
        if_neg (hd _ (by decide)), if_pos h]
  · rintro (h | h)
    · have hd := fun b hab => strcasecmp_two_names optarg (cstr "ram") b h hab
      unfold opt_pskey_stores
      rw [if_neg (hd _ (by decide)), if_neg (hd _ (by decide)), if_neg (hd _ (by decide)),
        if_neg (hd _ (by decide)), if_pos h]
    · have hd := fun b hab => strcasecmp_two_names optarg (cstr "psram") b h hab
      unfold opt_pskey_stores
      rw [if_neg (hd _ (by decide)), if_neg (hd _ (by decide)), if_neg (hd _ (by decide)),
        if_neg (hd _ (by decide)), if_neg (hd _ (by decide)), if_neg (hd _ (by decide)),
        if_neg (hd _ (by decide)), if_neg (hd _ (by decide)), if_pos h]
  · intro h
    unfold opt_pskey_stores
    rw [if_neg (h _ (by simp)), if_neg (h _ (by simp)), if_neg (h _ (by simp)),
      if_neg (h _ (by simp)), if_neg (h _ (by simp)), if_neg (h _ (by simp)),
      if_neg (h _ (by simp)), if_neg (h _ (by simp)), if_neg (h _ (by simp))]
  · intro name h
    exact strcasecmp_of_map_tolower optarg name h
  · intro x ds hx hne hds hv
    rw [opt_pskey_stores_numeric long_max 48 (x :: ds) (by omega),
      if_pos ((strncasecmp_0x_iff _).2 ⟨x, ds, rfl, hx⟩),
      strtol_0x_digits long_max x ds hx hne hds (le_trans hv hlong), to_u16_natCast]
  · intro ds hne hds hv
    cases ds with
    | nil => exact absurd rfl hne
    | cons c cs =>
      obtain ⟨d, hd, hlt⟩ := hds c (List.mem_cons_self _ _)
      have hc : 48 ≤ c ∧ c ≤ 57 := by
        unfold digitVal at hd
        split at hd
        · assumption
        · split at hd
          · simp only [Option.some.injEq] at hd; omega
          · split at hd
            · simp only [Option.some.injEq] at hd; omega
            · cases hd
      have hnx : strncasecmp (c :: cs) (cstr "0x") 2 ≠ 0 := by
        intro h0
        obtain ⟨x, rest, heq, hx⟩ := (strncasecmp_0x_iff _).1 h0
        have hxmem : x ∈ c :: cs := by rw [heq]; simp
        obtain ⟨dx, hdx, hltx⟩ := hds x hxmem
        rcases hx with rfl | rfl
        · simp [digitVal] at hdx; omega
        · simp [digitVal] at hdx; omega
      rw [opt_pskey_stores_numeric long_max c cs hc, if_neg hnx]
      unfold atoi
      rw [strtol_of_digits long_max 10 (c :: cs) (by omega) hds (le_trans hv hlong),
        to_int_of_small _ hv, to_u16_natCast]
  · intro σ E argv stores reset optind hlm hget
    unfold opt_pskey
    rw [hget, hlm]
    simp [opt_pskey_step]

/-- C13, at a concrete input: with a 32-bit `long` the store tokens `PSRAM`,
`RAM`, `0x0008` and `8` all give the mask 0x0008. -/
theorem opt_pskey_stores_map_witness :
    (2147483647 ≤ 2147483647) ∧
    opt_pskey_stores 2147483647 (cstr "PSRAM") = 0x0008 ∧
    opt_pskey_stores 2147483647 (cstr "RAM") = 0x0008 ∧
    opt_pskey_stores 2147483647 (cstr "0x0008") = 0x0008 ∧
    opt_pskey_stores 2147483647 (cstr "8") = 0x0008 :=
  ⟨le_refl _,
    (opt_pskey_stores_map 2147483647 (le_refl _) (cstr "PSRAM")).2.2.2.2.1
      (Or.inr (by decide)),
    (opt_pskey_stores_map 2147483647 (le_refl _) (cstr "RAM")).2.2.2.2.1
      (Or.inl (by decide)),
    by decide, by decide⟩

/-! ## Reset after completion -/

theorem warm_resets_append (a b : List Event) :
    warm_resets (a ++ b) = warm_resets a + warm_resets b := by
  simp [warm_resets, List.countP_append]

theorem reset_after_write {σ : Type} (E : Env σ) (transport : Nat) (reset : Bool)
    (err : Int) (w1 : World σ)
    (hsup : transport_supported E.have_libusb transport = true) :
    (if err < 0 then (err, w1) else (err, reset_write E transport reset w1)).1 = err ∧
    (if err < 0 then (err, w1) else (err, reset_write E transport reset w1)).2.trace =
      w1.trace ++ (if reset = true ∧ 0 ≤ err then [Event.write Varid.WARM_RESET [] 0] else []) := by
  by_cases h : err < 0
  · have h2 : ¬ (0 ≤ err) := by omega
    simp [h, h2]
  · have h2 : 0 ≤ err := by omega
    simp only [h, if_false, reset_write_trace, hsup, and_true, h2]

/-- C17: reset after completion in `cmd_psset` and `cmd_psclr`. The result of
the command is the result of its primary write (the PS write, the clear), and
after the primary write the command sends exactly one warm-reset write when
the reset flag is set and the primary write did not fail, and none otherwise;
the result of the warm-reset write is not looked at. -/
theorem reset_after_completion {σ : Type} (E : Env σ) (transport : Nat) (argv : List CStr)
    (w : World σ) (pskey stores : Nat) (reset : Bool)
    (hsup : transport_supported E.have_libusb transport = true)
    (hkey : resolve_pskey E.long_max E.pskey
      ((argv.drop (opt_pskey E argv CSR_STORES_PSRAM false).2.2).headD []) = pskey)
    (hstores : (opt_pskey E argv CSR_STORES_PSRAM false).1 = stores)
    (hreset : (opt_pskey E argv CSR_STORES_PSRAM false).2.1 = reset) :
    (OPT_RANGE 1 1 (argv.drop (opt_pskey E argv CSR_STORES_PSRAM false).2.2) = none →
      (cmd_psclr E transport argv w).1 =
        (E.csr_write transport Varid.PS_CLR_STORES (frame4 8 pskey stores) 8 w.chip).1 ∧
      (cmd_psclr E transport argv w).2.trace =
        w.trace ++ [Event.write Varid.PS_CLR_STORES (frame4 8 pskey stores) 8]
          ++ (if reset = true ∧
                0 ≤ (E.csr_write transport Varid.PS_CLR_STORES (frame4 8 pskey stores) 8
                  w.chip).1
              then [Event.write Varid.WARM_RESET [] 0] else []) ∧
      warm_resets (cmd_psclr E transport argv w).2.trace =
        warm_resets w.trace +
          (if reset = true ∧
              0 ≤ (E.csr_write transport Varid.PS_CLR_STORES (frame4 8 pskey stores) 8
                w.chip).1
            then 1 else 0)) ∧
    (∀ (length : Nat) (size_rsp : (Int × List Nat) × σ) (array : List Nat),
      OPT_RANGE 2 81 (argv.drop (opt_pskey E argv CSR_STORES_PSRAM false).2.2) = none →
      E.csr_read transport Varid.PS_SIZE (frame4 128 pskey stores) 8 w.chip = size_rsp →
      0 ≤ size_rsp.1.1 →
      byte size_rsp.1.2 2 + (byte size_rsp.1.2 3 <<< 8) = length →
      length + 6 ≤ 64 →
      psset_payload E.long_max length
        (argv.drop (opt_pskey E argv CSR_STORES_PSRAM false).2.2).tail
        (frame6 128 pskey length stores) = Except.ok array →
      (cmd_psset E transport argv w).1 =
        (E.csr_write transport Varid.PS array ((length + 3) * 2) size_rsp.2).1 ∧
      (cmd_psset E transport argv w).2.trace =
        w.trace ++ [Event.read Varid.PS_SIZE (frame4 128 pskey stores) 8,
            Event.write Varid.PS array ((length + 3) * 2)]
          ++ (if reset = true ∧
                0 ≤ (E.csr_write transport Varid.PS array ((length + 3) * 2) size_rsp.2).1
              then [Event.write Varid.WARM_RESET [] 0] else []) ∧
      warm_resets (cmd_psset E transport argv w).2.trace =
        warm_resets w.trace +
          (if reset = true ∧
              0 ≤ (E.csr_write transport Varid.PS array ((length + 3) * 2) size_rsp.2).1
            then 1 else 0)) := by
  constructor
  · intro hargs
    have hrun : cmd_psclr E transport argv w =
        if (E.csr_write transport Varid.PS_CLR_STORES (frame4 8 pskey stores) 8 w.chip).1 < 0
        then ((E.csr_write transport Varid.PS_CLR_STORES (frame4 8 pskey stores) 8 w.chip).1,
          (transport_write E transport Varid.PS_CLR_STORES (frame4 8 pskey stores) 8 w).2)
        else ((E.csr_write transport Varid.PS_CLR_STORES (frame4 8 pskey stores) 8 w.chip).1,
          reset_write E transport reset
            (transport_write E transport Varid.PS_CLR_STORES (frame4 8 pskey stores) 8 w).2) := by
      unfold cmd_psclr
      simp only [hargs, hkey, hstores, hreset]
      simp only [transport_write_supported _ _ _ _ _ _ hsup]
    obtain ⟨h1, h2⟩ := reset_after_write E transport reset
      (E.csr_write transport Varid.PS_CLR_STORES (frame4 8 pskey stores) 8 w.chip).1
      (transport_write E transport Varid.PS_CLR_STORES (frame4 8 pskey stores) 8 w).2 hsup
    rw [← hrun] at h1 h2
    have h3 : (cmd_psclr E transport argv w).2.trace =
        w.trace ++ [Event.write Varid.PS_CLR_STORES (frame4 8 pskey stores) 8]
          ++ (if reset = true ∧
                0 ≤ (E.csr_write transport Varid.PS_CLR_STORES (frame4 8 pskey stores) 8
                  w.chip).1
              then [Event.write Varid.WARM_RESET [] 0] else []) := by
      rw [h2, transport_write_supported _ _ _ _ _ _ hsup]
    refine ⟨h1, h3, ?_⟩
    rw [h3, warm_resets_append, warm_resets_append]
    split_ifs <;> simp [warm_resets]
  · intro length size_rsp array hargs hsize hsize_ok hlen hfit hpay
    have hrun := cmd_psset_after_size E transport argv w pskey stores length size_rsp hsup
      hargs hkey hstores hsize hsize_ok hlen hfit
    rw [hpay, hreset] at hrun
    dsimp only at hrun
    obtain ⟨h1, h2⟩ := reset_after_write E transport reset
      (E.csr_write transport Varid.PS array ((length + 3) * 2) size_rsp.2).1
      { chip := (E.csr_write transport Varid.PS array ((length + 3) * 2) size_rsp.2).2,
        errno := w.errno,
        trace := w.trace ++ [Event.read Varid.PS_SIZE (frame4 128 pskey stores) 8,
          Event.write Varid.PS array ((length + 3) * 2)],
        out := w.out } hsup
    rw [← hrun] at h1 h2
    refine ⟨h1, h2, ?_⟩
    rw [h2, warm_resets_append, warm_resets_append]
    split_ifs <;> simp [warm_resets]

/-- C17, at a concrete input: `psclr -r 0x1234` against the simulated
responder whose warm-reset write fails returns 0, the result of the clear,
after one warm-reset write. -/
theorem reset_after_completion_witness :
    transport_supported resetEnv.have_libusb CSR_TRANSPORT_HCI = true ∧
    (opt_pskey resetEnv [cstr "psclr", cstr "-r", cstr "0x1234"] CSR_STORES_PSRAM false).2.1
      = true ∧
    (cmd_psclr resetEnv CSR_TRANSPORT_HCI [cstr "psclr", cstr "-r", cstr "0x1234"]
      (World.init [])).1 = 0 ∧
    warm_resets (cmd_psclr resetEnv CSR_TRANSPORT_HCI [cstr "psclr", cstr "-r", cstr "0x1234"]
      (World.init [])).2.trace = 0 + 1 :=
  ⟨by decide, by decide,
    ((reset_after_completion resetEnv CSR_TRANSPORT_HCI [cstr "psclr", cstr "-r", cstr "0x1234"]
      (World.init []) 0x1234 CSR_STORES_PSRAM true (by decide) (by decide) (by decide)
      (by decide)).1 (by decide)).1,
    ((reset_after_completion resetEnv CSR_TRANSPORT_HCI [cstr "psclr", cstr "-r", cstr "0x1234"]
      (World.init []) 0x1234 CSR_STORES_PSRAM true (by decide) (by decide) (by decide)
      (by decide)).1 (by decide)).2.2⟩

/-! ## Read failures during enumeration -/

theorem drop_put (a : List Nat) (i v k : Nat) (h : i < k) : (put a i v).drop k = a.drop k := by
  unfold put
  exact List.drop_set_of_lt _ _ h

theorem psload_payload (value : List Nat) (hn : value.length ≤ 250)
    (hb : ∀ b ∈ value, b < 256) :
    ((fixbuf 256 (memset0 6 ++ value)).drop 6).take value.length = value := by
  apply List.ext_getElem?
  intro i
  by_cases hi : i < value.length
  · rw [List.getElem?_take_of_lt hi, List.getElem?_drop]
    have hg := getD_fixbuf 256 (memset0 6 ++ value) (6 + i) (by omega)
    have hlt : 6 + i < (fixbuf 256 (memset0 6 ++ value)).length := by
      rw [length_fixbuf]; omega
    rw [List.getD_eq_getElem?_getD, List.getElem?_eq_getElem hlt, Option.getD_some] at hg
    rw [List.getElem?_eq_getElem hlt, hg, List.getElem?_eq_getElem hi]
    unfold byte
    have h6 : (memset0 6).length = 6 := by simp [memset0]
    rw [List.getD_eq_getElem?_getD, List.getElem?_append_right (by omega), h6,
      Nat.add_sub_cancel_left, List.getElem?_eq_getElem hi, Option.getD_some,
      Nat.mod_eq_of_lt (hb _ (List.getElem_mem _))]
  · rw [List.getElem?_eq_none (by simp; omega), List.getElem?_eq_none (by omega)]

theorem psload_frame_payload (stores : Nat) (record : Nat × List Nat)
    (hn : record.2.length ≤ 250) (hb : ∀ b ∈ record.2, b < 256) :
    ((psload_frame stores record).drop 6).take record.2.length = record.2 := by
  unfold psload_frame
  simp only [drop_put _ _ _ 6 (by omega : 0 < 6), drop_put _ _ _ 6 (by omega : 1 < 6),
    drop_put _ _ _ 6 (by omega : 2 < 6), drop_put _ _ _ 6 (by omega : 3 < 6),
    drop_put _ _ _ 6 (by omega : 4 < 6), drop_put _ _ _ 6 (by omega : 5 < 6)]
  exact psload_payload record.2 hn hb

theorem length_psload_frame (stores : Nat) (record : Nat × List Nat) :
    (psload_frame stores record).length = 256 := by
  simp [psload_frame, length_put, length_fixbuf]

theorem psload_frame_header (stores : Nat) (record : Nat × List Nat) :
    (psload_frame stores record).getD 0 0 = record.1 % 65536 % 256 ∧
    (psload_frame stores record).getD 1 0 = record.1 % 65536 / 256 ∧
    (psload_frame stores record).getD 2 0 = record.2.length % 65536 / 2 % 256 ∧
    (psload_frame stores record).getD 3 0 = record.2.length % 65536 / 2 / 256 ∧
    (psload_frame stores record).getD 4 0 = stores % 256 ∧
    (psload_frame stores record).getD 5 0 = stores / 256 % 256 := by
  have e : ∀ x : Nat, x &&& 0xff = x % 256 := fun x => Nat.and_pow_two_sub_one_eq_mod x 8
  have e2 : ∀ x : Nat, x >>> 8 = x / 2 ^ 8 := fun x => Nat.shiftRight_eq_div_pow x 8
  unfold psload_frame
  simp only [getD_put, length_put, length_fixbuf, e, e2]
  refine ⟨?_, ?_, ?_, ?_, ?_, ?_⟩
  all_goals simp only [Nat.reduceEqDiff, Nat.reduceLT, and_true, and_self, if_true, if_false,
    false_and, Nat.mod_mod, Nat.reducePow, OfNat.ofNat_ne_zero, OfNat.zero_ne_ofNat,
    OfNat.ofNat_ne_one, OfNat.one_ne_ofNat, one_ne_zero, zero_ne_one, Nat.lt_add_one]
  all_goals omega

theorem psload_loop_trace {σ : Type} (E : Env σ) (transport stores : Nat)
    (hsup : transport_supported E.have_libusb transport = true) :
    ∀ (records : List (Nat × List Nat)) (w : World σ),
      (psload_loop E transport stores records w).trace =
        w.trace ++ records.map (psload_write stores) := by
  intro records
  induction records with
  | nil => intro w; simp [psload_loop]
  | cons r rest ih =>
    intro w
    rw [psload_loop, ih]
    simp only [transport_write_supported _ _ _ _ _ _ hsup, List.map_cons, List.append_assoc,
      List.singleton_append]
    rfl

theorem cmd_psload_run {σ : Type} (E : Env σ) (transport : Nat) (argv : List CStr)
    (w : World σ) (records : List (Nat × List Nat))
    (hsup : transport_supported E.have_libusb transport = true)
    (hargs : OPT_RANGE 1 1 (argv.drop (opt_pskey E argv CSR_STORES_PSRAM false).2.2) = none)
    (hrec : (E.psr_read ((argv.drop (opt_pskey E argv CSR_STORES_PSRAM false).2.2).headD [])).2
      = records) :
    (cmd_psload E transport argv w).1 = 0 ∧
    (cmd_psload E transport argv w).2.trace =
      w.trace ++ records.map (psload_write (opt_pskey E argv CSR_STORES_PSRAM false).1)
        ++ (if (opt_pskey E argv CSR_STORES_PSRAM false).2.1 = true
            then [Event.write Varid.WARM_RESET [] 0] else []) := by
  unfold cmd_psload
  simp only [hargs, hrec]
  split_ifs with hr
  · simp only [transport_write_supported _ _ _ _ _ _ hsup, psload_loop_trace E transport _ hsup,
      true_and]
  · simp only [psload_loop_trace E transport _ hsup, true_and, List.append_nil]

/-- C15: bulk load continues past failing records. For every sequence of
records delivered by the record cursor and whatever the backend returns for
each write, `cmd_psload` returns 0 and sends exactly one PS write per record,
in the order of the records (followed only by the warm-reset write when the
reset flag is set); the write of a record of at most 250 value bytes carries
the key of the record in bytes 0-1 and its value bytes from offset 6 on. -/
theorem cmd_psload_continues {σ : Type} (E : Env σ) (transport : Nat) (argv : List CStr)
    (w : World σ) (records : List (Nat × List Nat))
    (hsup : transport_supported E.have_libusb transport = true)
    (hargs : OPT_RANGE 1 1 (argv.drop (opt_pskey E argv CSR_STORES_PSRAM false).2.2) = none)
    (hrec : (E.psr_read ((argv.drop (opt_pskey E argv CSR_STORES_PSRAM false).2.2).headD [])).2
      = records) :
    (cmd_psload E transport argv w).1 = 0 ∧
    (cmd_psload E transport argv w).2.trace =
      w.trace ++ records.map (psload_write (opt_pskey E argv CSR_STORES_PSRAM false).1)
        ++ (if (opt_pskey E argv CSR_STORES_PSRAM false).2.1 = true
            then [Event.write Varid.WARM_RESET [] 0] else []) ∧
    (∀ stores record, ∃ frame size,
      psload_write stores record = Event.write Varid.PS frame size ∧
      (record.1 < 65536 → get16 frame 0 = record.1) ∧
      (record.2.length ≤ 250 → (∀ b ∈ record.2, b < 256) →
        (frame.drop 6).take record.2.length = record.2)) := by
  obtain ⟨h1, h2⟩ := cmd_psload_run E transport argv w records hsup hargs hrec
  refine ⟨h1, h2, ?_⟩
  intro stores record
  refine ⟨_, _, rfl, ?_, ?_⟩
  · intro hk
    obtain ⟨g0, g1, _⟩ := psload_frame_header stores record
    unfold get16
    rw [g0, g1, Nat.shiftLeft_eq]
    omega
  · intro hn hb
    exact psload_frame_payload stores record hn hb

set_option maxRecDepth 100000 in
/-- C15, at a concrete input: three records, the write of the second fails;
the three writes are sent in order and `psload` returns 0, printing done,
failed, done. -/
theorem cmd_psload_continues_witness :
    (cmd_psload (loadEnv load_fixture) CSR_TRANSPORT_HCI [cstr "psload", cstr "file.psr"]
      (World.init [0, -1, 0])).1 = 0 ∧
    (cmd_psload (loadEnv load_fixture) CSR_TRANSPORT_HCI [cstr "psload", cstr "file.psr"]
      (World.init [0, -1, 0])).2.trace =
      (World.init ([0, -1, 0] : List Int)).trace
        ++ load_fixture.map (psload_write (opt_pskey (loadEnv load_fixture)
            [cstr "psload", cstr "file.psr"] CSR_STORES_PSRAM false).1)
        ++ (if (opt_pskey (loadEnv load_fixture)
              [cstr "psload", cstr "file.psr"] CSR_STORES_PSRAM false).2.1 = true
            then [Event.write Varid.WARM_RESET [] 0] else []) ∧
    (cmd_psload (loadEnv load_fixture) CSR_TRANSPORT_HCI [cstr "psload", cstr "file.psr"]
      (World.init [0, -1, 0])).2.out =
      [Line.psload 0x0001 true, Line.psload 0x01f6 false, Line.psload 0x01be true] :=
  ⟨(cmd_psload_continues (loadEnv load_fixture) CSR_TRANSPORT_HCI
      [cstr "psload", cstr "file.psr"] (World.init [0, -1, 0]) load_fixture
      (by decide) (by decide) rfl).1,
    (cmd_psload_continues (loadEnv load_fixture) CSR_TRANSPORT_HCI
      [cstr "psload", cstr "file.psr"] (World.init [0, -1, 0]) load_fixture
      (by decide) (by decide) rfl).2.1,
    rfl⟩

/-- C16, refuted: when `psr_read` fails (here with `-ENOENT`, no record
delivered) `psload missing.psr` returns 0 and sends nothing. -/
theorem cmd_psload_open_counterexample :
    (nofileEnv.psr_read (cstr "missing.psr")).1 < 0 ∧
    (cmd_psload nofileEnv CSR_TRANSPORT_HCI [cstr "psload", cstr "missing.psr"]
      (World.init [])).1 = 0 ∧
    (cmd_psload nofileEnv CSR_TRANSPORT_HCI [cstr "psload", cstr "missing.psr"]
      (World.init [])).2.trace = [] ∧
    (cmd_psload nofileEnv CSR_TRANSPORT_HCI [cstr "psload", cstr "missing.psr"]
      (World.init [])).2.errno = 0 :=
  ⟨by decide, rfl, rfl, rfl⟩

/-- C16, as amended: `cmd_psload` does not look at the result of `psr_read`.
Called with one positional argument it returns 0 whatever `psr_read` returns;
when the record cursor delivers no record (as after a failed open) it sends
no PS write, only the warm-reset write if the reset flag is set. -/
theorem cmd_psload_ignores_open {σ : Type} (E : Env σ) (transport : Nat) (argv : List CStr)
    (w : World σ)
    (hargs : OPT_RANGE 1 1 (argv.drop (opt_pskey E argv CSR_STORES_PSRAM false).2.2) = none) :
    (cmd_psload E transport argv w).1 = 0 ∧
    ((E.psr_read ((argv.drop (opt_pskey E argv CSR_STORES_PSRAM false).2.2).headD [])).2 = [] →
      (cmd_psload E transport argv w).2.trace =
        (reset_write E transport (opt_pskey E argv CSR_STORES_PSRAM false).2.1 w).trace) := by
  constructor
  · unfold cmd_psload
    simp only [hargs]
    split_ifs <;> rfl
  · intro hrec
    unfold cmd_psload reset_write
    simp only [hargs, hrec, psload_loop]
    split_ifs <;> rfl

/-- C16 as amended, at a concrete input: `psload missing.psr` when `psr_read`
fails. -/
theorem cmd_psload_ignores_open_witness :
    OPT_RANGE 1 1 (([cstr "psload", cstr "missing.psr"] : List CStr).drop
      (opt_pskey nofileEnv [cstr "psload", cstr "missing.psr"] CSR_STORES_PSRAM false).2.2)
      = none ∧
    (cmd_psload nofileEnv CSR_TRANSPORT_HCI [cstr "psload", cstr "missing.psr"]
      (World.init [])).1 = 0 :=
  ⟨by decide,
    (cmd_psload_ignores_open nofileEnv CSR_TRANSPORT_HCI [cstr "psload", cstr "missing.psr"]
      (World.init []) (by decide)).1⟩

/-! ## Events of the PS commands -/

theorem mem_transport_read_trace {σ : Type} (E : Env σ) (transport : Nat) (varid : Varid)
    (value : List Nat) (length : Nat) (w : World σ) (e : Event)
    (h : e ∈ (transport_read E transport varid value length w).world.trace) :
    e ∈ w.trace ∨ e = Event.read varid value length := by
  unfold transport_read at h
  split at h
  · simpa using h
  · exact Or.inl h

theorem mem_transport_write_trace {σ : Type} (E : Env σ) (transport : Nat) (varid : Varid)
    (value : List Nat) (length : Nat) (w : World σ) (e : Event)
    (h : e ∈ (transport_write E transport varid value length w).2.trace) :
    e ∈ w.trace ∨ e = Event.write varid value length := by
  unfold transport_write at h
  split at h
  · simpa using h
  · exact Or.inl h

theorem mem_reset_write_trace {σ : Type} (E : Env σ) (transport : Nat) (reset : Bool)
    (w : World σ) (e : Event) (h : e ∈ (reset_write E transport reset w).trace) :
    e ∈ w.trace ∨ e = Event.write Varid.WARM_RESET [] 0 := by
  unfold reset_write at h
  split at h
  · exact mem_transport_write_trace E transport _ _ _ w e h
  · exact Or.inl h

theorem inv_read {σ : Type} (E : Env σ) (transport : Nat) (varid : Varid) (value : List Nat)
    (length : Nat) (w : World σ) (Q : Event → Prop) (h : ∀ e ∈ w.trace, Q e)
    (hq : Q (Event.read varid value length)) :
    ∀ e ∈ (transport_read E transport varid value length w).world.trace, Q e := by
  intro e he
  rcases mem_transport_read_trace E transport varid value length w e he with h1 | h1
  · exact h e h1
  · rw [h1]; exact hq

theorem inv_write {σ : Type} (E : Env σ) (transport : Nat) (varid : Varid) (value : List Nat)
    (length : Nat) (w : World σ) (Q : Event → Prop) (h : ∀ e ∈ w.trace, Q e)
    (hq : Q (Event.write varid value length)) :
    ∀ e ∈ (transport_write E transport varid value length w).2.trace, Q e := by
  intro e he
  rcases mem_transport_write_trace E transport varid value length w e he with h1 | h1
  · exact h e h1
  · rw [h1]; exact hq

theorem inv_reset {σ : Type} (E : Env σ) (transport : Nat) (reset : Bool) (w : World σ)
    (Q : Event → Prop) (h : ∀ e ∈ w.trace, Q e) (hq : Q (Event.write Varid.WARM_RESET [] 0)) :
    ∀ e ∈ (reset_write E transport reset w).trace, Q e := by
  intro e he
  rcases mem_reset_write_trace E transport reset w e he with h1 | h1
  · exact h e h1
  · rw [h1]; exact hq

theorem cmd_psget_events {σ : Type} (E : Env σ) (transport : Nat) (argv : List CStr)
    (w : World σ) (Q : Event → Prop) (hw : ∀ e ∈ w.trace, Q e)
    (hsize : ∀ pskey, Q (Event.read Varid.PS_SIZE
      (frame4 128 pskey (opt_pskey E argv CSR_STORES_DEFAULT false).1) 8))
    (hread : ∀ pskey length, length + 6 ≤ 64 → Q (Event.read Varid.PS
      (frame6 128 pskey length (opt_pskey E argv CSR_STORES_DEFAULT false).1)
      ((length + 3) * 2)))
    (hreset : Q (Event.write Varid.WARM_RESET [] 0)) :
    ∀ e ∈ (cmd_psget E transport argv w).2.trace, Q e := by
  unfold cmd_psget
  dsimp only
  split
  · exact hw
  · split_ifs with c1 c2 c3
    · exact inv_read _ _ _ _ _ _ Q hw (hsize _)
    · exact inv_read _ _ _ _ _ _ Q hw (hsize _)
    · exact inv_read _ _ _ _ _ _ Q (inv_read _ _ _ _ _ _ Q hw (hsize _))
        (hread _ _ (by omega))
    · exact inv_reset _ _ _ _ Q
        (inv_read _ _ _ _ _ _ Q (inv_read _ _ _ _ _ _ Q hw (hsize _)) (hread _ _ (by omega)))
        hreset

theorem cmd_psset_events {σ : Type} (E : Env σ) (transport : Nat) (argv : List CStr)
    (w : World σ) (Q : Event → Prop) (hw : ∀ e ∈ w.trace, Q e)
    (hsize : ∀ pskey, Q (Event.read Varid.PS_SIZE
      (frame4 128 pskey (opt_pskey E argv CSR_STORES_PSRAM false).1) 8))
    (hwrite : ∀ pskey length tokens array, length + 6 ≤ 64 →
      psset_payload E.long_max length tokens
        (frame6 128 pskey length (opt_pskey E argv CSR_STORES_PSRAM false).1)
        = Except.ok array →
      Q (Event.write Varid.PS array ((length + 3) * 2)))
    (hreset : Q (Event.write Varid.WARM_RESET [] 0)) :
    ∀ e ∈ (cmd_psset E transport argv w).2.trace, Q e := by
  unfold cmd_psset
  dsimp only
  split
  · exact hw
  · split_ifs with c1 c2
    · exact inv_read _ _ _ _ _ _ Q hw (hsize _)
    · exact inv_read _ _ _ _ _ _ Q hw (hsize _)
    · split
      · exact inv_read _ _ _ _ _ _ Q hw (hsize _)
      · rename_i array hpay
        split_ifs
        · exact inv_write _ _ _ _ _ _ Q (inv_read _ _ _ _ _ _ Q hw (hsize _))
            (hwrite _ _ _ array (by omega) hpay)
        · exact inv_reset _ _ _ _ Q
            (inv_write _ _ _ _ _ _ Q (inv_read _ _ _ _ _ _ Q hw (hsize _))
              (hwrite _ _ _ array (by omega) hpay)) hreset

theorem cmd_psclr_events {σ : Type} (E : Env σ) (transport : Nat) (argv : List CStr)
    (w : World σ) (Q : Event → Prop) (hw : ∀ e ∈ w.trace, Q e)
    (hclr : ∀ pskey, Q (Event.write Varid.PS_CLR_STORES
      (frame4 8 pskey (opt_pskey E argv CSR_STORES_PSRAM false).1) 8))
    (hreset : Q (Event.write Varid.WARM_RESET [] 0)) :
    ∀ e ∈ (cmd_psclr E transport argv w).2.trace, Q e := by
  unfold cmd_psclr
  dsimp only
  split
  · exact hw
  · split_ifs
    · exact inv_write _ _ _ _ _ _ Q hw (hclr _)
    · exact inv_reset _ _ _ _ Q (inv_write _ _ _ _ _ _ Q hw (hclr _)) hreset

theorem pslist_loop_events {σ : Type} (E : Env σ) (transport stores : Nat) (Q : Event → Prop)
    (hnext : ∀ k, Q (Event.read Varid.PS_NEXT (frame4 8 k stores) 8))
    (hsize : ∀ k, Q (Event.read Varid.PS_SIZE (frame4 8 k stores) 8)) :
    ∀ (fuel pskey : Nat) (w w1 : World σ), (∀ e ∈ w.trace, Q e) →
      pslist_loop E transport stores fuel pskey w = some w1 → ∀ e ∈ w1.trace, Q e := by
  intro fuel
  induction fuel with
  | zero => intro pskey w w1 _ h; simp [pslist_loop] at h
  | succ n ih =>
    intro pskey w w1 hw h
    rw [pslist_loop] at h
    dsimp only at h
    have h1 := inv_read E transport Varid.PS_NEXT (frame4 8 pskey stores) 8 w Q hw (hnext _)
    split_ifs at h with c1 c2 c3
    · cases h; exact h1
    · cases h; exact h1
    · refine ih _ _ w1 ?_ h
      exact inv_read _ _ _ _ _ _ Q h1 (hsize _)
    · refine ih _ _ w1 ?_ h
      exact inv_read _ _ _ _ _ _ Q h1 (hsize _)

theorem psread_loop_events {σ : Type} (E : Env σ) (transport stores : Nat) (Q : Event → Prop)
    (hnext : ∀ k, Q (Event.read Varid.PS_NEXT (frame4 256 k stores) 8))
    (hsize : ∀ k, Q (Event.read Varid.PS_SIZE (frame4 256 k stores) 8))
    (hread : ∀ k length, length + 6 ≤ 128 →
      Q (Event.read Varid.PS (frame6 256 k length stores) ((length + 3) * 2))) :
    ∀ (fuel pskey : Nat) (w w1 : World σ), (∀ e ∈ w.trace, Q e) →
      psread_loop E transport stores fuel pskey w = some w1 → ∀ e ∈ w1.trace, Q e := by
  intro fuel
  induction fuel with
  | zero => intro pskey w w1 _ h; simp [psread_loop] at h
  | succ n ih =>
    intro pskey w w1 hw h
    rw [psread_loop] at h
    dsimp only at h
    have h1 := inv_read E transport Varid.PS_NEXT (frame4 256 pskey stores) 8 w Q hw (hnext _)
    split_ifs at h with c1 c2 c3 c4 c5
    · cases h; exact h1
    · cases h; exact h1
    · refine ih _ _ w1 ?_ h
      exact inv_read _ _ _ _ _ _ Q h1 (hsize _)
    · refine ih _ _ w1 ?_ h
      exact inv_read _ _ _ _ _ _ Q h1 (hsize _)
    · refine ih _ _ w1 ?_ h
      exact inv_read _ _ _ _ _ _ Q (inv_read _ _ _ _ _ _ Q h1 (hsize _))
        (hread _ _ (by omega))
    · refine ih _ _ w1 ?_ h
      exact inv_read _ _ _ _ _ _ Q (inv_read _ _ _ _ _ _ Q h1 (hsize _))
        (hread _ _ (by omega))

theorem cmd_pslist_events {σ : Type} (E : Env σ) (transport : Nat) (argv : List CStr)
    (w : World σ) (Q : Event → Prop) (hw : ∀ e ∈ w.trace, Q e)
    (hnext : ∀ k, Q (Event.read Varid.PS_NEXT
      (frame4 8 k (opt_pskey E argv CSR_STORES_DEFAULT false).1) 8))
    (hsize : ∀ k, Q (Event.read Varid.PS_SIZE
      (frame4 8 k (opt_pskey E argv CSR_STORES_DEFAULT false).1) 8))
    (hreset : Q (Event.write Varid.WARM_RESET [] 0)) :
    ∀ fuel r, cmd_pslist E fuel transport argv w = some r → ∀ e ∈ r.2.trace, Q e := by
  intro fuel r h
  unfold cmd_pslist at h
  dsimp only at h
  split at h
  · cases h; exact hw
  · split at h
    · cases h
    · rename_i w1 hloop
      cases h
      exact inv_reset _ _ _ _ Q
        (pslist_loop_events E transport _ Q hnext hsize fuel 0 w w1 hw hloop) hreset

theorem cmd_psread_events {σ : Type} (E : Env σ) (transport : Nat) (argv : List CStr)
    (w : World σ) (Q : Event → Prop) (hw : ∀ e ∈ w.trace, Q e)
    (hnext : ∀ k, Q (Event.read Varid.PS_NEXT
      (frame4 256 k (opt_pskey E argv CSR_STORES_DEFAULT false).1) 8))
    (hsize : ∀ k, Q (Event.read Varid.PS_SIZE
      (frame4 256 k (opt_pskey E argv CSR_STORES_DEFAULT false).1) 8))
    (hread : ∀ k length, length + 6 ≤ 128 →
      Q (Event.read Varid.PS
        (frame6 256 k length (opt_pskey E argv CSR_STORES_DEFAULT false).1)
        ((length + 3) * 2)))
    (hreset : Q (Event.write Varid.WARM_RESET [] 0)) :
    ∀ fuel r, cmd_psread E fuel transport argv w = some r → ∀ e ∈ r.2.trace, Q e := by
  intro fuel r h
  unfold cmd_psread at h
  dsimp only at h
  split at h
  · cases h; exact hw
  · split at h
    · cases h
    · rename_i w1 hloop
      cases h
      exact inv_reset _ _ _ _ Q
        (psread_loop_events E transport _ Q hnext hsize hread fuel 0 w w1 hw hloop) hreset

theorem psload_loop_events {σ : Type} (E : Env σ) (transport stores : Nat) (Q : Event → Prop) :
    ∀ (records : List (Nat × List Nat)) (w : World σ), (∀ e ∈ w.trace, Q e) →
      (∀ record ∈ records, Q (psload_write stores record)) →
      ∀ e ∈ (psload_loop E transport stores records w).trace, Q e := by
  intro records
  induction records with
  | nil => intro w hw _; exact hw
  | cons r rest ih =>
    intro w hw hr
    rw [psload_loop]
    refine ih _ ?_ (fun x hx => hr x (List.mem_cons_of_mem _ hx))
    exact inv_write E transport Varid.PS _ _ w Q hw (hr r (List.mem_cons_self _ _))

theorem cmd_psload_events {σ : Type} (E : Env σ) (transport : Nat) (argv : List CStr)
    (w : World σ) (Q : Event → Prop) (hw : ∀ e ∈ w.trace, Q e)
    (hwrite : ∀ record ∈
      (E.psr_read ((argv.drop (opt_pskey E argv CSR_STORES_PSRAM false).2.2).headD [])).2,
      Q (psload_write (opt_pskey E argv CSR_STORES_PSRAM false).1 record))
    (hreset : Q (Event.write Varid.WARM_RESET [] 0)) :
    ∀ e ∈ (cmd_psload E transport argv w).2.trace, Q e := by
  unfold cmd_psload
  dsimp only
  split
  · exact hw
  · split_ifs
    · exact inv_write _ _ _ _ _ _ Q (psload_loop_events E transport _ Q _ w hw hwrite) hreset
    · exact psload_loop_events E transport _ Q _ w hw hwrite

theorem psset_events {σ : Type} (E : Env σ) (transport pskey : Nat) (value : List Nat)
    (size : Nat) (w : World σ) (Q : Event → Prop) (hw : ∀ e ∈ w.trace, Q e)
    (hwrite : Q (Event.write Varid.PS
      (psset_memcpy value size (frame6 256 pskey size CSR_STORES_PSRAM))
      ((size * 2 + 6) % 65536))) :
    ∀ e ∈ (psset E transport pskey value size w).2.trace, Q e := by
  unfold psset
  exact inv_write _ _ _ _ _ _ Q hw hwrite

/-! ## Header fields of the frames -/

theorem getD_put_of_ne (a : List Nat) (i v j : Nat) (h : i ≠ j) :
    (put a i v).getD j 0 = a.getD j 0 := by
  rw [getD_put, if_neg (fun hh => h hh.1)]

theorem frame4_bytes (n x y : Nat) (hn : 4 ≤ n) :
    (frame4 n x y).getD 0 0 = x % 256 ∧ (frame4 n x y).getD 1 0 = x / 256 % 256 ∧
    (frame4 n x y).getD 2 0 = y % 256 ∧ (frame4 n x y).getD 3 0 = y / 256 % 256 := by
  have e : ∀ x : Nat, x &&& 0xff = x % 256 := fun x => Nat.and_pow_two_sub_one_eq_mod x 8
  have e2 : ∀ x : Nat, x >>> 8 = x / 2 ^ 8 := fun x => Nat.shiftRight_eq_div_pow x 8
  have hl : (memset0 n).length = n := by simp [memset0]
  have h0 : 0 < n := by omega
  have h1 : 1 < n := by omega
  have h2 : 2 < n := by omega
  have h3 : 3 < n := by omega
  unfold frame4
  simp only [getD_put, length_put, hl, e, e2]
  refine ⟨?_, ?_, ?_, ?_⟩
  all_goals simp only [Nat.reduceEqDiff, h0, h1, h2, h3, and_true, and_self, if_true, if_false,
    false_and, Nat.mod_mod, Nat.reducePow, OfNat.ofNat_ne_zero, OfNat.zero_ne_ofNat,
    OfNat.ofNat_ne_one, OfNat.one_ne_ofNat, one_ne_zero, zero_ne_one]

theorem frame6_bytes (n k l s : Nat) (hn : 6 ≤ n) :
    (frame6 n k l s).getD 0 0 = k % 256 ∧ (frame6 n k l s).getD 1 0 = k / 256 % 256 ∧
    (frame6 n k l s).getD 2 0 = l % 256 ∧ (frame6 n k l s).getD 3 0 = l / 256 % 256 ∧
    (frame6 n k l s).getD 4 0 = s % 256 ∧ (frame6 n k l s).getD 5 0 = s / 256 % 256 := by
  have e : ∀ x : Nat, x &&& 0xff = x % 256 := fun x => Nat.and_pow_two_sub_one_eq_mod x 8
  have e2 : ∀ x : Nat, x >>> 8 = x / 2 ^ 8 := fun x => Nat.shiftRight_eq_div_pow x 8
  obtain ⟨f0, f1, f2, f3⟩ := frame4_bytes n k l (by omega)
  have h4 : 4 < n := by omega
  have h5 : 5 < n := by omega
  unfold frame6
  refine ⟨?_, ?_, ?_, ?_, ?_, ?_⟩
  · rw [getD_put_of_ne _ _ _ _ (by omega), getD_put_of_ne _ _ _ _ (by omega), f0]
  · rw [getD_put_of_ne _ _ _ _ (by omega), getD_put_of_ne _ _ _ _ (by omega), f1]
  · rw [getD_put_of_ne _ _ _ _ (by omega), getD_put_of_ne _ _ _ _ (by omega), f2]
  · rw [getD_put_of_ne _ _ _ _ (by omega), getD_put_of_ne _ _ _ _ (by omega), f3]
  · rw [getD_put_of_ne _ _ _ _ (by omega), getD_put, length_frame4, e]
    simp [h4]
  · rw [getD_put, length_put, length_frame4, e2]
    simp [h5]

theorem psset_put_array_low (long_max : Nat) (argv : List CStr) (j : Nat) (hj : j < 6) :
    ∀ (l : List Nat) (array : List Nat),
      (l.foldl (fun a i => put a (i + 6)
        (to_u8 (psset_number long_max (argv.headD []) (argv.getD i [])))) array).getD j 0
        = array.getD j 0 := by
  intro l
  induction l with
  | nil => intro array; rfl
  | cons i rest ih =>
    intro array
    rw [List.foldl_cons, ih, getD_put_of_ne _ _ _ _ (by omega)]

theorem psset_payload_low (long_max length : Nat) (tokens : List CStr) (array frame : List Nat)
    (h : psset_payload long_max length tokens array = Except.ok frame) (j : Nat) (hj : j < 6) :
    frame.getD j 0 = array.getD j 0 := by
  unfold psset_payload at h
  split_ifs at h
  · cases h
    unfold psset_put16
    rw [getD_put_of_ne _ _ _ _ (by omega), getD_put_of_ne _ _ _ _ (by omega)]
  · cases h
    unfold psset_put32
    rw [getD_put_of_ne _ _ _ _ (by omega), getD_put_of_ne _ _ _ _ (by omega),
      getD_put_of_ne _ _ _ _ (by omega), getD_put_of_ne _ _ _ _ (by omega)]
  · cases h
    unfold psset_put_array
    exact psset_put_array_low long_max tokens j hj _ _

theorem psset_memcpy_low (value : List Nat) (j : Nat) (hj : j < 6) :
    ∀ (l : List Nat) (array : List Nat),
      (l.foldl (fun a i => put (put a (6 + 2 * i) ((value.getD i 0 % 65536) &&& 0xff))
        (6 + 2 * i + 1) ((value.getD i 0 % 65536) >>> 8)) array).getD j 0 = array.getD j 0 := by
  intro l
  induction l with
  | nil => intro array; rfl
  | cons i rest ih =>
    intro array
    rw [List.foldl_cons, ih, getD_put_of_ne _ _ _ _ (by omega),
      getD_put_of_ne _ _ _ _ (by omega)]

/-! ## The store field of the requests -/

theorem opt_pskey_step_no_store (long_max : Nat) :
    ∀ (l : List (Nat × CStr)) (st : Nat × Bool), (∀ o ∈ l, o.1 ≠ 115) →
      (l.foldl (opt_pskey_step long_max) st).1 = st.1 := by
  intro l
  induction l with
  | nil => intro st _; rfl
  | cons o rest ih =>
    intro st h
    rw [List.foldl_cons, ih _ (fun x hx => h x (List.mem_cons_of_mem _ hx))]
    have ho : o.1 ≠ 115 := h o (List.mem_cons_self _ _)
    unfold opt_pskey_step
    rw [if_neg ho]
    split_ifs <;> rfl

theorem opt_pskey_no_store {σ : Type} (E : Env σ) (argv : List CStr) (stores : Nat)
    (reset : Bool) (h : ∀ o ∈ (E.getopt_long argv (cstr "+s:rh")).1, o.1 ≠ 115) :
    (opt_pskey E argv stores reset).1 = stores := by
  unfold opt_pskey
  exact opt_pskey_step_no_store E.long_max _ _ h

theorem stores_are_size (n k s len : Nat) (hn : 4 ≤ n) :
    stores_are (s % 256) (s / 256 % 256) (Event.read Varid.PS_SIZE (frame4 n k s) len) := by
  obtain ⟨_, _, f2, f3⟩ := frame4_bytes n k s hn
  right
  simp only [store_bytes, f2, f3]

theorem stores_are_next (n k s len : Nat) (hn : 4 ≤ n) :
    stores_are (s % 256) (s / 256 % 256) (Event.read Varid.PS_NEXT (frame4 n k s) len) := by
  obtain ⟨_, _, f2, f3⟩ := frame4_bytes n k s hn
  right
  simp only [store_bytes, f2, f3]

theorem stores_are_clr (n k s len : Nat) (hn : 4 ≤ n) :
    stores_are (s % 256) (s / 256 % 256)
      (Event.write Varid.PS_CLR_STORES (frame4 n k s) len) := by
  obtain ⟨_, _, f2, f3⟩ := frame4_bytes n k s hn
  right
  simp only [store_bytes, f2, f3]

theorem stores_are_read (n k l s len : Nat) (hn : 6 ≤ n) :
    stores_are (s % 256) (s / 256 % 256) (Event.read Varid.PS (frame6 n k l s) len) := by
  obtain ⟨_, _, _, _, f4, f5⟩ := frame6_bytes n k l s hn
  right
  simp only [store_bytes, f4, f5]

theorem stores_are_write (array : List Nat) (lo hi len : Nat) (h4 : array.getD 4 0 = lo)
    (h5 : array.getD 5 0 = hi) : stores_are lo hi (Event.write Varid.PS array len) := by
  right
  simp only [store_bytes, h4, h5]

theorem stores_are_reset (lo hi : Nat) : stores_are lo hi (Event.write Varid.WARM_RESET [] 0) :=
  Or.inl rfl

/-- C12: when `getopt_long` returns no `s` option, every request sent by
`cmd_psget`, `cmd_pslist` and `cmd_psread` carries the store bytes 0x03, 0x00
(Implementation|Factory), and every request sent by `cmd_psset`, `cmd_psclr`,
`cmd_psload` and, for any command line, by the helper `psset` carries the store
bytes 0x08, 0x00 (RAM only). -/
theorem default_store_mask {σ : Type} (E : Env σ) (transport : Nat) (argv : List CStr)
    (w : World σ) (hopt : ∀ o ∈ (E.getopt_long argv (cstr "+s:rh")).1, o.1 ≠ 115) :
    (∀ e ∈ (cmd_psget E transport argv w).2.trace, e ∈ w.trace ∨ stores_are 0x03 0x00 e) ∧
    (∀ fuel r, cmd_pslist E fuel transport argv w = some r →
      ∀ e ∈ r.2.trace, e ∈ w.trace ∨ stores_are 0x03 0x00 e) ∧
    (∀ fuel r, cmd_psread E fuel transport argv w = some r →
      ∀ e ∈ r.2.trace, e ∈ w.trace ∨ stores_are 0x03 0x00 e) ∧
    (∀ e ∈ (cmd_psset E transport argv w).2.trace, e ∈ w.trace ∨ stores_are 0x08 0x00 e) ∧
    (∀ e ∈ (cmd_psclr E transport argv w).2.trace, e ∈ w.trace ∨ stores_are 0x08 0x00 e) ∧
    (∀ e ∈ (cmd_psload E transport argv w).2.trace, e ∈ w.trace ∨ stores_are 0x08 0x00 e) ∧
    (∀ pskey value size, ∀ e ∈ (psset E transport pskey value size w).2.trace,
      e ∈ w.trace ∨ stores_are 0x08 0x00 e) := by
  have hd := opt_pskey_no_store E argv CSR_STORES_DEFAULT false hopt
  have hr := opt_pskey_no_store E argv CSR_STORES_PSRAM false hopt
  have d0 : CSR_STORES_DEFAULT % 256 = 0x03 := by decide
  have d1 : CSR_STORES_DEFAULT / 256 % 256 = 0x00 := by decide
  have r0 : CSR_STORES_PSRAM % 256 = 0x08 := by decide
  have r1 : CSR_STORES_PSRAM / 256 % 256 = 0x00 := by decide
  have hw : ∀ e ∈ w.trace, e ∈ w.trace ∨ stores_are 0x03 0x00 e := fun e he => Or.inl he
  have hw8 : ∀ e ∈ w.trace, e ∈ w.trace ∨ stores_are 0x08 0x00 e := fun e he => Or.inl he
  refine ⟨?_, ?_, ?_, ?_, ?_, ?_, ?_⟩
  · refine cmd_psget_events E transport argv w _ hw ?_ ?_ (Or.inr (stores_are_reset _ _))
    · intro pskey
      rw [hd]
      have h := stores_are_size 128 pskey CSR_STORES_DEFAULT 8 (by omega)
      rw [d0, d1] at h
      exact Or.inr h
    · intro pskey length _
      rw [hd]
      have h := stores_are_read 128 pskey length CSR_STORES_DEFAULT ((length + 3) * 2) (by omega)
      rw [d0, d1] at h
      exact Or.inr h
  · refine cmd_pslist_events E transport argv w _ hw ?_ ?_ (Or.inr (stores_are_reset _ _))
    · intro k
      rw [hd]
      have h := stores_are_next 8 k CSR_STORES_DEFAULT 8 (by omega)
      rw [d0, d1] at h
      exact Or.inr h
    · intro k
      rw [hd]
      have h := stores_are_size 8 k CSR_STORES_DEFAULT 8 (by omega)
      rw [d0, d1] at h
      exact Or.inr h
  · refine cmd_psread_events E transport argv w _ hw ?_ ?_ ?_ (Or.inr (stores_are_reset _ _))
    · intro k
      rw [hd]
      have h := stores_are_next 256 k CSR_STORES_DEFAULT 8 (by omega)
      rw [d0, d1] at h
      exact Or.inr h
    · intro k
      rw [hd]
      have h := stores_are_size 256 k CSR_STORES_DEFAULT 8 (by omega)
      rw [d0, d1] at h
      exact Or.inr h
    · intro k length _
      rw [hd]
      have h := stores_are_read 256 k length CSR_STORES_DEFAULT ((length + 3) * 2) (by omega)
      rw [d0, d1] at h
      exact Or.inr h
  · refine cmd_psset_events E transport argv w _ hw8 ?_ ?_ (Or.inr (stores_are_reset _ _))
    · intro pskey
      rw [hr]
      have h := stores_are_size 128 pskey CSR_STORES_PSRAM 8 (by omega)
      rw [r0, r1] at h
      exact Or.inr h
    · intro pskey length tokens array _ hp
      rw [hr] at hp
      obtain ⟨_, _, _, _, f4, f5⟩ := frame6_bytes 128 pskey length CSR_STORES_PSRAM (by omega)
      refine Or.inr (stores_are_write array _ _ _ ?_ ?_)
      · rw [psset_payload_low _ _ _ _ _ hp 4 (by omega), f4, r0]
      · rw [psset_payload_low _ _ _ _ _ hp 5 (by omega), f5, r1]
  · refine cmd_psclr_events E transport argv w _ hw8 ?_ (Or.inr (stores_are_reset _ _))
    intro pskey
    rw [hr]
    have h := stores_are_clr 8 pskey CSR_STORES_PSRAM 8 (by omega)
    rw [r0, r1] at h
    exact Or.inr h
  · refine cmd_psload_events E transport argv w _ hw8 ?_ (Or.inr (stores_are_reset _ _))
    intro record _
    rw [hr]
    obtain ⟨_, _, _, _, f4, f5⟩ := psload_frame_header CSR_STORES_PSRAM record
    refine Or.inr (stores_are_write _ _ _ _ ?_ ?_)
    · rw [f4, r0]
    · rw [f5, r1]
  · intro pskey value size
    refine psset_events E transport pskey value size w _ hw8 ?_
    obtain ⟨_, _, _, _, f4, f5⟩ := frame6_bytes 256 pskey size CSR_STORES_PSRAM (by omega)
    refine Or.inr (stores_are_write _ _ _ _ ?_ ?_)
    · unfold psset_memcpy
      rw [psset_memcpy_low value 4 (by omega), f4, r0]
    · unfold psset_memcpy
      rw [psset_memcpy_low value 5 (by omega), f5, r1]

/-- C12, at a concrete input: the simulated responder, whose `getopt_long`
returns no option, for the command line `psget 0x0001`. -/
theorem default_store_mask_witness :
    (∀ o ∈ ((simEnv 1 [0x34, 0x12]).getopt_long [cstr "psget", cstr "0x0001"]
        (cstr "+s:rh")).1, o.1 ≠ 115) ∧
    (∀ e ∈ (cmd_psget (simEnv 1 [0x34, 0x12]) CSR_TRANSPORT_HCI
        [cstr "psget", cstr "0x0001"] (World.init [])).2.trace,
      e ∈ (World.init ([] : List Nat)).trace ∨ stores_are 0x03 0x00 e) ∧
    (∀ e ∈ (cmd_psclr (simEnv 1 [0x34, 0x12]) CSR_TRANSPORT_HCI
        [cstr "psget", cstr "0x0001"] (World.init [])).2.trace,
      e ∈ (World.init ([] : List Nat)).trace ∨ stores_are 0x08 0x00 e) :=
  ⟨by decide,
    (default_store_mask (simEnv 1 [0x34, 0x12]) CSR_TRANSPORT_HCI
      [cstr "psget", cstr "0x0001"] (World.init []) (by decide)).1,
    (default_store_mask (simEnv 1 [0x34, 0x12]) CSR_TRANSPORT_HCI
      [cstr "psget", cstr "0x0001"] (World.init []) (by decide)).2.2.2.2.1⟩

/-! ## The length field and the frame size of the PS writes -/

theorem get16_of_bytes (array : List Nat) (i l : Nat) (hl : l < 65536)
    (h0 : array.getD i 0 = l % 256) (h1 : array.getD (i + 1) 0 = l / 256 % 256) :
    get16 array i = l := by
  unfold get16
  rw [h0, h1, Nat.shiftLeft_eq]
  omega

theorem get16_psset_payload (long_max pskey length stores : Nat) (tokens : List CStr)
    (array : List Nat) (hl : length < 65536)
    (h : psset_payload long_max length tokens (frame6 128 pskey length stores)
      = Except.ok array) : get16 array 2 = length := by
  obtain ⟨_, _, f2, f3, _, _⟩ := frame6_bytes 128 pskey length stores (by omega)
  refine get16_of_bytes array 2 length hl ?_ ?_
  · rw [psset_payload_low _ _ _ _ _ h 2 (by omega), f2]
  · rw [psset_payload_low _ _ _ _ _ h 3 (by omega), f3]

theorem get16_psset_memcpy (pskey size : Nat) (value : List Nat) (hs : size < 65536) :
    get16 (psset_memcpy value size (frame6 256 pskey size CSR_STORES_PSRAM)) 2 = size := by
  obtain ⟨_, _, f2, f3, _, _⟩ := frame6_bytes 256 pskey size CSR_STORES_PSRAM (by omega)
  refine get16_of_bytes _ 2 size hs ?_ ?_
  · unfold psset_memcpy
    rw [psset_memcpy_low value 2 (by omega), f2]
  · unfold psset_memcpy
    rw [psset_memcpy_low value 3 (by omega), f3]

theorem get16_psload_frame (stores : Nat) (record : Nat × List Nat)
    (hl : record.2.length ≤ 250) :
    get16 (psload_frame stores record) 2 = record.2.length / 2 := by
  obtain ⟨_, _, f2, f3, _, _⟩ := psload_frame_header stores record
  refine get16_of_bytes _ 2 _ (by omega) ?_ ?_
  · rw [f2]
    omega
  · rw [f3]
    omega

/-- C14: every PS write sent by `cmd_psset`, by the helper `psset` (for a
size that fits its 256-byte array, at most 125 words) and by `cmd_psload` (for
records of even byte length that fit the array, at most 250 bytes) has a frame
size of 6 + 2 × length bytes, that is (length + 3) × 2, where length is the
16-bit field in bytes 2-3 of the frame; the length field of the helper is its
`size` argument in words, and the length field of `cmd_psload` is the byte
size of the record divided by 2. -/
theorem ps_write_frame_size {σ : Type} (E : Env σ) (transport : Nat) (argv : List CStr)
    (w : World σ) :
    (∀ e ∈ (cmd_psset E transport argv w).2.trace, e ∈ w.trace ∨ ps_write_sized e) ∧
    (∀ pskey value size, size ≤ 125 →
      get16 (psset_memcpy value size (frame6 256 pskey size CSR_STORES_PSRAM)) 2 = size ∧
      ∀ e ∈ (psset E transport pskey value size w).2.trace,
        e ∈ w.trace ∨ ps_write_sized e) ∧
    ((∀ record ∈
        (E.psr_read ((argv.drop (opt_pskey E argv CSR_STORES_PSRAM false).2.2).headD [])).2,
        record.2.length % 2 = 0 ∧ record.2.length ≤ 250) →
      ∀ e ∈ (cmd_psload E transport argv w).2.trace, e ∈ w.trace ∨ ps_write_sized e) ∧
    (∀ stores record, record.2.length ≤ 250 →
      ∃ frame size, psload_write stores record = Event.write Varid.PS frame size ∧
        get16 frame 2 = record.2.length / 2 ∧ size = record.2.length + 6) := by
  have hw : ∀ e ∈ w.trace, e ∈ w.trace ∨ ps_write_sized e := fun e he => Or.inl he
  have hreset : ps_write_sized (Event.write Varid.WARM_RESET [] 0) := trivial
  refine ⟨?_, ?_, ?_, ?_⟩
  · refine cmd_psset_events E transport argv w _ hw ?_ ?_ (Or.inr hreset)
    · intro pskey
      exact Or.inr trivial
    · intro pskey length tokens array hlen hp
      have hg := get16_psset_payload _ _ _ _ _ _ (by omega) hp
      refine Or.inr ?_
      show (length + 3) * 2 = 6 + 2 * get16 array 2 ∧ (length + 3) * 2 = (get16 array 2 + 3) * 2
      rw [hg]
      omega
  · intro pskey value size hs
    have hg := get16_psset_memcpy pskey size value (by omega)
    refine ⟨hg, ?_⟩
    refine psset_events E transport pskey value size w _ hw (Or.inr ?_)
    show (size * 2 + 6) % 65536 = 6 + 2 * get16 _ 2 ∧ (size * 2 + 6) % 65536 = (get16 _ 2 + 3) * 2
    rw [hg]
    omega
  · intro hrec
    refine cmd_psload_events E transport argv w _ hw ?_ (Or.inr hreset)
    intro record hmem
    obtain ⟨heven, hle⟩ := hrec record hmem
    have hg := get16_psload_frame (opt_pskey E argv CSR_STORES_PSRAM false).1 record hle
    refine Or.inr ?_
    show (record.2.length % 65536 + 6) % 65536 = 6 + 2 * get16 _ 2 ∧
      (record.2.length % 65536 + 6) % 65536 = (get16 _ 2 + 3) * 2
    rw [hg]
    omega
  · intro stores record hle
    refine ⟨_, _, rfl, get16_psload_frame stores record hle, ?_⟩
    omega

/-- C14, at a concrete input: the bulk load of three records of two bytes
each, and the helper `psset` called for key 0x01be with one word. -/
theorem ps_write_frame_size_witness :
    (psset (simEnv 1 []) CSR_TRANSPORT_HCI 0x01be [0x0ebf] 1 (World.init [])).2.trace
      = [Event.write Varid.PS
          (psset_memcpy [0x0ebf] 1 (frame6 256 0x01be 1 CSR_STORES_PSRAM)) 8] ∧
    (∀ e ∈ (psset (simEnv 1 []) CSR_TRANSPORT_HCI 0x01be [0x0ebf] 1 (World.init [])).2.trace,
      e ∈ (World.init ([] : List Nat)).trace ∨ ps_write_sized e) ∧
    (∀ e ∈ (cmd_psload (loadEnv load_fixture) CSR_TRANSPORT_HCI
        [cstr "psload", cstr "file.psr"] (World.init [0, -1, 0])).2.trace,
      e ∈ (World.init ([0, -1, 0] : List Int)).trace ∨ ps_write_sized e) :=
  ⟨rfl,
    ((ps_write_frame_size (simEnv 1 []) CSR_TRANSPORT_HCI [] (World.init [])).2.1
      0x01be [0x0ebf] 1 (by decide)).2,
    (ps_write_frame_size (loadEnv load_fixture) CSR_TRANSPORT_HCI
      [cstr "psload", cstr "file.psr"] (World.init [0, -1, 0])).2.2.1 (by decide)⟩

/-! ## Unsupported transports and the exit status of `main` -/

/-- C20: for a transport kind without backend, `transport_open` returns -1 and
leaves the state as it is, `transport_read` and `transport_write` return -1
with `errno` set to `EOPNOTSUPP`, the buffer and the trace unchanged, and
`main`, when its options select such a kind, exits with status 1 in the state
it started in (no backend call at all). `CSR_TRANSPORT_UNKNOWN` is such a
kind, and it is what `case 't'` of `main` selects for a name that is none of
hci, usb, bcsp, h4, h5, 3wire, twutl. -/
theorem unsupported_transport {σ : Type} (E : Env σ) (transport : Nat)
    (h : transport_supported E.have_libusb transport = false) :
    (∀ device w, transport_open E transport device w = (-1, w)) ∧
    (∀ varid value length w, transport_read E transport varid value length w =
      { err := -1, array := value, world := { w with errno := EOPNOTSUPP } }) ∧
    (∀ varid value length w, transport_write E transport varid value length w =
      (-1, { w with errno := EOPNOTSUPP })) ∧
    (∀ argv device w,
      main_options (E.getopt_long argv (cstr "+t:d:i:h")).1 (CSR_TRANSPORT_HCI, none)
        = some (transport, device) →
      main E argv w = (1, w)) ∧
    transport_supported E.have_libusb CSR_TRANSPORT_UNKNOWN = false ∧
    (∀ optarg, (∀ name ∈ ["hci", "usb", "bcsp", "h4", "h5", "3wire", "twutl"],
        strcasecmp optarg (cstr name) ≠ 0) →
      main_transport optarg = CSR_TRANSPORT_UNKNOWN) := by
  refine ⟨?_, ?_, ?_, ?_, ?_, ?_⟩
  · intro device w
    unfold transport_open
    rw [h]
    rfl
  · intro varid value length w
    unfold transport_read
    rw [h]
    rfl
  · intro varid value length w
    unfold transport_write
    rw [h]
    rfl
  · intro argv device w hopt
    unfold main
    simp only [hopt]
    split_ifs with h1 h2
    · rfl
    · unfold transport_open
      rw [h]
      rfl
    · exfalso
      apply h2
      unfold transport_open
      rw [h]
      show ((-1 : Int)) < 0
      omega
  · cases hl : E.have_libusb <;> rfl
  · intro optarg hn
    unfold main_transport
    rw [if_neg (hn "hci" (by simp)), if_neg (hn "usb" (by simp)), if_neg (hn "bcsp" (by simp)),
      if_neg (hn "h4" (by simp)), if_neg (hn "h5" (by simp)), if_neg (hn "3wire" (by simp)),
      if_neg (hn "twutl" (by simp))]

/-- C20, at a concrete input: `bccmd -t serial psload` with a `getopt_long`
that returns the option `t` with argument `serial`; `main` exits with status 1
and an empty trace. -/
theorem unsupported_transport_witness :
    transport_supported (optEnv [(116, cstr "serial")] 3).have_libusb
      (main_transport (cstr "serial")) = false ∧
    main (optEnv [(116, cstr "serial")] 3)
      [cstr "bccmd", cstr "-t", cstr "serial", cstr "psload"] (World.init [])
      = (1, World.init []) :=
  ⟨by decide,
    (unsupported_transport (optEnv [(116, cstr "serial")] 3) (main_transport (cstr "serial"))
      (by decide)).2.2.2.1 [cstr "bccmd", cstr "-t", cstr "serial", cstr "psload"] none
      (World.init []) (by decide)⟩

set_option maxRecDepth 100000 in
/-- C19, refuted: with a backend on which every PS write fails, `bccmd psload`
sends its nineteen PS writes, each of them failing, and `main` exits with
status 0. -/
theorem main_exit_counterexample :
    (∀ kind value length s, (failEnv.csr_write kind Varid.PS value length s).1 < 0) ∧
    (written_payload 0
      (main failEnv [cstr "bccmd", cstr "psload"] (World.init ())).2.trace).length = 19 ∧
    (main failEnv [cstr "bccmd", cstr "psload"] (World.init ())).1 = 0 :=
  ⟨fun _ _ _ _ => by simp [failEnv], by rfl, by rfl⟩

/-- C19, amended: the exit status of `main` is 0 when the option loop reaches
`usage(); exit(0);`; otherwise it is 0 or 1, and it is 1 exactly when no
argument is left after the options, or `transport_open` fails, or the final
warm-reset write fails. The results of the PS writes of the helper `psset` do
not enter the exit status. -/
theorem main_exit_status {σ : Type} (E : Env σ) (argv : List CStr) (w : World σ) :
    (main_options (E.getopt_long argv (cstr "+t:d:i:h")).1 (CSR_TRANSPORT_HCI, none) = none →
      (main E argv w).1 = 0) ∧
    (∀ st,
      main_options (E.getopt_long argv (cstr "+t:d:i:h")).1 (CSR_TRANSPORT_HCI, none)
        = some st →
      ((main E argv w).1 = 0 ∨ (main E argv w).1 = 1) ∧
      ((main E argv w).1 = 1 ↔
        (argv.drop (E.getopt_long argv (cstr "+t:d:i:h")).2).length < 1 ∨
        (transport_open E st.1 st.2 w).1 < 0 ∨
        (transport_write E st.1 Varid.WARM_RESET [] 0
          (cmd_psload_default E st.1 (transport_open E st.1 st.2 w).2).2).1 < 0)) := by
  refine ⟨?_, ?_⟩
  · intro hopt
    unfold main
    simp only [hopt]
  · intro st hopt
    unfold main
    simp only [hopt]
    by_cases h1 : (argv.drop (E.getopt_long argv (cstr "+t:d:i:h")).2).length < 1
    · rw [if_pos h1]
      exact ⟨Or.inr rfl, fun _ => Or.inl h1, fun _ => rfl⟩
    · rw [if_neg h1]
      by_cases h2 : (transport_open E st.1 st.2 w).1 < 0
      · rw [if_pos h2]
        exact ⟨Or.inr rfl, fun _ => Or.inr (Or.inl h2), fun _ => rfl⟩
      · rw [if_neg h2]
        unfold psset_warmreset
        by_cases h3 : (transport_write E st.1 Varid.WARM_RESET [] 0
            (cmd_psload_default E st.1 (transport_open E st.1 st.2 w).2).2).1 < 0
        · rw [if_pos h3]
          exact ⟨Or.inr rfl, fun _ => Or.inr (Or.inr h3), fun _ => rfl⟩
        · rw [if_neg h3]
          refine ⟨Or.inl rfl, fun h => ?_, fun h => ?_⟩
          · have h0 : (0 : Nat) = 1 := h
            omega
          · rcases h with h | h | h
            · exact absurd h h1
            · exact absurd h h2
            · exact absurd h h3

set_option maxRecDepth 100000 in
/-- C19, at a concrete input: `bccmd psload` on the backend whose PS writes
all fail; the options are accepted, an argument is left, the open and the
warm-reset write succeed, and the exit status is 0, not 1. -/
theorem main_exit_status_witness :
    main_options (failEnv.getopt_long [cstr "bccmd", cstr "psload"] (cstr "+t:d:i:h")).1
      (CSR_TRANSPORT_HCI, none) = some (CSR_TRANSPORT_HCI, none) ∧
    ((main failEnv [cstr "bccmd", cstr "psload"] (World.init ())).1 = 1 ↔
      ([cstr "bccmd", cstr "psload"].drop
        (failEnv.getopt_long [cstr "bccmd", cstr "psload"] (cstr "+t:d:i:h")).2).length < 1 ∨
      (transport_open failEnv CSR_TRANSPORT_HCI none (World.init ())).1 < 0 ∨
      (transport_write failEnv CSR_TRANSPORT_HCI Varid.WARM_RESET [] 0
        (cmd_psload_default failEnv CSR_TRANSPORT_HCI
          (transport_open failEnv CSR_TRANSPORT_HCI none (World.init ())).2).2).1 < 0) :=
  ⟨rfl,
    ((main_exit_status failEnv [cstr "bccmd", cstr "psload"] (World.init ())).2
      (CSR_TRANSPORT_HCI, none) rfl).2⟩

/-! ## Release of the transport -/

set_option maxRecDepth 100000 in
/-- C21, at the failing input: `bccmd psload` over HCI on a backend that opens
the device, accepts the nineteen PS writes and fails the warm-reset write.
`transport_open` succeeded and reached the backend once, `main` ends the
process with status 1 inside `psset_warmreset`, and `transport_close` was
never called. -/
theorem main_close_skipped :
    ¬ (transport_open (optEnv [] 1) CSR_TRANSPORT_HCI none
        (World.init (List.replicate 19 0 ++ [-1]))).1 < 0 ∧
    (main (optEnv [] 1) [cstr "bccmd", cstr "psload"]
      (World.init (List.replicate 19 0 ++ [-1]))).1 = 1 ∧
    opens (main (optEnv [] 1) [cstr "bccmd", cstr "psload"]
      (World.init (List.replicate 19 0 ++ [-1]))).2.trace = 1 ∧
    closes (main (optEnv [] 1) [cstr "bccmd", cstr "psload"]
      (World.init (List.replicate 19 0 ++ [-1]))).2.trace = 0 ∧
    closes (main (optEnv [] 1) [cstr "bccmd", cstr "psload"]
      (World.init (List.replicate 19 0))).2.trace = 1 :=
  ⟨by decide, by rfl, by rfl, by rfl, by rfl⟩

/-! ## `psset_bdaddr` -/

set_option maxRecDepth 100000 in
/-- C23, at the failing input: `psset_bdaddr` over HCI sends one PS write whose
length field is 4 words and whose frame size is 12 bytes, not 6 + 2 × 4 = 14:
the write covers the header and the first six of the eight address bytes. -/
theorem psset_bdaddr_frame_size :
    (psset_bdaddr (simEnv 1 []) CSR_TRANSPORT_HCI (World.init [])).2.trace
      = [Event.write Varid.PS psset_bdaddr_frame 12] ∧
    get16 psset_bdaddr_frame 2 = 4 ∧
    (12 : Nat) ≠ 6 + 2 * get16 psset_bdaddr_frame 2 ∧
    ¬ ps_write_sized (Event.write Varid.PS psset_bdaddr_frame 12) ∧
    (psset_bdaddr_frame.drop 6).take 8 = bdaddr ∧
    (psset_bdaddr_frame.take 12).drop 6 = bdaddr.take 6 :=
  ⟨by rfl, by rfl, by decide, by
    intro h
    have h2 : (12 : Nat) = 6 + 2 * get16 psset_bdaddr_frame 2 := h.1
    have h3 : get16 psset_bdaddr_frame 2 = 4 := by rfl
    rw [h3] at h2
    omega, by rfl, by rfl⟩

/-! ## `cmd_buildname` -/

set_option maxRecDepth 100000 in
/-- C29, at the failing input: `buildname` over HCI with a read that succeeds.
The last of the 64 iterations reads `array[130]`, one past the end of the
130-byte `array`: the index `(63 * 2) + 4` is 130, which is not less than 130,
and the 64th byte of `name` comes from outside the buffer. -/
theorem cmd_buildname_index_overrun :
    buildname_index 63 = 130 ∧ ¬ buildname_index 63 < 130 ∧
    (∀ i < 63, buildname_index i < 130) ∧
    (cmd_buildname (simEnv 1 []) CSR_TRANSPORT_HCI [cstr "buildname"] (World.init [])).1 = 0 ∧
    (cmd_buildname (simEnv 1 []) CSR_TRANSPORT_HCI [cstr "buildname"] (World.init [])).2.out
      = [Line.buildname (List.replicate 63 (some 0) ++ [none])] :=
  ⟨by rfl, by decide, by
    intro i hi
    unfold buildname_index
    omega, by rfl, by rfl⟩

/-! ## `cmd_psget`: the bytes of a two-word value -/

theorem cmd_psget_out_two_words {σ : Type} (E : Env σ) (transport : Nat) (argv : List CStr)
    (w : World σ) (pskey stores : Nat) (size_rsp rsp : (Int × List Nat) × σ)
    (hsup : transport_supported E.have_libusb transport = true)
    (hargs : OPT_RANGE 1 1 (argv.drop (opt_pskey E argv CSR_STORES_DEFAULT false).2.2) = none)
    (hkey : resolve_pskey E.long_max E.pskey
      ((argv.drop (opt_pskey E argv CSR_STORES_DEFAULT false).2.2).headD []) = pskey)
    (hstores : (opt_pskey E argv CSR_STORES_DEFAULT false).1 = stores)
    (hsize : E.csr_read transport Varid.PS_SIZE (frame4 128 pskey stores) 8 w.chip = size_rsp)
    (hsize_ok : 0 ≤ size_rsp.1.1)
    (hlen : byte size_rsp.1.2 2 + (byte size_rsp.1.2 3 <<< 8) = 2)
    (hread : E.csr_read transport Varid.PS (frame6 128 pskey 2 stores) ((2 + 3) * 2) size_rsp.2
      = rsp)
    (hread_ok : 0 ≤ rsp.1.1) :
    (cmd_psget E transport argv w).2.out =
      w.out ++ [Line.psget32 pskey
        (byte rsp.1.2 8 ||| (byte rsp.1.2 9 <<< 8) ||| (byte rsp.1.2 6 <<< 16)
          ||| (byte rsp.1.2 7 <<< 24))] := by
  have hl : get16 (fixbuf 128 size_rsp.1.2) 2 = 2 := by
    rw [get16_fixbuf 128 _ 2 (by omega)]; exact hlen
  unfold cmd_psget
  simp only [hargs, hkey, hstores, transport_read_supported _ _ _ _ _ _ hsup, hsize,
    length_frame4, length_frame6, hl, hread, not_lt.2 hsize_ok, not_lt.2 hread_ok, if_false,
    reset_write_out, psget_print, psget_val32_fixbuf 128 _ (by omega)]
  simp [reset_write_out]

set_option maxRecDepth 100000 in
/-- C28, refuted: `psget 0x1234` against the simulated responder that reports
2 words and returns the bytes 0x11, 0x22, 0x33, 0x44 at offsets 6..9 prints
the value 0x22114433, which is not 0x44332211. -/
theorem cmd_psget_scalar32_bytes_counterexample :
    (cmd_psget (simEnv 2 [0x11, 0x22, 0x33, 0x44]) CSR_TRANSPORT_HCI
      [cstr "psget", cstr "0x1234"] (World.init [])).2.out
      = [Line.psget32 0x1234 0x22114433] ∧
    psget_val32 ([0, 0, 0, 0, 0, 0] ++ [0x11, 0x22, 0x33, 0x44]) ≠ 0x44332211 := by
  constructor
  · decide
  · decide

/-- C28, amended: in `cmd_psget`, when the size query reports a length of 2
words and the PS read succeeds with the bytes 0x11, 0x22, 0x33, 0x44 at
offsets 6, 7, 8, 9 of the response, the value printed is 0x22114433 (high
16 bits from offsets 6-7, low 16 bits from offsets 8-9, each low byte first). -/
theorem cmd_psget_scalar32_bytes {σ : Type} (E : Env σ) (transport : Nat) (argv : List CStr)
    (w : World σ) (pskey stores : Nat) (size_rsp rsp : (Int × List Nat) × σ)
    (hsup : transport_supported E.have_libusb transport = true)
    (hargs : OPT_RANGE 1 1 (argv.drop (opt_pskey E argv CSR_STORES_DEFAULT false).2.2) = none)
    (hkey : resolve_pskey E.long_max E.pskey
      ((argv.drop (opt_pskey E argv CSR_STORES_DEFAULT false).2.2).headD []) = pskey)
    (hstores : (opt_pskey E argv CSR_STORES_DEFAULT false).1 = stores)
    (hsize : E.csr_read transport Varid.PS_SIZE (frame4 128 pskey stores) 8 w.chip = size_rsp)
    (hsize_ok : 0 ≤ size_rsp.1.1)
    (hlen : byte size_rsp.1.2 2 + (byte size_rsp.1.2 3 <<< 8) = 2)
    (hread : E.csr_read transport Varid.PS (frame6 128 pskey 2 stores) ((2 + 3) * 2) size_rsp.2
      = rsp)
    (hread_ok : 0 ≤ rsp.1.1)
    (h6 : byte rsp.1.2 6 = 0x11) (h7 : byte rsp.1.2 7 = 0x22) (h8 : byte rsp.1.2 8 = 0x33)
    (h9 : byte rsp.1.2 9 = 0x44) :
    (cmd_psget E transport argv w).2.out = w.out ++ [Line.psget32 pskey 0x22114433] := by
  rw [cmd_psget_out_two_words E transport argv w pskey stores size_rsp rsp hsup hargs hkey
    hstores hsize hsize_ok hlen hread hread_ok, h6, h7, h8, h9]
  rfl

set_option maxRecDepth 100000 in
/-- C28, at a concrete input: `psget 0x1234` over HCI against the simulated
responder that reports 2 words and returns 0x11, 0x22, 0x33, 0x44. -/
theorem cmd_psget_scalar32_bytes_witness :
    transport_supported (simEnv 2 [0x11, 0x22, 0x33, 0x44]).have_libusb CSR_TRANSPORT_HCI
      = true ∧
    (cmd_psget (simEnv 2 [0x11, 0x22, 0x33, 0x44]) CSR_TRANSPORT_HCI
      [cstr "psget", cstr "0x1234"] (World.init [])).2.out
      = (World.init ([] : List Nat)).out ++ [Line.psget32 0x1234 0x22114433] :=
  ⟨by decide,
    cmd_psget_scalar32_bytes (simEnv 2 [0x11, 0x22, 0x33, 0x44]) CSR_TRANSPORT_HCI
      [cstr "psget", cstr "0x1234"] (World.init []) 0x1234 CSR_STORES_DEFAULT _ _
      (by decide) (by decide) (by decide) (by decide) rfl (by decide) (by decide) rfl
      (by decide) (by decide) (by decide) (by decide) (by decide)⟩

/-! ## One iteration of the loop of `cmd_psread` -/

theorem psread_loop_step {σ : Type} (E : Env σ) (transport stores fuel prev : Nat)
    (w : World σ) (next_rsp size_rsp : (Int × List Nat) × σ) (pskey length : Nat)
    (hsup : transport_supported E.have_libusb transport = true)
    (hnext : E.csr_read transport Varid.PS_NEXT (frame4 256 prev stores) 8 w.chip = next_rsp)
    (hnext_ok : 0 ≤ next_rsp.1.1)
    (hkey : byte next_rsp.1.2 4 + (byte next_rsp.1.2 5 <<< 8) = pskey)
    (hkey0 : pskey ≠ 0)
    (hsize : E.csr_read transport Varid.PS_SIZE (frame4 256 pskey stores) 8 next_rsp.2
      = size_rsp)
    (hsize_ok : 0 ≤ size_rsp.1.1)
    (hlen : byte size_rsp.1.2 2 + (byte size_rsp.1.2 3 <<< 8) = length) :
    (122 < length →
      psread_loop E transport stores (fuel + 1) prev w =
        psread_loop E transport stores fuel pskey
          { chip := size_rsp.2, errno := w.errno,
            trace := w.trace ++ [Event.read Varid.PS_NEXT (frame4 256 prev stores) 8,
              Event.read Varid.PS_SIZE (frame4 256 pskey stores) 8],
            out := w.out }) ∧
    (length ≤ 122 →
      psread_loop E transport stores (fuel + 1) prev w =
        psread_loop E transport stores fuel pskey
          { chip := (E.csr_read transport Varid.PS (frame6 256 pskey length stores)
              ((length + 3) * 2) size_rsp.2).2,
            errno := w.errno,
            trace := w.trace ++ [Event.read Varid.PS_NEXT (frame4 256 prev stores) 8,
              Event.read Varid.PS_SIZE (frame4 256 pskey stores) 8,
              Event.read Varid.PS (frame6 256 pskey length stores) ((length + 3) * 2)],
            out := w.out ++
              (if (E.csr_read transport Varid.PS (frame6 256 pskey length stores)
                  ((length + 3) * 2) size_rsp.2).1.1 < 0 then []
               else [Line.psread pskey ((List.range length).map (fun i =>
                 ((fixbuf 256 (E.csr_read transport Varid.PS (frame6 256 pskey length stores)
                    ((length + 3) * 2) size_rsp.2).1.2).getD (i * 2 + 7) 0,
                  (fixbuf 256 (E.csr_read transport Varid.PS (frame6 256 pskey length stores)
                    ((length + 3) * 2) size_rsp.2).1.2).getD (i * 2 + 6) 0)))]) }) := by
  have hk : get16 (fixbuf 256 next_rsp.1.2) 4 = pskey := by
    rw [get16_fixbuf 256 _ 4 (by omega)]; exact hkey
  have hl : get16 (fixbuf 256 size_rsp.1.2) 2 = length := by
    rw [get16_fixbuf 256 _ 2 (by omega)]; exact hlen
  constructor
  · intro hbig
    have hc : length + 6 > 256 / 2 := by omega
    rw [psread_loop]
    simp only [transport_read_supported _ _ _ _ _ _ hsup, length_frame4, hnext, hk, hsize, hl,
      not_lt.2 hnext_ok, not_lt.2 hsize_ok, if_false, hkey0, if_pos hc, List.append_assoc,
      List.singleton_append]
  · intro hsmall
    have hc : ¬ length + 6 > 256 / 2 := by omega
    rw [psread_loop]
    simp only [transport_read_supported _ _ _ _ _ _ hsup, length_frame4, length_frame6, hnext,
      hk, hsize, hl, not_lt.2 hnext_ok, not_lt.2 hsize_ok, if_false, hkey0, if_neg hc,
      List.append_assoc, List.singleton_append]
    by_cases h3 : (E.csr_read transport Varid.PS (frame6 256 pskey length stores)
        ((length + 3) * 2) size_rsp.2).1.1 < 0
    · simp only [if_pos h3, List.append_nil]
      rfl
    · simp only [if_neg h3]
      rfl

/-! ## `cmd_psread`: the length limit -/

theorem get16_frame6_length (n k l s : Nat) (hn : 6 ≤ n) (hl : l < 65536) :
    get16 (frame6 n k l s) 2 = l := by
  obtain ⟨_, _, f2, f3, _, _⟩ := frame6_bytes n k l s hn
  exact get16_of_bytes _ 2 l hl f2 f3

/-- C22: in the loop of `cmd_psread`, for a key discovered by a successful
enumerate-next read whose size query succeeds with a reported length of
`length` words: the test `length + 6 > 128` holds exactly when
`length > 122`; in that case the iteration ends after the size query, no PS
read is sent and nothing is printed, and the loop goes on from the discovered
key; otherwise the PS read for that key and length is sent with size
`(length + 3) * 2`, at most 250 bytes. Every PS read in the trace of a run of
`cmd_psread` has a length field of at most 122 and a size of at most 250. -/
theorem cmd_psread_length_limit {σ : Type} (E : Env σ) (transport stores fuel prev : Nat)
    (w : World σ) (next_rsp size_rsp : (Int × List Nat) × σ) (pskey length : Nat)
    (hsup : transport_supported E.have_libusb transport = true)
    (hnext : E.csr_read transport Varid.PS_NEXT (frame4 256 prev stores) 8 w.chip = next_rsp)
    (hnext_ok : 0 ≤ next_rsp.1.1)
    (hkey : byte next_rsp.1.2 4 + (byte next_rsp.1.2 5 <<< 8) = pskey)
    (hkey0 : pskey ≠ 0)
    (hsize : E.csr_read transport Varid.PS_SIZE (frame4 256 pskey stores) 8 next_rsp.2
      = size_rsp)
    (hsize_ok : 0 ≤ size_rsp.1.1)
    (hlen : byte size_rsp.1.2 2 + (byte size_rsp.1.2 3 <<< 8) = length) :
    (length + 6 > 256 / 2 ↔ 122 < length) ∧
    (122 < length →
      ∃ w2, psread_loop E transport stores (fuel + 1) prev w
          = psread_loop E transport stores fuel pskey w2 ∧
        w2.trace = w.trace ++ [Event.read Varid.PS_NEXT (frame4 256 prev stores) 8,
          Event.read Varid.PS_SIZE (frame4 256 pskey stores) 8] ∧
        ps_reads w2.trace = ps_reads w.trace ∧ w2.out = w.out) ∧
    (length ≤ 122 →
      ∃ w3, psread_loop E transport stores (fuel + 1) prev w
          = psread_loop E transport stores fuel pskey w3 ∧
        w3.trace = w.trace ++ [Event.read Varid.PS_NEXT (frame4 256 prev stores) 8,
          Event.read Varid.PS_SIZE (frame4 256 pskey stores) 8,
          Event.read Varid.PS (frame6 256 pskey length stores) ((length + 3) * 2)] ∧
        ps_reads w3.trace = ps_reads w.trace ++ [(pskey, length, (length + 3) * 2)] ∧
        (length + 3) * 2 ≤ (122 + 3) * 2 ∧ (122 + 3) * 2 = 250) ∧
    (∀ argv n r, cmd_psread E n transport argv w = some r →
      ∀ e ∈ r.2.trace, e ∈ w.trace ∨ ps_read_small e) := by
  obtain ⟨hskip, hgo⟩ := psread_loop_step E transport stores fuel prev w next_rsp size_rsp
    pskey length hsup hnext hnext_ok hkey hkey0 hsize hsize_ok hlen
  have hklt : pskey < 65536 := by
    have h4 := byte_lt next_rsp.1.2 4
    have h5 := byte_lt next_rsp.1.2 5
    rw [Nat.shiftLeft_eq] at hkey
    omega
  refine ⟨by omega, ?_, ?_, ?_⟩
  · intro hbig
    refine ⟨_, hskip hbig, rfl, ?_, rfl⟩
    simp [ps_reads, List.filterMap_append]
  · intro hsmall
    refine ⟨_, hgo hsmall, rfl, ?_, by omega, by norm_num⟩
    have hg0 : get16 (frame6 256 pskey length stores) 0 = pskey := by
      obtain ⟨f0, f1, _⟩ := frame6_bytes 256 pskey length stores (by omega)
      refine get16_of_bytes _ 0 pskey hklt f0 ?_
      rw [f1]
    have hg2 := get16_frame6_length 256 pskey length stores (by omega) (by omega)
    simp [ps_reads, List.filterMap_append, hg0, hg2]
  · intro argv n r hr
    refine cmd_psread_events E transport argv w _ (fun e he => Or.inl he) ?_ ?_ ?_ ?_ n r hr
    · intro k
      exact Or.inr trivial
    · intro k
      exact Or.inr trivial
    · intro k l hlk
      refine Or.inr ?_
      show get16 _ 2 ≤ 122 ∧ (l + 3) * 2 ≤ 250
      rw [get16_frame6_length 256 k l _ (by omega) (by omega)]
      omega
    · exact Or.inr trivial

set_option maxRecDepth 100000 in
/-- C22, at a concrete input: against the simulated responder that answers
key 0x0005 and then 0x0000, a reported length of 123 words leads to no PS
read, and a reported length of 122 words to one PS read of 250 bytes. -/
theorem cmd_psread_length_limit_witness :
    (∃ w2, psread_loop (simEnv 123 []) CSR_TRANSPORT_HCI CSR_STORES_DEFAULT 2 0
          (World.init [5, 0])
        = psread_loop (simEnv 123 []) CSR_TRANSPORT_HCI CSR_STORES_DEFAULT 1 5 w2 ∧
      w2.trace = (World.init [5, 0]).trace
        ++ [Event.read Varid.PS_NEXT (frame4 256 0 CSR_STORES_DEFAULT) 8,
          Event.read Varid.PS_SIZE (frame4 256 5 CSR_STORES_DEFAULT) 8] ∧
      ps_reads w2.trace = ps_reads (World.init [5, 0]).trace ∧
      w2.out = (World.init [5, 0]).out) ∧
    (cmd_psread (simEnv 123 []) 2 CSR_TRANSPORT_HCI [cstr "psread"]
      (World.init [5, 0])).map (fun r => ps_reads r.2.trace) = some [] ∧
    (cmd_psread (simEnv 122 []) 2 CSR_TRANSPORT_HCI [cstr "psread"]
      (World.init [5, 0])).map (fun r => ps_reads r.2.trace) = some [(5, 122, 250)] :=
  ⟨(cmd_psread_length_limit (simEnv 123 []) CSR_TRANSPORT_HCI CSR_STORES_DEFAULT 1 0
      (World.init [5, 0]) _ _ 5 123 (by decide) rfl (by decide) (by decide) (by decide) rfl
      (by decide) (by decide)).2.1 (by decide),
    by rfl, by rfl⟩

/-! ## The display of array values -/

theorem cmd_psget_out {σ : Type} (E : Env σ) (transport : Nat) (argv : List CStr)
    (w : World σ) (pskey stores length : Nat) (size_rsp rsp : (Int × List Nat) × σ)
    (hsup : transport_supported E.have_libusb transport = true)
    (hargs : OPT_RANGE 1 1 (argv.drop (opt_pskey E argv CSR_STORES_DEFAULT false).2.2) = none)
    (hkey : resolve_pskey E.long_max E.pskey
      ((argv.drop (opt_pskey E argv CSR_STORES_DEFAULT false).2.2).headD []) = pskey)
    (hstores : (opt_pskey E argv CSR_STORES_DEFAULT false).1 = stores)
    (hsize : E.csr_read transport Varid.PS_SIZE (frame4 128 pskey stores) 8 w.chip = size_rsp)
    (hsize_ok : 0 ≤ size_rsp.1.1)
    (hlen : byte size_rsp.1.2 2 + (byte size_rsp.1.2 3 <<< 8) = length)
    (hfit : length ≤ 58)
    (hread : E.csr_read transport Varid.PS (frame6 128 pskey length stores) ((length + 3) * 2)
      size_rsp.2 = rsp)
    (hread_ok : 0 ≤ rsp.1.1) :
    (cmd_psget E transport argv w).1 = rsp.1.1 ∧
    (cmd_psget E transport argv w).2.out =
      w.out ++ [psget_print pskey length (fixbuf 128 rsp.1.2)] := by
  have hl : get16 (fixbuf 128 size_rsp.1.2) 2 = length := by
    rw [get16_fixbuf 128 _ 2 (by omega)]; exact hlen
  have hc : ¬ length + 6 > 128 / 2 := by omega
  unfold cmd_psget
  simp only [hargs, hkey, hstores, transport_read_supported _ _ _ _ _ _ hsup, hsize,
    length_frame4, length_frame6, hl, hread, not_lt.2 hsize_ok, not_lt.2 hread_ok, if_false,
    if_neg hc, reset_write_out, true_and]

theorem psget_print_array (pskey length : Nat) (buf : List Nat) (h2 : 2 < length)
    (hfit : length ≤ 58) :
    psget_print pskey length (fixbuf 128 buf) =
      Line.psget_array pskey
        ((List.range length).map (fun i => (byte buf (i * 2 + 6), byte buf (i * 2 + 7)))) := by
  unfold psget_print
  rw [if_neg (by omega), if_neg (by omega)]
  congr 1
  apply List.map_congr_left
  intro i hi
  have hi2 := List.mem_range.1 hi
  rw [getD_fixbuf 128 buf _ (by omega), getD_fixbuf 128 buf _ (by omega)]

set_option maxRecDepth 100000 in
/-- C24, refuted: against the simulated responder that reports 3 words and
returns the bytes 34 12 78 56 bc 9a from offset 6 on, `psget 0x1234` displays
word 0 as 0x3412, which is not byte 6 | (byte 7 << 8) = 0x1234, the value
`psread` displays for the same word of the same frame. -/
theorem psget_array_display_counterexample :
    (cmd_psget (simEnv 3 [0x34, 0x12, 0x78, 0x56, 0xbc, 0x9a]) CSR_TRANSPORT_HCI
      [cstr "psget", cstr "0x1234"] (World.init [])).2.out
      = [Line.psget_array 0x1234 [(0x34, 0x12), (0x78, 0x56), (0xbc, 0x9a)]] ∧
    shown16 (0x34, 0x12) = 0x3412 ∧
    shown16 (0x34, 0x12) ≠ 0x34 ||| (0x12 <<< 8) ∧
    (cmd_psread (simEnv 3 [0x34, 0x12, 0x78, 0x56, 0xbc, 0x9a]) 2 CSR_TRANSPORT_HCI
      [cstr "psread"] (World.init [0x1234, 0])).map (fun r => r.2.out)
      = some [Line.psread 0x1234 [(0x12, 0x34), (0x56, 0x78), (0x9a, 0xbc)]] ∧
    shown16 (0x12, 0x34) = 0x34 ||| (0x12 <<< 8) :=
  ⟨by rfl, by rfl, by decide, by rfl, by rfl⟩

/-- C24, amended: for an array key (length above 2, at most 58 words)
`cmd_psget` displays each word `i` as the two bytes of the read response in
the order they stand in the frame, byte 6+2i then byte 7+2i, so the displayed
number is byte(6+2i) × 256 + byte(7+2i). `cmd_psread` displays byte 7+2i then
byte 6+2i, so the number it displays is the low-byte-first value
byte(6+2i) + (byte(7+2i) << 8). The two displays of a word agree exactly when
its two bytes are equal. -/
theorem psget_array_display {σ : Type} (E : Env σ) (transport : Nat)
    (hsup : transport_supported E.have_libusb transport = true) :
    (∀ argv (w : World σ) pskey stores length (size_rsp rsp : (Int × List Nat) × σ),
      OPT_RANGE 1 1 (argv.drop (opt_pskey E argv CSR_STORES_DEFAULT false).2.2) = none →
      resolve_pskey E.long_max E.pskey
        ((argv.drop (opt_pskey E argv CSR_STORES_DEFAULT false).2.2).headD []) = pskey →
      (opt_pskey E argv CSR_STORES_DEFAULT false).1 = stores →
      E.csr_read transport Varid.PS_SIZE (frame4 128 pskey stores) 8 w.chip = size_rsp →
      0 ≤ size_rsp.1.1 →
      byte size_rsp.1.2 2 + (byte size_rsp.1.2 3 <<< 8) = length →
      2 < length → length ≤ 58 →
      E.csr_read transport Varid.PS (frame6 128 pskey length stores) ((length + 3) * 2)
        size_rsp.2 = rsp →
      0 ≤ rsp.1.1 →
      ∃ shown, (cmd_psget E transport argv w).2.out = w.out ++ [Line.psget_array pskey shown] ∧
        shown.length = length ∧
        ∀ i, i < length →
          shown.getD i (0, 0) = (byte rsp.1.2 (6 + 2 * i), byte rsp.1.2 (7 + 2 * i)) ∧
          shown16 (shown.getD i (0, 0))
            = byte rsp.1.2 (6 + 2 * i) * 256 + byte rsp.1.2 (7 + 2 * i)) ∧
    (∀ stores fuel prev (w : World σ) (next_rsp size_rsp rsp : (Int × List Nat) × σ)
        pskey length,
      E.csr_read transport Varid.PS_NEXT (frame4 256 prev stores) 8 w.chip = next_rsp →
      0 ≤ next_rsp.1.1 →
      byte next_rsp.1.2 4 + (byte next_rsp.1.2 5 <<< 8) = pskey →
      pskey ≠ 0 →
      E.csr_read transport Varid.PS_SIZE (frame4 256 pskey stores) 8 next_rsp.2 = size_rsp →
      0 ≤ size_rsp.1.1 →
      byte size_rsp.1.2 2 + (byte size_rsp.1.2 3 <<< 8) = length →
      length ≤ 122 →
      E.csr_read transport Varid.PS (frame6 256 pskey length stores) ((length + 3) * 2)
        size_rsp.2 = rsp →
      0 ≤ rsp.1.1 →
      ∃ w3 shown, psread_loop E transport stores (fuel + 1) prev w
          = psread_loop E transport stores fuel pskey w3 ∧
        w3.out = w.out ++ [Line.psread pskey shown] ∧
        shown.length = length ∧
        ∀ i, i < length →
          shown.getD i (0, 0) = (byte rsp.1.2 (7 + 2 * i), byte rsp.1.2 (6 + 2 * i)) ∧
          shown16 (shown.getD i (0, 0))
            = byte rsp.1.2 (6 + 2 * i) + (byte rsp.1.2 (7 + 2 * i) <<< 8)) ∧
    (∀ a b, a < 256 → b < 256 → (shown16 (a, b) = shown16 (b, a) ↔ a = b)) := by
  refine ⟨?_, ?_, ?_⟩
  · intro argv w pskey stores length size_rsp rsp hargs hkey hstores hsize hsize_ok hlen h2
      hfit hread hread_ok
    obtain ⟨_, hout⟩ := cmd_psget_out E transport argv w pskey stores length size_rsp rsp hsup
      hargs hkey hstores hsize hsize_ok hlen hfit hread hread_ok
    rw [psget_print_array pskey length rsp.1.2 h2 hfit] at hout
    refine ⟨_, hout, by simp, ?_⟩
    intro i hi
    have e : ((List.range length).map
        (fun i => (byte rsp.1.2 (i * 2 + 6), byte rsp.1.2 (i * 2 + 7)))).getD i (0, 0)
        = (byte rsp.1.2 (6 + 2 * i), byte rsp.1.2 (7 + 2 * i)) := by
      rw [List.getD_eq_getElem?_getD, List.getElem?_map, List.getElem?_range hi]
      simp only [Option.map_some', Option.getD_some]
      rw [show i * 2 + 6 = 6 + 2 * i by omega, show i * 2 + 7 = 7 + 2 * i by omega]
    rw [e]
    exact ⟨rfl, rfl⟩
  · intro stores fuel prev w next_rsp size_rsp rsp pskey length hnext hnext_ok hkey hkey0
      hsize hsize_ok hlen hfit hread hread_ok
    obtain ⟨_, hgo⟩ := psread_loop_step E transport stores fuel prev w next_rsp size_rsp
      pskey length hsup hnext hnext_ok hkey hkey0 hsize hsize_ok hlen
    have hstep := hgo hfit
    rw [hread, if_neg (not_lt.2 hread_ok)] at hstep
    refine ⟨_, _, hstep, rfl, by simp, ?_⟩
    intro i hi
    have e : ((List.range length).map
        (fun i => ((fixbuf 256 rsp.1.2).getD (i * 2 + 7) 0,
          (fixbuf 256 rsp.1.2).getD (i * 2 + 6) 0))).getD i (0, 0)
        = (byte rsp.1.2 (7 + 2 * i), byte rsp.1.2 (6 + 2 * i)) := by
      rw [List.getD_eq_getElem?_getD, List.getElem?_map, List.getElem?_range hi]
      simp only [Option.map_some', Option.getD_some]
      rw [getD_fixbuf 256 _ _ (by omega), getD_fixbuf 256 _ _ (by omega),
        show i * 2 + 6 = 6 + 2 * i by omega, show i * 2 + 7 = 7 + 2 * i by omega]
    rw [e]
    refine ⟨rfl, ?_⟩
    unfold shown16
    rw [Nat.shiftLeft_eq]
    simp only
    omega
  · intro a b ha hb
    unfold shown16
    simp only
    omega

set_option maxRecDepth 100000 in
/-- C24, at a concrete input: `psget 0x1234` over HCI against the simulated
responder that reports 3 words and returns 34 12 78 56 bc 9a; word 0 is
displayed as the bytes 0x34, 0x12, that is as 0x3412. -/
theorem psget_array_display_witness :
    transport_supported (simEnv 3 [0x34, 0x12, 0x78, 0x56, 0xbc, 0x9a]).have_libusb
      CSR_TRANSPORT_HCI = true ∧
    ∃ shown, (cmd_psget (simEnv 3 [0x34, 0x12, 0x78, 0x56, 0xbc, 0x9a]) CSR_TRANSPORT_HCI
        [cstr "psget", cstr "0x1234"] (World.init [])).2.out
        = (World.init ([] : List Nat)).out ++ [Line.psget_array 0x1234 shown] ∧
      shown.length = 3 ∧ shown.getD 0 (0, 0) = (0x34, 0x12) ∧
      shown16 (shown.getD 0 (0, 0)) = 0x3412 := by
  refine ⟨by decide, ?_⟩
  obtain ⟨shown, h1, h2, h3⟩ :=
    (psget_array_display (simEnv 3 [0x34, 0x12, 0x78, 0x56, 0xbc, 0x9a]) CSR_TRANSPORT_HCI
      (by decide)).1 [cstr "psget", cstr "0x1234"] (World.init []) 0x1234 CSR_STORES_DEFAULT 3
      _ _ (by decide) (by decide) (by decide) rfl (by decide) (by decide) (by decide)
      (by decide) rfl (by decide)
  obtain ⟨h4, h5⟩ := h3 0 (by decide)
  refine ⟨shown, h1, h2, ?_, ?_⟩
  · rw [h4]
    decide
  · rw [h5]
    decide

/-! ## The 8-byte requests -/

theorem frame4_mod (n x y : Nat) : frame4 n x y = frame4 n (x % 65536) (y % 65536) := by
  have e : ∀ v : Nat, v &&& 0xff = v % 256 := fun v => Nat.and_pow_two_sub_one_eq_mod v 8
  have e2 : ∀ v : Nat, v >>> 8 = v / 2 ^ 8 := fun v => Nat.shiftRight_eq_div_pow v 8
  have h1 : x % 65536 % 256 = x % 256 := by omega
  have h2 : x % 65536 / 2 ^ 8 % 256 = x / 2 ^ 8 % 256 := by omega
  have h3 : y % 65536 % 256 = y % 256 := by omega
  have h4 : y % 65536 / 2 ^ 8 % 256 = y / 2 ^ 8 % 256 := by omega
  unfold frame4 put
  simp only [e, e2, h1, h2, h3, h4]

theorem frame4_take8 (n key stores : Nat) (hn : 8 ≤ n) (hk : key < 65536)
    (hs : stores < 65536) :
    (frame4 n key stores).take 8
      = [key &&& 0xff, key >>> 8, stores &&& 0xff, stores >>> 8, 0, 0, 0, 0] := by
  have e : ∀ v : Nat, v &&& 0xff = v % 256 := fun v => Nat.and_pow_two_sub_one_eq_mod v 8
  have e2 : ∀ v : Nat, v >>> 8 = v / 2 ^ 8 := fun v => Nat.shiftRight_eq_div_pow v 8
  obtain ⟨m, rfl⟩ : ∃ m, n = m + 8 := ⟨n - 8, by omega⟩
  have h2 : key / 2 ^ 8 % 256 = key / 2 ^ 8 := by omega
  have h4 : stores / 2 ^ 8 % 256 = stores / 2 ^ 8 := by omega
  unfold frame4 put memset0
  simp only [e, e2, List.replicate_succ, List.set_cons_zero, List.set_cons_succ,
    List.take_succ_cons, List.take_zero, Nat.mod_mod, h2, h4]

theorem is_request8_frame4 (n key stores : Nat) (hn : 8 ≤ n) (hk : key < 65536)
    (hs : stores < 65536) : is_request8 key stores (frame4 n key stores) 8 := by
  refine ⟨rfl, frame4_take8 n key stores hn hk hs, get16_frame4_key n key stores (by omega) hk,
    ?_⟩
  obtain ⟨_, _, f2, f3⟩ := frame4_bytes n key stores (by omega)
  exact get16_of_bytes _ 2 _ hs f2 f3

theorem is_request8_frame4_mod (n key stores : Nat) (hn : 8 ≤ n) (hs : stores < 65536) :
    is_request8 (key % 65536) stores (frame4 n key stores) 8 := by
  have h := is_request8_frame4 n (key % 65536) stores hn (Nat.mod_lt _ (by decide)) hs
  rw [frame4_mod n key stores, Nat.mod_eq_of_lt hs]
  exact h

theorem cmd_psget_events_key {σ : Type} (E : Env σ) (transport : Nat) (argv : List CStr)
    (w : World σ) (Q : Event → Prop) (hw : ∀ e ∈ w.trace, Q e)
    (hsize : Q (Event.read Varid.PS_SIZE
      (frame4 128 (resolve_pskey E.long_max E.pskey
          ((argv.drop (opt_pskey E argv CSR_STORES_DEFAULT false).2.2).headD []))
        (opt_pskey E argv CSR_STORES_DEFAULT false).1) 8))
    (hread : ∀ pskey length, Q (Event.read Varid.PS
      (frame6 128 pskey length (opt_pskey E argv CSR_STORES_DEFAULT false).1)
      ((length + 3) * 2)))
    (hreset : Q (Event.write Varid.WARM_RESET [] 0)) :
    ∀ e ∈ (cmd_psget E transport argv w).2.trace, Q e := by
  unfold cmd_psget
  dsimp only
  split
  · exact hw
  · split_ifs with c1 c2 c3
    · exact inv_read _ _ _ _ _ _ Q hw hsize
    · exact inv_read _ _ _ _ _ _ Q hw hsize
    · exact inv_read _ _ _ _ _ _ Q (inv_read _ _ _ _ _ _ Q hw hsize) (hread _ _)
    · exact inv_reset _ _ _ _ Q
        (inv_read _ _ _ _ _ _ Q (inv_read _ _ _ _ _ _ Q hw hsize) (hread _ _)) hreset

theorem cmd_psset_events_key {σ : Type} (E : Env σ) (transport : Nat) (argv : List CStr)
    (w : World σ) (Q : Event → Prop) (hw : ∀ e ∈ w.trace, Q e)
    (hsize : Q (Event.read Varid.PS_SIZE
      (frame4 128 (resolve_pskey E.long_max E.pskey
          ((argv.drop (opt_pskey E argv CSR_STORES_PSRAM false).2.2).headD []))
        (opt_pskey E argv CSR_STORES_PSRAM false).1) 8))
    (hwrite : ∀ array size, Q (Event.write Varid.PS array size))
    (hreset : Q (Event.write Varid.WARM_RESET [] 0)) :
    ∀ e ∈ (cmd_psset E transport argv w).2.trace, Q e := by
  unfold cmd_psset
  dsimp only
  split
  · exact hw
  · split_ifs with c1 c2
    · exact inv_read _ _ _ _ _ _ Q hw hsize
    · exact inv_read _ _ _ _ _ _ Q hw hsize
    · split
      · exact inv_read _ _ _ _ _ _ Q hw hsize
      · split_ifs
        · exact inv_write _ _ _ _ _ _ Q (inv_read _ _ _ _ _ _ Q hw hsize) (hwrite _ _)
        · exact inv_reset _ _ _ _ Q
            (inv_write _ _ _ _ _ _ Q (inv_read _ _ _ _ _ _ Q hw hsize) (hwrite _ _)) hreset

theorem cmd_psclr_events_key {σ : Type} (E : Env σ) (transport : Nat) (argv : List CStr)
    (w : World σ) (Q : Event → Prop) (hw : ∀ e ∈ w.trace, Q e)
    (hclr : Q (Event.write Varid.PS_CLR_STORES
      (frame4 8 (resolve_pskey E.long_max E.pskey
          ((argv.drop (opt_pskey E argv CSR_STORES_PSRAM false).2.2).headD []))
        (opt_pskey E argv CSR_STORES_PSRAM false).1) 8))
    (hreset : Q (Event.write Varid.WARM_RESET [] 0)) :
    ∀ e ∈ (cmd_psclr E transport argv w).2.trace, Q e := by
  unfold cmd_psclr
  dsimp only
  split
  · exact hw
  · split_ifs
    · exact inv_write _ _ _ _ _ _ Q hw hclr
    · exact inv_reset _ _ _ _ Q (inv_write _ _ _ _ _ _ Q hw hclr) hreset

theorem enum_requests_append (a b : List Event) :
    enum_requests (a ++ b) = enum_requests a ++ enum_requests b := by
  simp [enum_requests, List.filter_append]

theorem enum_requests_reset (b : Bool) :
    enum_requests (if b = true then [Event.write Varid.WARM_RESET [] 0] else []) = [] := by
  cases b <;> rfl

theorem pslist_loop_requests {σ : Type} (E : Env σ) (transport stores : Nat)
    (script : σ → List Nat)
    (hsup : transport_supported E.have_libusb transport = true)
    (hE : Enumerates E script) :
    ∀ (ks : List Nat) (prev : Nat) (w : World σ), (∀ k ∈ ks, k ≠ 0) →
      script w.chip = ks ++ [0] →
      ∃ w1, pslist_loop E transport stores (ks.length + 1) prev w = some w1 ∧
        w1.trace = w.trace ++ enum_expected 8 stores prev ks := by
  intro ks
  induction ks with
  | nil =>
    intro prev w _ hscript
    obtain ⟨h1, h2, _⟩ := hE.1 transport (frame4 8 prev stores) 8 w.chip 0 [] hscript
    refine ⟨{ w with
        chip := (E.csr_read transport Varid.PS_NEXT (frame4 8 prev stores) 8 w.chip).2,
        trace := w.trace ++ [Event.read Varid.PS_NEXT (frame4 8 prev stores) 8] }, ?_, rfl⟩
    simp only [List.length_nil, Nat.zero_add, pslist_loop,
      transport_read_supported _ _ _ _ _ _ hsup, length_frame4,
      get16_fixbuf 8 _ 4 (by omega), h2, not_lt.2 h1, if_false, if_true]
  | cons k ks ih =>
    intro prev w hks hscript
    obtain ⟨h1, h2, h3⟩ := hE.1 transport (frame4 8 prev stores) 8 w.chip k (ks ++ [0])
      (by simpa using hscript)
    have hk0 : k ≠ 0 := hks k (List.mem_cons_self _ _)
    have hks2 : ∀ x ∈ ks, x ≠ 0 := fun x hx => hks x (List.mem_cons_of_mem _ hx)
    have h4 := hE.2 transport Varid.PS_SIZE (frame4 8 k stores) 8
      (E.csr_read transport Varid.PS_NEXT (frame4 8 prev stores) 8 w.chip).2 (by decide)
    rw [h3] at h4
    have key : ∀ W : World σ,
        W.chip = (E.csr_read transport Varid.PS_SIZE (frame4 8 k stores) 8
          (E.csr_read transport Varid.PS_NEXT (frame4 8 prev stores) 8 w.chip).2).2 →
        W.trace = w.trace ++ [Event.read Varid.PS_NEXT (frame4 8 prev stores) 8,
          Event.read Varid.PS_SIZE (frame4 8 k stores) 8] →
        ∃ w1, pslist_loop E transport stores (ks.length + 1) k W = some w1 ∧
          w1.trace = w.trace ++ enum_expected 8 stores prev (k :: ks) := by
      intro W hchip htrace
      obtain ⟨w1, e1, e2⟩ := ih k W hks2 (by rw [hchip]; exact h4)
      refine ⟨w1, e1, ?_⟩
      rw [e2, htrace]
      simp [enum_expected]
    rw [List.length_cons, pslist_loop]
    simp only [transport_read_supported _ _ _ _ _ _ hsup,
      length_frame4, get16_fixbuf 8 _ 4 (by omega), h2, not_lt.2 h1, if_false, hk0]
    split_ifs
    · apply key
      · rfl
      · simp
    · apply key
      · rfl
      · simp

theorem psread_loop_requests {σ : Type} (E : Env σ) (transport stores : Nat)
    (script : σ → List Nat)
    (hsup : transport_supported E.have_libusb transport = true)
    (hE : Enumerates E script) :
    ∀ (ks : List Nat) (prev : Nat) (w : World σ), (∀ k ∈ ks, k ≠ 0) →
      script w.chip = ks ++ [0] →
      ∃ w1 new, psread_loop E transport stores (ks.length + 1) prev w = some w1 ∧
        w1.trace = w.trace ++ new ∧ enum_requests new = enum_expected 256 stores prev ks := by
  intro ks
  induction ks with
  | nil =>
    intro prev w _ hscript
    obtain ⟨h1, h2, _⟩ := hE.1 transport (frame4 256 prev stores) 8 w.chip 0 [] hscript
    refine ⟨{ w with
        chip := (E.csr_read transport Varid.PS_NEXT (frame4 256 prev stores) 8 w.chip).2,
        trace := w.trace ++ [Event.read Varid.PS_NEXT (frame4 256 prev stores) 8] },
      [Event.read Varid.PS_NEXT (frame4 256 prev stores) 8], ?_, rfl, rfl⟩
    simp only [List.length_nil, Nat.zero_add, psread_loop,
      transport_read_supported _ _ _ _ _ _ hsup, length_frame4,
      get16_fixbuf 256 _ 4 (by omega), h2, not_lt.2 h1, if_false, if_true]
  | cons k ks ih =>
    intro prev w hks hscript
    obtain ⟨h1, h2, h3⟩ := hE.1 transport (frame4 256 prev stores) 8 w.chip k (ks ++ [0])
      (by simpa using hscript)
    have hk0 : k ≠ 0 := hks k (List.mem_cons_self _ _)
    have hks2 : ∀ x ∈ ks, x ≠ 0 := fun x hx => hks x (List.mem_cons_of_mem _ hx)
    have h4 := hE.2 transport Varid.PS_SIZE (frame4 256 k stores) 8
      (E.csr_read transport Varid.PS_NEXT (frame4 256 prev stores) 8 w.chip).2 (by decide)
    rw [h3] at h4
    have key : ∀ (W : World σ) (extra : List Event), script W.chip = ks ++ [0] →
        W.trace = w.trace ++ [Event.read Varid.PS_NEXT (frame4 256 prev stores) 8]
          ++ [Event.read Varid.PS_SIZE (frame4 256 k stores) 8] ++ extra →
        enum_requests extra = [] →
        ∃ w1 new, psread_loop E transport stores (ks.length + 1) k W = some w1 ∧
          w1.trace = w.trace ++ new ∧
          enum_requests new = enum_expected 256 stores prev (k :: ks) := by
      intro W extra hchip htrace hn
      obtain ⟨w1, new, e1, e2, e3⟩ := ih k W hks2 hchip
      refine ⟨w1, [Event.read Varid.PS_NEXT (frame4 256 prev stores) 8,
        Event.read Varid.PS_SIZE (frame4 256 k stores) 8] ++ (extra ++ new), e1, ?_, ?_⟩
      · rw [e2, htrace]; simp
      · rw [enum_requests_append, enum_requests_append, e3, hn]
        rfl
    rw [List.length_cons, psread_loop]
    simp only [transport_read_supported _ _ _ _ _ _ hsup,
      length_frame4, length_frame6, get16_fixbuf 256 _ 4 (by omega), h2, not_lt.2 h1,
      if_false, hk0]
    split_ifs
    · exact key _ [] h4 (by simp) rfl
    · exact key _ [] h4 (by simp) rfl
    · refine key _ _ ?_ rfl rfl
      rw [hE.2 transport Varid.PS _ _ _ (by decide)]; exact h4
    · refine key _ _ ?_ rfl rfl
      rw [hE.2 transport Varid.PS _ _ _ (by decide)]; exact h4

theorem pslist_loop_step {σ : Type} (E : Env σ) (transport stores fuel prev : Nat)
    (w : World σ) (next_rsp size_rsp : (Int × List Nat) × σ) (pskey length : Nat)
    (hsup : transport_supported E.have_libusb transport = true)
    (hnext : E.csr_read transport Varid.PS_NEXT (frame4 8 prev stores) 8 w.chip = next_rsp)
    (hnext_ok : 0 ≤ next_rsp.1.1)
    (hkey : byte next_rsp.1.2 4 + (byte next_rsp.1.2 5 <<< 8) = pskey)
    (hkey0 : pskey ≠ 0)
    (hsize : E.csr_read transport Varid.PS_SIZE (frame4 8 pskey stores) 8 next_rsp.2
      = size_rsp)
    (hsize_ok : 0 ≤ size_rsp.1.1)
    (hlen : byte size_rsp.1.2 2 + (byte size_rsp.1.2 3 <<< 8) = length) :
    pslist_loop E transport stores (fuel + 1) prev w =
      pslist_loop E transport stores fuel pskey
        { chip := size_rsp.2, errno := w.errno,
          trace := w.trace ++ [Event.read Varid.PS_NEXT (frame4 8 prev stores) 8,
            Event.read Varid.PS_SIZE (frame4 8 pskey stores) 8],
          out := w.out ++ [Line.pslist pskey (length * 2)] } := by
  have hk : get16 (fixbuf 8 next_rsp.1.2) 4 = pskey := by
    rw [get16_fixbuf 8 _ 4 (by omega)]; exact hkey
  have hl : get16 (fixbuf 8 size_rsp.1.2) 2 = length := by
    rw [get16_fixbuf 8 _ 2 (by omega)]; exact hlen
  rw [pslist_loop]
  simp only [transport_read_supported _ _ _ _ _ _ hsup, length_frame4, hnext, hk, hsize, hl,
    not_lt.2 hnext_ok, not_lt.2 hsize_ok, if_false, hkey0, List.append_assoc,
    List.singleton_append]

theorem enum_requests_expected (n stores : Nat) :
    ∀ (ks : List Nat) (prev : Nat),
      enum_requests (enum_expected n stores prev ks) = enum_expected n stores prev ks := by
  intro ks
  induction ks with
  | nil => intro prev; rfl
  | cons k ks ih =>
    intro prev
    rw [enum_expected, show Event.read Varid.PS_NEXT (frame4 n prev stores) 8
        :: Event.read Varid.PS_SIZE (frame4 n k stores) 8 :: enum_expected n stores k ks
      = [Event.read Varid.PS_NEXT (frame4 n prev stores) 8,
          Event.read Varid.PS_SIZE (frame4 n k stores) 8] ++ enum_expected n stores k ks
      from rfl, enum_requests_append, ih]
    rfl

/-! ## `cmd_psget`: the read request -/

theorem to_u16_lt (x : Int) : to_u16 x < 65536 := by
  unfold to_u16
  omega

theorem storage_scan_lt (token : CStr) :
    ∀ (l : List StorageEntry) (pskey : Nat), pskey < 65536 → (∀ e ∈ l, e.pskey < 65536) →
      storage_scan token pskey l < 65536 := by
  intro l
  induction l with
  | nil => intro pskey hp _; exact hp
  | cons e rest ih =>
    intro pskey hp hl
    unfold storage_scan
    split_ifs
    · exact hp
    · exact ih pskey hp (fun x hx => hl x (List.mem_cons_of_mem _ hx))
    · exact hl e (List.mem_cons_self _ _)

theorem resolve_pskey_lt (long_max : Nat) (ids : CsrPskey → Nat) (token : CStr) :
    resolve_pskey long_max ids token < 65536 := by
  unfold resolve_pskey
  split_ifs
  · refine storage_scan_lt token _ _ (to_u16_lt _) ?_
    intro e he
    unfold storage at he
    rcases List.mem_append.1 he with h | h
    · obtain ⟨x, _, rfl⟩ := List.mem_map.1 h
      exact Nat.mod_lt _ (by decide)
    · rw [List.mem_singleton] at h
      rw [h]
      decide
  · exact to_u16_lt _

theorem ite_lt_of {c : Prop} [Decidable c] {a b n : Nat} (ha : a < n) (hb : b < n) :
    (if c then a else b) < n := by
  split <;> assumption

theorem opt_pskey_stores_lt (long_max : Nat) (optarg : CStr) :
    opt_pskey_stores long_max optarg < 65536 :=
  ite_lt_of (by norm_num) (ite_lt_of (by norm_num) (ite_lt_of (by norm_num)
    (ite_lt_of (by norm_num) (ite_lt_of (by norm_num) (ite_lt_of (by norm_num)
    (ite_lt_of (by norm_num) (ite_lt_of (by norm_num) (ite_lt_of (by norm_num)
    (ite_lt_of (to_u16_lt _) (to_u16_lt _))))))))))

theorem opt_pskey_step_lt (long_max : Nat) :
    ∀ (l : List (Nat × CStr)) (st : Nat × Bool), st.1 < 65536 →
      (l.foldl (opt_pskey_step long_max) st).1 < 65536 := by
  intro l
  induction l with
  | nil => intro st h; exact h
  | cons o rest ih =>
    intro st h
    rw [List.foldl_cons]
    apply ih
    unfold opt_pskey_step
    split_ifs
    · exact opt_pskey_stores_lt _ _
    · exact h
    · exact h

theorem opt_pskey_lt {σ : Type} (E : Env σ) (argv : List CStr) (stores : Nat) (reset : Bool)
    (h : stores < 65536) : (opt_pskey E argv stores reset).1 < 65536 := by
  unfold opt_pskey
  exact opt_pskey_step_lt E.long_max _ _ h

theorem frame6_eq (m k l s : Nat) (hk : k < 65536) (hl : l < 65536) (hs : s < 65536) :
    frame6 (m + 6) k l s
      = [k &&& 0xff, k >>> 8, l &&& 0xff, l >>> 8, s &&& 0xff, s >>> 8]
        ++ List.replicate m 0 := by
  have e : ∀ v : Nat, v &&& 0xff = v % 256 := fun v => Nat.and_pow_two_sub_one_eq_mod v 8
  have e2 : ∀ v : Nat, v >>> 8 = v / 2 ^ 8 := fun v => Nat.shiftRight_eq_div_pow v 8
  have h2 : k / 2 ^ 8 % 256 = k / 2 ^ 8 := by omega
  have h4 : l / 2 ^ 8 % 256 = l / 2 ^ 8 := by omega
  have h6 : s / 2 ^ 8 % 256 = s / 2 ^ 8 := by omega
  unfold frame6 frame4 put memset0
  simp only [e, e2, List.replicate_succ, List.set_cons_zero, List.set_cons_succ, Nat.mod_mod,
    h2, h4, h6, List.cons_append, List.nil_append]

/-- C26: the PS read of `cmd_psget`. With `pskey` the resolved key and `stores`
the store mask (both 16-bit values): when the size query fails its error is
returned, no PS read is sent and nothing is printed; when it succeeds with a
length `length` (the little-endian value of bytes 2-3 of its response) that
passes the check, the second call is the PS read of `(length + 3) * 2` bytes
whose buffer is `[key lo, key hi, length lo, length hi, stores lo, stores hi]`
followed by zeros, with the key and mask of the size query; when that read
fails its error is returned and nothing is printed, otherwise its result is
returned and the response decoded into one line. -/
theorem cmd_psget_read_request {σ : Type} (E : Env σ) (transport : Nat) (argv : List CStr)
    (w : World σ) (pskey stores : Nat) (size_rsp : (Int × List Nat) × σ)
    (hsup : transport_supported E.have_libusb transport = true)
    (hargs : OPT_RANGE 1 1 (argv.drop (opt_pskey E argv CSR_STORES_DEFAULT false).2.2) = none)
    (hkey : resolve_pskey E.long_max E.pskey
      ((argv.drop (opt_pskey E argv CSR_STORES_DEFAULT false).2.2).headD []) = pskey)
    (hstores : (opt_pskey E argv CSR_STORES_DEFAULT false).1 = stores)
    (hsize : E.csr_read transport Varid.PS_SIZE (frame4 128 pskey stores) 8 w.chip
      = size_rsp) :
    pskey < 65536 ∧ stores < 65536 ∧
    (size_rsp.1.1 < 0 →
      (cmd_psget E transport argv w).1 = size_rsp.1.1 ∧
      (cmd_psget E transport argv w).2.trace
        = w.trace ++ [Event.read Varid.PS_SIZE (frame4 128 pskey stores) 8] ∧
      (cmd_psget E transport argv w).2.out = w.out) ∧
    (0 ≤ size_rsp.1.1 → ∀ length rsp,
      byte size_rsp.1.2 2 + (byte size_rsp.1.2 3 <<< 8) = length → length ≤ 58 →
      E.csr_read transport Varid.PS (frame6 128 pskey length stores) ((length + 3) * 2)
        size_rsp.2 = rsp →
      frame6 128 pskey length stores
        = [pskey &&& 0xff, pskey >>> 8, length &&& 0xff, length >>> 8, stores &&& 0xff,
            stores >>> 8] ++ List.replicate 122 0 ∧
      (cmd_psget E transport argv w).1 = rsp.1.1 ∧
      (∃ rest, (cmd_psget E transport argv w).2.trace
          = w.trace ++ [Event.read Varid.PS_SIZE (frame4 128 pskey stores) 8,
            Event.read Varid.PS (frame6 128 pskey length stores) ((length + 3) * 2)] ++ rest ∧
        (∀ e ∈ rest, e = Event.write Varid.WARM_RESET [] 0) ∧ (rsp.1.1 < 0 → rest = [])) ∧
      (rsp.1.1 < 0 → (cmd_psget E transport argv w).2.out = w.out) ∧
      (0 ≤ rsp.1.1 → (cmd_psget E transport argv w).2.out
        = w.out ++ [psget_print pskey length (fixbuf 128 rsp.1.2)])) := by
  have hk : pskey < 65536 := by rw [← hkey]; exact resolve_pskey_lt _ _ _
  have hs : stores < 65536 := by
    rw [← hstores]; exact opt_pskey_lt E argv _ _ (by decide)
  refine ⟨hk, hs, ?_, ?_⟩
  · intro herr
    unfold cmd_psget
    simp only [hargs, hkey, hstores, transport_read_supported _ _ _ _ _ _ hsup, hsize,
      if_pos herr, and_self]
  · intro hok length rsp hlen hfit hread
    have hl : get16 (fixbuf 128 size_rsp.1.2) 2 = length := by
      rw [get16_fixbuf 128 _ 2 (by omega)]; exact hlen
    have hc : ¬ length + 6 > 128 / 2 := by omega
    refine ⟨frame6_eq 122 pskey length stores hk (by omega) hs, ?_⟩
    by_cases herr : rsp.1.1 < 0
    · unfold cmd_psget
      simp only [hargs, hkey, hstores, transport_read_supported _ _ _ _ _ _ hsup, hsize,
        length_frame4, length_frame6, hl, hread, not_lt.2 hok, if_false, if_neg hc,
        if_pos herr, true_and]
      refine ⟨⟨[], by simp, by simp, fun _ => rfl⟩, fun _ => trivial, fun h => ?_⟩
      omega
    · unfold cmd_psget
      simp only [hargs, hkey, hstores, transport_read_supported _ _ _ _ _ _ hsup, hsize,
        length_frame4, length_frame6, hl, hread, not_lt.2 hok, if_false, if_neg hc,
        if_neg herr, true_and, reset_write_out, reset_write_trace]
      refine ⟨⟨_, by simp only [List.append_assoc, List.singleton_append, List.cons_append,
        List.nil_append]; rfl, ?_, fun h => absurd h herr⟩, fun h => absurd h herr,
        fun _ => trivial⟩
      intro e he
      split_ifs at he
      · simpa using he
      · simp at he

set_option maxRecDepth 100000 in
/-- C26, at a concrete input: `psget 0x1234` over HCI against the simulated
responder that reports 1 word with value bytes 34 12. -/
theorem cmd_psget_read_request_witness :
    transport_supported (simEnv 1 [0x34, 0x12]).have_libusb CSR_TRANSPORT_HCI = true ∧
    frame6 128 0x1234 1 CSR_STORES_DEFAULT = [0x34, 0x12, 1, 0, 3, 0] ++ List.replicate 122 0 ∧
    (cmd_psget (simEnv 1 [0x34, 0x12]) CSR_TRANSPORT_HCI [cstr "psget", cstr "0x1234"]
      (World.init [])).2.trace
      = [Event.read Varid.PS_SIZE (frame4 128 0x1234 CSR_STORES_DEFAULT) 8,
        Event.read Varid.PS (frame6 128 0x1234 1 CSR_STORES_DEFAULT) 8] ∧
    (cmd_psget (simEnv 1 [0x34, 0x12]) CSR_TRANSPORT_HCI [cstr "psget", cstr "0x1234"]
      (World.init [])).2.out = [Line.psget16 0x1234 0x1234] :=
  ⟨by decide,
    ((cmd_psget_read_request (simEnv 1 [0x34, 0x12]) CSR_TRANSPORT_HCI
      [cstr "psget", cstr "0x1234"] (World.init []) 0x1234 CSR_STORES_DEFAULT _ (by decide)
      (by decide) (by decide) (by decide) rfl).2.2.2 (by decide) 1 _ (by decide) (by decide)
      rfl).1,
    by rfl, by rfl⟩

/-! ## The build commands -/

theorem get16_builddef_frame (d : Nat) (hd : d < 65536) : get16 (builddef_frame d) 0 = d := by
  have e0 : d &&& 0xff = d % 256 := Nat.and_pow_two_sub_one_eq_mod d 8
  have e1 : d >>> 8 = d / 2 ^ 8 := Nat.shiftRight_eq_div_pow d 8
  unfold get16 builddef_frame put memset0
  simp only [e0, e1, List.replicate_succ, List.set_cons_zero, List.set_cons_succ,
    List.getD_cons_zero, List.getD_cons_succ, Nat.zero_add, Nat.mod_mod]
  rw [Nat.shiftLeft_eq]
  omega

theorem builddef_requests_append (a b : List Event) :
    builddef_requests (a ++ b) = builddef_requests a ++ builddef_requests b := by
  simp [builddef_requests, List.filterMap_append]

theorem builddef_nextdef (buf : List Nat) :
    ((fixbuf 8 buf).getD 2 0 ||| ((fixbuf 8 buf).getD 3 0 <<< 8)) % 65536
      = byte buf 2 + (byte buf 3 <<< 8) := by
  rw [getD_fixbuf 8 buf 2 (by omega), getD_fixbuf 8 buf 3 (by omega)]
  have h2 := byte_lt buf 2
  have h3 := byte_lt buf 3
  rw [or_shift_eq_add _ _ 8 (by omega), Nat.shiftLeft_eq]
  omega

theorem length_builddef_frame (d : Nat) : (builddef_frame d).length = 8 := by
  simp [builddef_frame, put, memset0]

theorem builddef_loop_enumerates {σ : Type} (E : Env σ) (transport : Nat)
    (script : σ → List Nat)
    (hsup : transport_supported E.have_libusb transport = true)
    (hE : EnumeratesDefs E script) :
    ∀ (ds : List Nat) (prev : Nat) (w : World σ), prev < 65536 → (∀ d ∈ ds, d ≠ 0) →
      script w.chip = ds ++ [0] →
      ∃ r new, builddef_loop E transport (ds.length + 1) prev w = some r ∧ 0 ≤ r.1 ∧
        r.2.trace = w.trace ++ new ∧ builddef_requests new = prev :: ds ∧
        new.length = ds.length + 1 ∧ r.2.out = w.out ++ ds.map Line.builddef := by
  intro ds
  induction ds with
  | nil =>
    intro prev w hprev _ hscript
    obtain ⟨h1, h2, _⟩ := hE transport (builddef_frame prev) 8 w.chip 0 [] hscript
    refine ⟨((E.csr_read transport Varid.GET_NEXT_BUILDDEF (builddef_frame prev) 8 w.chip).1.1,
        { chip := (E.csr_read transport Varid.GET_NEXT_BUILDDEF (builddef_frame prev) 8
            w.chip).2,
          errno := w.errno,
          trace := w.trace ++ [Event.read Varid.GET_NEXT_BUILDDEF (builddef_frame prev) 8],
          out := w.out }),
      [Event.read Varid.GET_NEXT_BUILDDEF (builddef_frame prev) 8], ?_, h1, rfl, ?_, rfl, ?_⟩
    · simp only [List.length_nil, Nat.zero_add, builddef_loop,
        transport_read_supported _ _ _ _ _ _ hsup, length_builddef_frame, builddef_nextdef, h2,
        not_lt.2 h1, if_false, if_true]
    · simp [builddef_requests, get16_builddef_frame prev hprev]
    · simp
  | cons d ds ih =>
    intro prev w hprev hds hscript
    obtain ⟨h1, h2, h3⟩ := hE transport (builddef_frame prev) 8 w.chip d (ds ++ [0])
      (by simpa using hscript)
    have hd0 : d ≠ 0 := hds d (List.mem_cons_self _ _)
    have hdlt : d < 65536 := by
      have b2 := byte_lt (E.csr_read transport Varid.GET_NEXT_BUILDDEF (builddef_frame prev) 8
        w.chip).1.2 2
      have b3 := byte_lt (E.csr_read transport Varid.GET_NEXT_BUILDDEF (builddef_frame prev) 8
        w.chip).1.2 3
      rw [Nat.shiftLeft_eq] at h2
      omega
    have hds2 : ∀ x ∈ ds, x ≠ 0 := fun x hx => hds x (List.mem_cons_of_mem _ hx)
    obtain ⟨r, new, e1, e2, e3, e4, e5, e6⟩ := ih d
      { chip := (E.csr_read transport Varid.GET_NEXT_BUILDDEF (builddef_frame prev) 8
          w.chip).2,
        errno := w.errno,
        trace := w.trace ++ [Event.read Varid.GET_NEXT_BUILDDEF (builddef_frame prev) 8],
        out := w.out ++ [Line.builddef d] } hdlt hds2 h3
    refine ⟨r, Event.read Varid.GET_NEXT_BUILDDEF (builddef_frame prev) 8 :: new, ?_, e2, ?_,
      ?_, ?_, ?_⟩
    · rw [List.length_cons, builddef_loop]
      simp only [transport_read_supported _ _ _ _ _ _ hsup, length_builddef_frame,
        builddef_nextdef, h2, not_lt.2 h1, if_false, hd0]
      exact e1
    · rw [e3]; simp
    · rw [show Event.read Varid.GET_NEXT_BUILDDEF (builddef_frame prev) 8 :: new
        = [Event.read Varid.GET_NEXT_BUILDDEF (builddef_frame prev) 8] ++ new from rfl,
        builddef_requests_append, e4]
      simp [builddef_requests, get16_builddef_frame prev hprev]
    · simp [e5]
    · rw [e6]; simp

set_option maxRecDepth 100000 in
theorem cmd_buildname_trace {σ : Type} (E : Env σ) (transport : Nat) (argv : List CStr)
    (w : World σ) (hsup : transport_supported E.have_libusb transport = true)
    (hargs : OPT_RANGE 0 0 (argv.drop (opt_help E argv)) = none) :
    (cmd_buildname E transport argv w).2.trace
      = w.trace ++ [Event.read Varid.READ_BUILD_NAME (List.replicate 130 0) 128] := by
  have hr := transport_read_supported E transport Varid.READ_BUILD_NAME (memset0 130) 128 w
    hsup
  unfold cmd_buildname
  rw [hr]
  simp only [hargs]
  split_ifs <;> rfl

set_option maxRecDepth 100000 in
/-- C27, refuted: `buildname` against the simulated responder, whose
build-name response has no zero byte, sends exactly one read, with an all-zero
buffer, and returns 0: it does not repeat the read and no returned identifier
of 0x0000 is what stops it. `builddef` against the same responder, answering
0x0003, 0x0007, 0x0000, sends three reads carrying 0x0000, 0x0003, 0x0007. -/
theorem cmd_buildname_single_read_counterexample :
    (cmd_buildname buildEnv CSR_TRANSPORT_HCI [cstr "buildname"] (World.init [3, 7, 0])).1 = 0 ∧
    (cmd_buildname buildEnv CSR_TRANSPORT_HCI [cstr "buildname"]
      (World.init [3, 7, 0])).2.trace
      = [Event.read Varid.READ_BUILD_NAME (List.replicate 130 0) 128] ∧
    (∀ b ∈ (buildEnv.csr_read CSR_TRANSPORT_HCI Varid.READ_BUILD_NAME (List.replicate 130 0)
      128 [3, 7, 0]).1.2, b ≠ 0) ∧
    (cmd_builddef buildEnv 3 CSR_TRANSPORT_HCI [cstr "builddef"]
      (World.init [3, 7, 0])).map (fun r => builddef_requests r.2.trace) = some [0, 3, 7] :=
  ⟨by rfl, by rfl, by decide, by rfl⟩

/-- C27, amended: `cmd_builddef` uses the iterate-until-sentinel pattern:
against a backend whose successive responses carry the identifiers
`d1, ..., dn` (nonzero) followed by 0x0000 in bytes 2-3, it sends exactly
`n + 1` reads whose identifier fields are `0x0000, d1, ..., dn`, prints the
heading and `d1, ..., dn`, and returns the result of the last read.
`cmd_buildname` does not iterate: it sends one build-name read of 128 bytes
with an all-zero buffer, whatever the response. -/
theorem build_reads {σ : Type} (E : Env σ) (transport : Nat) (argv : List CStr)
    (w : World σ) (hsup : transport_supported E.have_libusb transport = true)
    (hargs : OPT_RANGE 0 0 (argv.drop (opt_help E argv)) = none) :
    (∀ script ds, EnumeratesDefs E script → (∀ d ∈ ds, d ≠ 0) →
      script w.chip = ds ++ [0] →
      ∃ r new, cmd_builddef E (ds.length + 1) transport argv w = some r ∧ 0 ≤ r.1 ∧
        r.2.trace = w.trace ++ new ∧ builddef_requests new = 0x0000 :: ds ∧
        new.length = ds.length + 1 ∧
        r.2.out = w.out ++ Line.builddef_header :: ds.map Line.builddef) ∧
    (cmd_buildname E transport argv w).2.trace
      = w.trace ++ [Event.read Varid.READ_BUILD_NAME (List.replicate 130 0) 128] := by
  constructor
  · intro script ds hE hds hscript
    obtain ⟨r, new, e1, e2, e3, e4, e5, e6⟩ := builddef_loop_enumerates E transport script hsup
      hE ds 0 { w with out := w.out ++ [Line.builddef_header] } (by decide) hds hscript
    refine ⟨r, new, ?_, e2, e3, e4, e5, ?_⟩
    · unfold cmd_builddef
      simp only [hargs]
      exact e1
    · rw [e6]; simp
  · exact cmd_buildname_trace E transport argv w hsup hargs

theorem buildEnv_enumerates : EnumeratesDefs buildEnv (fun s => s.map (fun d => d % 65536)) := by
  intro kind value length s d rest h
  cases s with
  | nil => simp at h
  | cons d0 rest0 =>
    simp only [List.map_cons, List.cons.injEq] at h
    obtain ⟨hd, hrest⟩ := h
    simp only [buildEnv, byte, le_refl, true_and, hrest, and_true]
    simp only [List.getD_eq_getElem?_getD, List.getElem?_cons_succ, List.getElem?_cons_zero,
      Option.getD_some, Nat.mod_mod, Nat.shiftLeft_eq]
    omega

set_option maxRecDepth 100000 in
/-- C27, at a concrete input: `builddef` and `buildname` over HCI against the
simulated responder that answers 0x0003, 0x0007, 0x0000. -/
theorem build_reads_witness :
    transport_supported buildEnv.have_libusb CSR_TRANSPORT_HCI = true ∧
    OPT_RANGE 0 0 ([cstr "builddef"].drop (opt_help buildEnv [cstr "builddef"])) = none ∧
    (∃ r new, cmd_builddef buildEnv 3 CSR_TRANSPORT_HCI [cstr "builddef"]
        (World.init [3, 7, 0]) = some r ∧ 0 ≤ r.1 ∧
      r.2.trace = (World.init [3, 7, 0]).trace ++ new ∧ builddef_requests new = [0, 3, 7] ∧
      new.length = 3 ∧
      r.2.out = (World.init [3, 7, 0]).out
        ++ [Line.builddef_header, Line.builddef 3, Line.builddef 7]) ∧
    (cmd_buildname buildEnv CSR_TRANSPORT_HCI [cstr "builddef"] (World.init [3, 7, 0])).2.trace
      = (World.init [3, 7, 0]).trace
        ++ [Event.read Varid.READ_BUILD_NAME (List.replicate 130 0) 128] :=
  ⟨by decide, by decide,
    (build_reads buildEnv CSR_TRANSPORT_HCI [cstr "builddef"] (World.init [3, 7, 0])
      (by decide) (by decide)).1 (fun s => s.map (fun d => d % 65536)) [3, 7]
      buildEnv_enumerates (by decide) (by decide),
    (build_reads buildEnv CSR_TRANSPORT_HCI [cstr "builddef"] (World.init [3, 7, 0])
      (by decide) (by decide)).2⟩

/-! ## Buffer bounds of the PS commands -/

theorem psget_print_indices (pskey length : Nat) (a b : List Nat)
    (h : ∀ j ∈ psget_indices length, a.getD j 0 = b.getD j 0) :
    psget_print pskey length a = psget_print pskey length b := by
  unfold psget_indices at h
  unfold psget_print
  by_cases h1 : length = 1
  · rw [if_pos h1] at h
    rw [if_pos h1, if_pos h1]
    unfold psget_value
    rw [h 6 (by simp), h 7 (by simp)]
  · rw [if_neg h1] at h
    rw [if_neg h1, if_neg h1]
    by_cases h2 : length = 2
    · rw [if_pos h2] at h
      rw [if_pos h2, if_pos h2]
      unfold psget_val32
      rw [h 6 (by simp), h 7 (by simp), h 8 (by simp), h 9 (by simp)]
    · rw [if_neg h2] at h
      rw [if_neg h2, if_neg h2]
      congr 1
      apply List.map_congr_left
      intro i hi
      rw [h (i * 2 + 6) (List.mem_flatMap.2 ⟨i, hi, by simp⟩),
        h (i * 2 + 7) (List.mem_flatMap.2 ⟨i, hi, by simp⟩)]

theorem psset_put_array_indices (long_max : Nat) (argv : List CStr) (j : Nat) :
    ∀ (l : List Nat) (array : List Nat), j ∉ l.map (fun i => i + 6) →
      (l.foldl (fun a i => put a (i + 6)
        (to_u8 (psset_number long_max (argv.headD []) (argv.getD i [])))) array).getD j 0
        = array.getD j 0 ∧
      (l.foldl (fun a i => put a (i + 6)
        (to_u8 (psset_number long_max (argv.headD []) (argv.getD i [])))) array).length
        = array.length := by
  intro l
  induction l with
  | nil => intro array _; exact ⟨rfl, rfl⟩
  | cons i rest ih =>
    intro array hj
    rw [List.map_cons, List.mem_cons, not_or] at hj
    rw [List.foldl_cons]
    obtain ⟨e1, e2⟩ := ih (put array (i + 6)
      (to_u8 (psset_number long_max (argv.headD []) (argv.getD i [])))) hj.2
    rw [e1, e2, getD_put_of_ne _ _ _ _ (fun h => hj.1 h.symm), length_put]
    exact ⟨rfl, rfl⟩

theorem psset_payload_length (long_max length : Nat) (tokens : List CStr)
    (array frame : List Nat)
    (h : psset_payload long_max length tokens array = Except.ok frame) :
    frame.length = array.length := by
  unfold psset_payload at h
  split_ifs at h
  · cases h
    simp [psset_put16, length_put]
  · cases h
    simp [psset_put32, length_put]
  · cases h
    unfold psset_put_array
    have : ∀ (l : List Nat) (a : List Nat),
        (l.foldl (fun a i => put a (i + 6)
          (to_u8 (psset_number long_max (tokens.headD []) (tokens.getD i [])))) a).length
          = a.length := by
      intro l
      induction l with
      | nil => intro a; rfl
      | cons i rest ih => intro a; rw [List.foldl_cons, ih, length_put]
    exact this _ _

theorem psset_payload_indices (long_max length : Nat) (tokens : List CStr)
    (array frame : List Nat)
    (h : psset_payload long_max length tokens array = Except.ok frame) (j : Nat)
    (hj : j ∉ psset_indices length) : frame.getD j 0 = array.getD j 0 := by
  unfold psset_indices at hj
  unfold psset_payload at h
  split_ifs at h hj
  · cases h
    simp only [List.mem_cons, List.mem_singleton, not_or, List.not_mem_nil, or_false] at hj
    unfold psset_put16
    rw [getD_put_of_ne _ _ _ _ (fun e => hj.2 e.symm),
      getD_put_of_ne _ _ _ _ (fun e => hj.1 e.symm)]
  · cases h
    simp only [List.mem_cons, List.mem_singleton, not_or, List.not_mem_nil, or_false] at hj
    unfold psset_put32
    rw [getD_put_of_ne _ _ _ _ (fun e => hj.2.2.2 e.symm),
      getD_put_of_ne _ _ _ _ (fun e => hj.2.2.1 e.symm),
      getD_put_of_ne _ _ _ _ (fun e => hj.2.1 e.symm),
      getD_put_of_ne _ _ _ _ (fun e => hj.1 e.symm)]
  · cases h
    unfold psset_put_array
    exact (psset_put_array_indices long_max tokens j _ _ hj).1

theorem psget_indices_bound (length : Nat) :
    ∀ j ∈ psget_indices length, 6 ≤ j ∧ j ≤ 2 * length + 5 := by
  intro j hj
  unfold psget_indices at hj
  split_ifs at hj with h1 h2
  · simp only [List.mem_cons, List.mem_singleton, List.not_mem_nil, or_false] at hj
    omega
  · simp only [List.mem_cons, List.mem_singleton, List.not_mem_nil, or_false] at hj
    omega
  · obtain ⟨i, hi, hm⟩ := List.mem_flatMap.1 hj
    have hi2 := List.mem_range.1 hi
    simp only [List.mem_cons, List.mem_singleton, List.not_mem_nil, or_false] at hm
    omega

theorem psset_indices_bound (length : Nat) :
    ∀ j ∈ psset_indices length, 6 ≤ j ∧ j ≤ 2 * length + 5 := by
  intro j hj
  unfold psset_indices at hj
  split_ifs at hj with h1 h2
  · simp only [List.mem_cons, List.mem_singleton, List.not_mem_nil, or_false] at hj
    omega
  · simp only [List.mem_cons, List.mem_singleton, List.not_mem_nil, or_false] at hj
    omega
  · obtain ⟨i, hi, hm⟩ := List.mem_map.1 hj
    have hi2 := List.mem_range.1 hi
    omega

theorem psread_indices_bound (length : Nat) :
    ∀ j ∈ psread_indices length, 6 ≤ j ∧ j ≤ 2 * length + 5 := by
  intro j hj
  unfold psread_indices at hj
  obtain ⟨i, hi, hm⟩ := List.mem_flatMap.1 hj
  have hi2 := List.mem_range.1 hi
  simp only [List.mem_cons, List.mem_singleton, List.not_mem_nil, or_false] at hm
  omega

/-- C30: buffer safety of the PS commands. The length check of `cmd_psget`
and `cmd_psset` (`length + 6 > 64` fails) passes exactly for lengths up to 58
and that of `cmd_psread` (`length + 6 > 128` fails) exactly for lengths up to
122; when it passes, the frame size `(length + 3) * 2` is at most 128
(resp. 256), and every index the command then reads or writes in its buffer
lies between 6 and `2 * length + 5`, below 128 (resp. 256). The index lists
cover the accesses: the line `cmd_psget` prints depends on the buffer at
`psget_indices` only, and the payload stores of `cmd_psset` change the buffer
at `psset_indices` only and keep its size. In every run each buffer passed to
the backend has the size of the command's array and the requested length does
not exceed it. -/
theorem ps_buffer_safety {σ : Type} (E : Env σ) (transport : Nat) (argv : List CStr)
    (w : World σ) :
    (∀ length, (¬ length + 6 > 128 / 2 ↔ length ≤ 58) ∧
      (¬ length + 6 > 256 / 2 ↔ length ≤ 122)) ∧
    (∀ length, length ≤ 58 → (length + 3) * 2 ≤ 128 ∧
      (∀ j ∈ psget_indices length, 6 ≤ j ∧ j ≤ 2 * length + 5 ∧ j < 128) ∧
      (∀ j ∈ psset_indices length, 6 ≤ j ∧ j ≤ 2 * length + 5 ∧ j < 128)) ∧
    (∀ length, length ≤ 122 → (length + 3) * 2 ≤ 256 ∧
      (∀ j ∈ psread_indices length, 6 ≤ j ∧ j ≤ 2 * length + 5 ∧ j < 256)) ∧
    (∀ pskey length a b, (∀ j ∈ psget_indices length, a.getD j 0 = b.getD j 0) →
      psget_print pskey length a = psget_print pskey length b) ∧
    (∀ long_max length tokens array frame,
      psset_payload long_max length tokens array = Except.ok frame →
      frame.length = array.length ∧
      ∀ j, j ∉ psset_indices length → frame.getD j 0 = array.getD j 0) ∧
    (∀ length (a : List Nat),
      ((List.range length).map
        (fun i => (a.getD (i * 2 + 7) 0, a.getD (i * 2 + 6) 0))).flatMap (fun p => [p.1, p.2])
        = (psread_indices length).map (fun j => a.getD j 0)) ∧
    (∀ e ∈ (cmd_psget E transport argv w).2.trace, e ∈ w.trace ∨ frame_within 128 e) ∧
    (∀ e ∈ (cmd_psset E transport argv w).2.trace, e ∈ w.trace ∨ frame_within 128 e) ∧
    (∀ fuel r, cmd_psread E fuel transport argv w = some r →
      ∀ e ∈ r.2.trace, e ∈ w.trace ∨ frame_within 256 e) := by
  refine ⟨?_, ?_, ?_, ?_, ?_, ?_, ?_, ?_, ?_⟩
  · intro length
    constructor <;> omega
  · intro length hl
    refine ⟨by omega, ?_, ?_⟩
    · intro j hj
      have := psget_indices_bound length j hj
      omega
    · intro j hj
      have := psset_indices_bound length j hj
      omega
  · intro length hl
    refine ⟨by omega, ?_⟩
    intro j hj
    have := psread_indices_bound length j hj
    omega
  · intro pskey length a b h
    exact psget_print_indices pskey length a b h
  · intro long_max length tokens array frame h
    exact ⟨psset_payload_length long_max length tokens array frame h,
      fun j hj => psset_payload_indices long_max length tokens array frame h j hj⟩
  · intro length a
    unfold psread_indices
    simp [List.flatMap_map, List.map_flatMap]
  · refine cmd_psget_events E transport argv w _ (fun e he => Or.inl he) ?_ ?_
      (Or.inr trivial)
    · intro pskey
      exact Or.inr ⟨length_frame4 _ _ _, by omega⟩
    · intro pskey length hl
      exact Or.inr ⟨length_frame6 _ _ _ _, by omega⟩
  · refine cmd_psset_events E transport argv w _ (fun e he => Or.inl he) ?_ ?_
      (Or.inr trivial)
    · intro pskey
      exact Or.inr ⟨length_frame4 _ _ _, by omega⟩
    · intro pskey length tokens array hl hp
      refine Or.inr ⟨?_, by omega⟩
      rw [psset_payload_length _ _ _ _ _ hp, length_frame6]
  · intro fuel r hr
    refine cmd_psread_events E transport argv w (fun e => e ∈ w.trace ∨ frame_within 256 e)
      (fun e he => Or.inl he) ?_ ?_ ?_ (Or.inr trivial) fuel r hr
    · intro k
      exact Or.inr ⟨length_frame4 _ _ _, by omega⟩
    · intro k
      exact Or.inr ⟨length_frame4 _ _ _, by omega⟩
    · intro k length hl
      exact Or.inr ⟨length_frame6 _ _ _ _, by omega⟩

set_option maxRecDepth 100000 in
/-- C30, at a concrete input: the largest accepted lengths, 58 words in
`cmd_psget` and 122 words in `cmd_psread`, and a run of `psget` against the
simulated responder that reports 58 words. -/
theorem ps_buffer_safety_witness :
    ((58 + 3) * 2 ≤ 128 ∧
      (∀ j ∈ psget_indices 58, 6 ≤ j ∧ j ≤ 2 * 58 + 5 ∧ j < 128) ∧
      (∀ j ∈ psset_indices 58, 6 ≤ j ∧ j ≤ 2 * 58 + 5 ∧ j < 128)) ∧
    ((122 + 3) * 2 ≤ 256 ∧
      (∀ j ∈ psread_indices 122, 6 ≤ j ∧ j ≤ 2 * 122 + 5 ∧ j < 256)) ∧
    (∀ e ∈ (cmd_psget (simEnv 58 []) CSR_TRANSPORT_HCI [cstr "psget", cstr "0x1234"]
        (World.init [])).2.trace,
      e ∈ (World.init ([] : List Nat)).trace ∨ frame_within 128 e) ∧
    ((cmd_psget (simEnv 58 []) CSR_TRANSPORT_HCI [cstr "psget", cstr "0x1234"]
        (World.init [])).2.trace.map (fun e =>
      match e with
      | Event.read _ value length => (value.length, length)
      | _ => (0, 0))) = [(128, 8), (128, 122)] :=
  ⟨(ps_buffer_safety (simEnv 58 []) CSR_TRANSPORT_HCI [cstr "psget", cstr "0x1234"]
      (World.init [])).2.1 58 (by decide),
    (ps_buffer_safety (simEnv 58 []) CSR_TRANSPORT_HCI [cstr "psget", cstr "0x1234"]
      (World.init [])).2.2.1 122 (by decide),
    (ps_buffer_safety (simEnv 58 []) CSR_TRANSPORT_HCI [cstr "psget", cstr "0x1234"]
      (World.init [])).2.2.2.2.2.2.1,
    by rfl⟩

/-! ## `cmd_clock` -/

theorem clock_value_fixbuf (buf : List Nat) :
    clock_value (fixbuf 8 buf) =
      byte buf 2 ||| (byte buf 3 <<< 8) ||| (byte buf 0 <<< 16) ||| (byte buf 1 <<< 24) := by
  unfold clock_value
  rw [getD_fixbuf 8 buf 2 (by omega), getD_fixbuf 8 buf 3 (by omega),
    getD_fixbuf 8 buf 0 (by omega), getD_fixbuf 8 buf 1 (by omega)]
  apply Nat.mod_eq_of_lt
  have h0 := byte_lt buf 0
  have h1 := byte_lt buf 1
  have h2 := byte_lt buf 2
  have h3 := byte_lt buf 3
  have e : (4294967296 : Nat) = 2 ^ 32 := by norm_num
  rw [e]
  refine Nat.or_lt_two_pow (Nat.or_lt_two_pow (Nat.or_lt_two_pow ?_ ?_) ?_) ?_
  · omega
  · rw [Nat.shiftLeft_eq]; omega
  · rw [Nat.shiftLeft_eq]; omega
  · rw [Nat.shiftLeft_eq]; omega

/-- C34: the clock decode of `cmd_clock`. When the read succeeds, the value
printed is `b2 | (b3 << 8) | (b0 << 16) | (b1 << 24)` of the bytes `b0..b3`
of the response; for every buffer the decode equals the two-word decode of
`cmd_psget` on any frame whose bytes 6..9 are the bytes 0..3 of that buffer. -/
theorem cmd_clock_decode {σ : Type} (E : Env σ) (transport : Nat) (argv : List CStr)
    (w : World σ) (rsp : (Int × List Nat) × σ)
    (hsup : transport_supported E.have_libusb transport = true)
    (hargs : OPT_RANGE 0 0 (argv.drop (opt_help E argv)) = none)
    (hread : E.csr_read transport Varid.BT_CLOCK (memset0 8) 8 w.chip = rsp)
    (hread_ok : 0 ≤ rsp.1.1) :
    (cmd_clock E transport argv w).1 = 0 ∧
    (cmd_clock E transport argv w).2.out =
      w.out ++ [Line.clock
        (byte rsp.1.2 2 ||| (byte rsp.1.2 3 <<< 8) ||| (byte rsp.1.2 0 <<< 16)
          ||| (byte rsp.1.2 1 <<< 24))] ∧
    (∀ array frame : List Nat, frame.getD 6 0 = array.getD 0 0 →
      frame.getD 7 0 = array.getD 1 0 → frame.getD 8 0 = array.getD 2 0 →
      frame.getD 9 0 = array.getD 3 0 → clock_value array = psget_val32 frame) ∧
    (∀ header : List Nat, header.length = 6 →
      clock_value (fixbuf 8 rsp.1.2) = psget_val32 (header ++ fixbuf 8 rsp.1.2)) := by
  have hmem : (memset0 8).length = 8 := by simp [memset0]
  have hpair : ∀ array frame : List Nat, frame.getD 6 0 = array.getD 0 0 →
      frame.getD 7 0 = array.getD 1 0 → frame.getD 8 0 = array.getD 2 0 →
      frame.getD 9 0 = array.getD 3 0 → clock_value array = psget_val32 frame := by
    intro array frame h6 h7 h8 h9
    unfold clock_value psget_val32
    rw [h6, h7, h8, h9]
  refine ⟨?_, ?_, hpair, ?_⟩
  · unfold cmd_clock
    simp only [hargs, transport_read_supported _ _ _ _ _ _ hsup, hread, not_lt.2 hread_ok,
      if_false]
  · unfold cmd_clock
    simp only [hargs, transport_read_supported _ _ _ _ _ _ hsup, hread, not_lt.2 hread_ok,
      if_false, hmem, clock_value_fixbuf]
  · intro header hlen
    apply hpair
    · rw [List.getD_append_right _ _ _ _ (by omega), hlen]
    · rw [List.getD_append_right _ _ _ _ (by omega), hlen]
    · rw [List.getD_append_right _ _ _ _ (by omega), hlen]
    · rw [List.getD_append_right _ _ _ _ (by omega), hlen]

/-- C34, at a concrete input: `clock` over HCI against the responder that
returns the bytes 0x11, 0x22, 0x33, 0x44 prints 0x22114433, the value the
two-word decode of `cmd_psget` gives for the same bytes at offsets 6..9. -/
theorem cmd_clock_decode_witness :
    transport_supported clockEnv.have_libusb CSR_TRANSPORT_HCI = true ∧
    (cmd_clock clockEnv CSR_TRANSPORT_HCI [cstr "clock"] (World.init ())).2.out
      = (World.init ()).out ++ [Line.clock 0x22114433] ∧
    clock_value [0x11, 0x22, 0x33, 0x44]
      = psget_val32 ([0, 0, 0, 0, 0, 0] ++ [0x11, 0x22, 0x33, 0x44]) :=
  ⟨by decide,
    (cmd_clock_decode clockEnv CSR_TRANSPORT_HCI [cstr "clock"] (World.init ()) _ (by decide)
      (by decide) rfl (by decide)).2.1,
    (cmd_clock_decode clockEnv CSR_TRANSPORT_HCI [cstr "clock"] (World.init ()) _ (by decide)
      (by decide) rfl (by decide)).2.2.1
      [0x11, 0x22, 0x33, 0x44] ([0, 0, 0, 0, 0, 0] ++ [0x11, 0x22, 0x33, 0x44]) rfl rfl rfl rfl⟩

/-! ## `cmd_rttxdata1` and `cmd_radiotest` -/

theorem atoi_four (long_max : Nat) (hlong : 2147483647 ≤ long_max) :
    to_u16 (atoi long_max (cstr "4")) = 4 := by
  have h : strtol long_max (cstr "4") 10 = ((digits_value 10 (cstr "4") : Nat) : Int) :=
    strtol_of_digits long_max 10 (cstr "4") (by decide) (by decide)
      (le_trans (by decide) hlong)
  have hv : digits_value 10 (cstr "4") = 4 := by decide
  unfold atoi
  rw [h, hv, to_int_of_small 4 (by decide), to_u16_natCast]

theorem radiotest_frame (a b f l : Nat) (ha : a < 256) (hb : b < 256) (hf : f < 65536)
    (hl : l < 65536) :
    put (put (put (put (put (put (memset0 8) 0 a) 1 b)
      2 (f &&& 0xff)) 3 (f >>> 8)) 4 (l &&& 0xff)) 5 (l >>> 8)
      = [a, b, f &&& 0xff, f >>> 8, l &&& 0xff, l >>> 8, 0, 0] := by
  have e : ∀ v : Nat, v &&& 0xff = v % 256 := fun v => Nat.and_pow_two_sub_one_eq_mod v 8
  have e2 : ∀ v : Nat, v >>> 8 = v / 2 ^ 8 := fun v => Nat.shiftRight_eq_div_pow v 8
  have h0 : a % 256 = a := Nat.mod_eq_of_lt ha
  have h1 : b % 256 = b := Nat.mod_eq_of_lt hb
  have h4 : f / 2 ^ 8 % 256 = f / 2 ^ 8 := by omega
  have h6 : l / 2 ^ 8 % 256 = l / 2 ^ 8 := by omega
  unfold put memset0
  simp only [e, e2, List.replicate_succ, List.replicate_zero, List.set_cons_zero,
    List.set_cons_succ, Nat.mod_mod, h0, h1, h4, h6]

/-- C33: `cmd_rttxdata1` is `cmd_radiotest` with test id 4. For all frequency
and level tokens, when the arguments left after the options are `freq level`
for `cmd_rttxdata1` and `freq level 4` for `cmd_radiotest`, the two commands
run from the same state make the same call with the same result: one write of
8 bytes on `CSR_VARID_RADIOTEST` of the frame
`[0x04, 0x00, freq lo, freq hi, level lo, level hi, 0, 0]`, whose 16-bit
little-endian fields at bytes 0-1, 2-3 and 4-5 are 4, the frequency and the
level. -/
theorem rttxdata1_is_radiotest {σ : Type} (E : Env σ) (transport : Nat)
    (argv1 argv2 : List CStr) (w : World σ) (freq level : CStr)
    (hlong : 2147483647 ≤ E.long_max)
    (h1 : argv1.drop (opt_help E argv1) = [freq, level])
    (h2 : argv2.drop (opt_help E argv2) = [freq, level, cstr "4"]) :
    cmd_rttxdata1 E transport argv1 w = cmd_radiotest E transport argv2 w ∧
    ∃ f l, f = to_u16 (atoi E.long_max freq) ∧
      l = (if strncasecmp level (cstr "0x") 2 = 0 then to_u16 (strtol E.long_max level 16)
        else to_u16 (atoi E.long_max level)) ∧
      cmd_radiotest E transport argv2 w =
        transport_write E transport Varid.RADIOTEST
          [0x04, 0x00, f &&& 0xff, f >>> 8, l &&& 0xff, l >>> 8, 0, 0] 8 w ∧
      get16 [0x04, 0x00, f &&& 0xff, f >>> 8, l &&& 0xff, l >>> 8, 0, 0] 0 = 4 ∧
      get16 [0x04, 0x00, f &&& 0xff, f >>> 8, l &&& 0xff, l >>> 8, 0, 0] 2 = f ∧
      get16 [0x04, 0x00, f &&& 0xff, f >>> 8, l &&& 0xff, l >>> 8, 0, 0] 4 = l := by
  have hf : to_u16 (atoi E.long_max freq) < 65536 := to_u16_lt _
  have hl : (if strncasecmp level (cstr "0x") 2 = 0 then to_u16 (strtol E.long_max level 16)
      else to_u16 (atoi E.long_max level)) < 65536 := ite_lt_of (to_u16_lt _) (to_u16_lt _)
  have hr1 : OPT_RANGE 2 2 [freq, level] = none := rfl
  have hr2 : OPT_RANGE 3 3 [freq, level, cstr "4"] = none := rfl
  have e1 : cmd_rttxdata1 E transport argv1 w =
      transport_write E transport Varid.RADIOTEST
        [0x04, 0x00, to_u16 (atoi E.long_max freq) &&& 0xff, to_u16 (atoi E.long_max freq) >>> 8,
          (if strncasecmp level (cstr "0x") 2 = 0 then to_u16 (strtol E.long_max level 16)
            else to_u16 (atoi E.long_max level)) &&& 0xff,
          (if strncasecmp level (cstr "0x") 2 = 0 then to_u16 (strtol E.long_max level 16)
            else to_u16 (atoi E.long_max level)) >>> 8, 0, 0] 8 w := by
    have hfr := radiotest_frame 0x04 0x00 _ _ (by decide) (by decide) hf hl
    unfold cmd_rttxdata1
    simp only [h1, hr1, List.getD_cons_zero, List.getD_cons_succ]
    rw [hfr]
  have e2 : cmd_radiotest E transport argv2 w =
      transport_write E transport Varid.RADIOTEST
        [0x04, 0x00, to_u16 (atoi E.long_max freq) &&& 0xff, to_u16 (atoi E.long_max freq) >>> 8,
          (if strncasecmp level (cstr "0x") 2 = 0 then to_u16 (strtol E.long_max level 16)
            else to_u16 (atoi E.long_max level)) &&& 0xff,
          (if strncasecmp level (cstr "0x") 2 = 0 then to_u16 (strtol E.long_max level 16)
            else to_u16 (atoi E.long_max level)) >>> 8, 0, 0] 8 w := by
    have hfr := radiotest_frame (4 &&& 0xff) (4 >>> 8) _ _ (by decide) (by decide) hf hl
    unfold cmd_radiotest
    simp only [h2, hr2, List.getD_cons_zero, List.getD_cons_succ, atoi_four E.long_max hlong]
    rw [hfr]
    rfl
  refine ⟨by rw [e1, e2], _, _, rfl, rfl, e2, ?_, ?_, ?_⟩
  · rfl
  · have ea := Nat.and_pow_two_sub_one_eq_mod (to_u16 (atoi E.long_max freq)) 8
    have eb := Nat.shiftRight_eq_div_pow (to_u16 (atoi E.long_max freq)) 8
    unfold get16
    simp only [List.getD_cons_zero, List.getD_cons_succ]
    rw [Nat.shiftLeft_eq]
    norm_num at ea eb ⊢
    omega
  · have ea := Nat.and_pow_two_sub_one_eq_mod
      (if strncasecmp level (cstr "0x") 2 = 0 then to_u16 (strtol E.long_max level 16)
        else to_u16 (atoi E.long_max level)) 8
    have eb := Nat.shiftRight_eq_div_pow
      (if strncasecmp level (cstr "0x") 2 = 0 then to_u16 (strtol E.long_max level 16)
        else to_u16 (atoi E.long_max level)) 8
    unfold get16
    simp only [List.getD_cons_zero, List.getD_cons_succ]
    rw [Nat.shiftLeft_eq]
    norm_num at ea eb ⊢
    omega

/-- C33, at a concrete input: `rttxdata1 2441 0x00ff` and
`radiotest 2441 0x00ff 4` over HCI write the same frame. -/
theorem rttxdata1_is_radiotest_witness :
    2147483647 ≤ (simEnv 1 []).long_max ∧
    cmd_rttxdata1 (simEnv 1 []) CSR_TRANSPORT_HCI
        [cstr "rttxdata1", cstr "2441", cstr "0x00ff"] (World.init [])
      = cmd_radiotest (simEnv 1 []) CSR_TRANSPORT_HCI
        [cstr "radiotest", cstr "2441", cstr "0x00ff", cstr "4"] (World.init []) ∧
    (cmd_rttxdata1 (simEnv 1 []) CSR_TRANSPORT_HCI
        [cstr "rttxdata1", cstr "2441", cstr "0x00ff"] (World.init [])).2.trace
      = [Event.write Varid.RADIOTEST [0x04, 0x00, 0x89, 0x09, 0xff, 0x00, 0, 0] 8] :=
  ⟨by decide,
    (rttxdata1_is_radiotest (simEnv 1 []) CSR_TRANSPORT_HCI
      [cstr "rttxdata1", cstr "2441", cstr "0x00ff"]
      [cstr "radiotest", cstr "2441", cstr "0x00ff", cstr "4"] (World.init [])
      (cstr "2441") (cstr "0x00ff") (by decide) rfl rfl).1,
    by decide⟩

/-! ## `cmd_singlechan` -/

theorem singlechan_frame (c : Nat) (hc : c ≤ 78) :
    put (put (memset0 8) 0 (c &&& 0xff)) 1 (c >>> 8) = [c, 0, 0, 0, 0, 0, 0, 0] := by
  have e : c &&& 0xff = c % 256 := Nat.and_pow_two_sub_one_eq_mod c 8
  have e2 : c >>> 8 = c / 2 ^ 8 := Nat.shiftRight_eq_div_pow c 8
  have h1 : c % 256 = c := by omega
  have h2 : c / 2 ^ 8 % 256 = 0 := by omega
  unfold put memset0
  simp only [e, e2, List.replicate_succ, List.replicate_zero, List.set_cons_zero,
    List.set_cons_succ, Nat.mod_mod, h1, h2]

/-- C32: `cmd_singlechan` never writes a channel index above 78. With one
argument left after the options and `c` its decimal value as `uint16_t`: for
`2402 <= c <= 2480` the command is the write of the 8-byte frame for
`c' = c - 2402`, for `c <= 78` the write of the frame for `c' = c`, where the
frame is `[c' & 0xff, c' >> 8, 0, 0, 0, 0, 0, 0] = [c', 0, 0, 0, 0, 0, 0, 0]`;
in every other case it returns -1 with `errno` EINVAL in the state it started
in. Every call it makes is a write of such a frame with `c' <= 78`. -/
theorem cmd_singlechan_range {σ : Type} (E : Env σ) (transport : Nat) (argv : List CStr)
    (w : World σ) (c : Nat)
    (hargs : OPT_RANGE 1 1 (argv.drop (opt_help E argv)) = none)
    (hc : to_u16 (atoi E.long_max ((argv.drop (opt_help E argv)).headD [])) = c) :
    (2402 ≤ c ∧ c ≤ 2480 →
      cmd_singlechan E transport argv w =
        transport_write E transport Varid.SINGLE_CHAN
          [(c - 2402) &&& 0xff, (c - 2402) >>> 8, 0, 0, 0, 0, 0, 0] 8 w) ∧
    (c ≤ 78 →
      cmd_singlechan E transport argv w =
        transport_write E transport Varid.SINGLE_CHAN
          [c &&& 0xff, c >>> 8, 0, 0, 0, 0, 0, 0] 8 w) ∧
    (¬ (2402 ≤ c ∧ c ≤ 2480) → ¬ c ≤ 78 →
      cmd_singlechan E transport argv w = (-1, { w with errno := EINVAL })) ∧
    (∀ e ∈ (cmd_singlechan E transport argv w).2.trace, e ∈ w.trace ∨
      ∃ c', c' ≤ 78 ∧ (c' = c ∨ c' + 2402 = c) ∧
        e = Event.write Varid.SINGLE_CHAN [c', 0, 0, 0, 0, 0, 0, 0] 8) := by
  have hband : 2402 ≤ c ∧ c ≤ 2480 →
      cmd_singlechan E transport argv w =
        transport_write E transport Varid.SINGLE_CHAN [c - 2402, 0, 0, 0, 0, 0, 0, 0] 8 w := by
    intro h
    have h1 : c > 2401 ∧ c < 2481 := by omega
    have h2 : (c - 2402) % 65536 = c - 2402 := by omega
    have h3 : ¬ c - 2402 > 78 := by omega
    unfold cmd_singlechan
    simp only [hargs, hc, if_pos h1, h2, if_neg h3, singlechan_frame (c - 2402) (by omega)]
  have hlow : c ≤ 78 →
      cmd_singlechan E transport argv w =
        transport_write E transport Varid.SINGLE_CHAN [c, 0, 0, 0, 0, 0, 0, 0] 8 w := by
    intro h
    have h1 : ¬ (c > 2401 ∧ c < 2481) := by omega
    have h3 : ¬ c > 78 := by omega
    unfold cmd_singlechan
    simp only [hargs, hc, if_neg h1, if_neg h3, singlechan_frame c h]
  have hbad : ¬ (2402 ≤ c ∧ c ≤ 2480) → ¬ c ≤ 78 →
      cmd_singlechan E transport argv w = (-1, { w with errno := EINVAL }) := by
    intro ha hb
    have h1 : ¬ (c > 2401 ∧ c < 2481) := by omega
    have h3 : c > 78 := by omega
    unfold cmd_singlechan
    simp only [hargs, hc, if_neg h1, if_pos h3]
  have hbytes : ∀ x, x ≤ 78 → [x &&& 0xff, x >>> 8, 0, 0, 0, 0, 0, 0]
      = [x, 0, 0, 0, 0, 0, 0, 0] := by
    intro x hx
    have e : x &&& 0xff = x % 256 := Nat.and_pow_two_sub_one_eq_mod x 8
    have e2 : x >>> 8 = x / 2 ^ 8 := Nat.shiftRight_eq_div_pow x 8
    rw [e, e2]
    have h1 : x % 256 = x := by omega
    have h2 : x / 2 ^ 8 = 0 := by omega
    rw [h1, h2]
  refine ⟨?_, ?_, hbad, ?_⟩
  · intro h
    rw [hband h, hbytes _ (by omega)]
  · intro h
    rw [hlow h, hbytes _ h]
  · by_cases ha : 2402 ≤ c ∧ c ≤ 2480
    · rw [hband ha]
      intro e he
      rcases mem_transport_write_trace _ _ _ _ _ _ e he with h | h
      · exact Or.inl h
      · exact Or.inr ⟨c - 2402, by omega, Or.inr (by omega), h⟩
    · by_cases hb : c ≤ 78
      · rw [hlow hb]
        intro e he
        rcases mem_transport_write_trace _ _ _ _ _ _ e he with h | h
        · exact Or.inl h
        · exact Or.inr ⟨c, hb, Or.inl rfl, h⟩
      · rw [hbad ha hb]
        intro e he
        exact Or.inl he

/-- C32, at a concrete input: `singlechan 2441` over HCI writes the frame for
channel index 39, and `singlechan 100` fails with EINVAL without a write. -/
theorem cmd_singlechan_range_witness :
    OPT_RANGE 1 1 ([cstr "singlechan", cstr "2441"].drop
      (opt_help (simEnv 1 []) [cstr "singlechan", cstr "2441"])) = none ∧
    cmd_singlechan (simEnv 1 []) CSR_TRANSPORT_HCI [cstr "singlechan", cstr "2441"]
        (World.init [])
      = transport_write (simEnv 1 []) CSR_TRANSPORT_HCI Varid.SINGLE_CHAN
        [(2441 - 2402) &&& 0xff, (2441 - 2402) >>> 8, 0, 0, 0, 0, 0, 0] 8 (World.init []) ∧
    (cmd_singlechan (simEnv 1 []) CSR_TRANSPORT_HCI [cstr "singlechan", cstr "2441"]
        (World.init [])).2.trace
      = [Event.write Varid.SINGLE_CHAN [39, 0, 0, 0, 0, 0, 0, 0] 8] ∧
    cmd_singlechan (simEnv 1 []) CSR_TRANSPORT_HCI [cstr "singlechan", cstr "100"]
        (World.init [])
      = (-1, { World.init [] with errno := EINVAL }) :=
  ⟨by decide,
    (cmd_singlechan_range (simEnv 1 []) CSR_TRANSPORT_HCI [cstr "singlechan", cstr "2441"]
      (World.init []) 2441 (by decide) (by decide)).1 (by decide),
    by decide, by rfl⟩

/-! ## `cmd_psset`: the lengths that can be written -/

theorem OPT_RANGE_none (min max : Nat) (argv : List CStr) (h : OPT_RANGE min max argv = none) :
    min ≤ argv.length ∧ argv.length ≤ max := by
  unfold OPT_RANGE at h
  split_ifs at h
  omega

theorem psset_payload_count (long_max length : Nat) (tokens : List CStr)
    (array frame : List Nat)
    (h : psset_payload long_max length tokens array = Except.ok frame) :
    tokens.length = psset_tokens length := by
  by_contra hne
  rw [psset_payload_error long_max length tokens array hne] at h
  cases h

theorem cmd_psset_events_args {σ : Type} (E : Env σ) (transport : Nat) (argv : List CStr)
    (w : World σ) (Q : Event → Prop) (hw : ∀ e ∈ w.trace, Q e)
    (hsize : ∀ pskey, Q (Event.read Varid.PS_SIZE
      (frame4 128 pskey (opt_pskey E argv CSR_STORES_PSRAM false).1) 8))
    (hwrite : ∀ pskey length tokens array, length + 6 ≤ 64 →
      1 ≤ tokens.length → tokens.length ≤ 80 →
      psset_payload E.long_max length tokens
        (frame6 128 pskey length (opt_pskey E argv CSR_STORES_PSRAM false).1)
        = Except.ok array →
      Q (Event.write Varid.PS array ((length + 3) * 2)))
    (hreset : Q (Event.write Varid.WARM_RESET [] 0)) :
    ∀ e ∈ (cmd_psset E transport argv w).2.trace, Q e := by
  unfold cmd_psset
  dsimp only
  split
  · exact hw
  · rename_i hrange
    obtain ⟨hmin, hmax⟩ := OPT_RANGE_none 2 81 _ hrange
    have htail : 1 ≤ (argv.drop (opt_pskey E argv CSR_STORES_PSRAM false).2.2).tail.length ∧
        (argv.drop (opt_pskey E argv CSR_STORES_PSRAM false).2.2).tail.length ≤ 80 := by
      rw [List.length_tail]
      omega
    split_ifs with c1 c2
    · exact inv_read _ _ _ _ _ _ Q hw (hsize _)
    · exact inv_read _ _ _ _ _ _ Q hw (hsize _)
    · split
      · exact inv_read _ _ _ _ _ _ Q hw (hsize _)
      · rename_i array hpay
        split_ifs
        · exact inv_write _ _ _ _ _ _ Q (inv_read _ _ _ _ _ _ Q hw (hsize _))
            (hwrite _ _ _ array (by omega) htail.1 htail.2 hpay)
        · exact inv_reset _ _ _ _ Q
            (inv_write _ _ _ _ _ _ Q (inv_read _ _ _ _ _ _ Q hw (hsize _))
              (hwrite _ _ _ array (by omega) htail.1 htail.2 hpay)) hreset

/-- C31: the lengths `cmd_psset` can write. For every argument list and every
backend, each PS write sent by `cmd_psset` has a length field between 1 and 40
words (at most 81 arguments are accepted, the key and 80 value tokens); when
the size query succeeds with a length of 0 words or of more than 40 words
(41..58, which pass the buffer check, included) `cmd_psset` returns a negative
value and the size query is the only call it has made. -/
theorem cmd_psset_length_range {σ : Type} (E : Env σ) (transport : Nat) (argv : List CStr)
    (w : World σ) :
    (∀ e ∈ (cmd_psset E transport argv w).2.trace, e ∈ w.trace ∨ ps_write_words 1 40 e) ∧
    (∀ pskey stores length (size_rsp : (Int × List Nat) × σ),
      transport_supported E.have_libusb transport = true →
      OPT_RANGE 2 81 (argv.drop (opt_pskey E argv CSR_STORES_PSRAM false).2.2) = none →
      resolve_pskey E.long_max E.pskey
        ((argv.drop (opt_pskey E argv CSR_STORES_PSRAM false).2.2).headD []) = pskey →
      (opt_pskey E argv CSR_STORES_PSRAM false).1 = stores →
      E.csr_read transport Varid.PS_SIZE (frame4 128 pskey stores) 8 w.chip = size_rsp →
      0 ≤ size_rsp.1.1 →
      byte size_rsp.1.2 2 + (byte size_rsp.1.2 3 <<< 8) = length →
      length = 0 ∨ 40 < length →
      (cmd_psset E transport argv w).1 < 0 ∧
      (cmd_psset E transport argv w).2.trace
        = w.trace ++ [Event.read Varid.PS_SIZE (frame4 128 pskey stores) 8]) := by
  constructor
  · refine cmd_psset_events_args E transport argv w _ (fun e he => Or.inl he) ?_ ?_
      (Or.inr trivial)
    · intro pskey
      exact Or.inr trivial
    · intro pskey length tokens array hfit hmin hmax hp
      have hg := get16_psset_payload _ _ _ _ _ _ (by omega) hp
      have hcount := psset_payload_count _ _ _ _ _ hp
      refine Or.inr ?_
      show 1 ≤ get16 array 2 ∧ get16 array 2 ≤ 40
      rw [hg]
      unfold psset_tokens at hcount
      split_ifs at hcount <;> omega
  · intro pskey stores length size_rsp hsup hargs hkey hstores hsize hsize_ok hlen hbad
    by_cases hfit : length + 6 ≤ 64
    · obtain ⟨hmin, hmax⟩ := OPT_RANGE_none 2 81 _ hargs
      have hne : (argv.drop (opt_pskey E argv CSR_STORES_PSRAM false).2.2).tail.length
          ≠ psset_tokens length := by
        rw [List.length_tail]
        unfold psset_tokens
        split_ifs <;> omega
      rw [cmd_psset_after_size E transport argv w pskey stores length size_rsp hsup hargs hkey
        hstores hsize hsize_ok hlen hfit, psset_payload_error _ _ _ _ hne]
      refine ⟨?_, rfl⟩
      show (-1 : Int) < 0
      omega
    · rw [cmd_psset_too_long E transport argv w pskey stores length size_rsp hsup hargs hkey
        hstores hsize hsize_ok hlen hfit]
      refine ⟨?_, rfl⟩
      show - ((5 : Nat) : Int) < 0
      omega

set_option maxRecDepth 100000 in
/-- C31, at a concrete input: `psset 0x1234` with 80 value tokens over HCI.
Against the responder that reports 41 words the command fails after the size
query; against the responder that reports 40 words it sends the PS write with
length field 40. -/
theorem cmd_psset_length_range_witness :
    ((cmd_psset (simEnv 41 []) CSR_TRANSPORT_HCI
        ([cstr "psset", cstr "0x1234"] ++ List.replicate 80 (cstr "1")) (World.init [])).1 < 0 ∧
      (cmd_psset (simEnv 41 []) CSR_TRANSPORT_HCI
        ([cstr "psset", cstr "0x1234"] ++ List.replicate 80 (cstr "1")) (World.init [])).2.trace
        = (World.init ([] : List Nat)).trace
          ++ [Event.read Varid.PS_SIZE (frame4 128 0x1234 CSR_STORES_PSRAM) 8]) ∧
    (∀ e ∈ (cmd_psset (simEnv 40 []) CSR_TRANSPORT_HCI
        ([cstr "psset", cstr "0x1234"] ++ List.replicate 80 (cstr "1")) (World.init [])).2.trace,
      e ∈ (World.init ([] : List Nat)).trace ∨ ps_write_words 1 40 e) ∧
    ((cmd_psset (simEnv 40 []) CSR_TRANSPORT_HCI
        ([cstr "psset", cstr "0x1234"] ++ List.replicate 80 (cstr "1"))
        (World.init [])).2.trace.map (fun e =>
      match e with
      | Event.write Varid.PS value size => (get16 value 2, size)
      | _ => (0, 0))) = [(0, 0), (40, 86)] :=
  ⟨(cmd_psset_length_range (simEnv 41 []) CSR_TRANSPORT_HCI
      ([cstr "psset", cstr "0x1234"] ++ List.replicate 80 (cstr "1")) (World.init [])).2
      0x1234 CSR_STORES_PSRAM 41 _ (by decide) (by decide) (by decide) (by decide) rfl
      (by decide) (by decide) (by decide),
    (cmd_psset_length_range (simEnv 40 []) CSR_TRANSPORT_HCI
      ([cstr "psset", cstr "0x1234"] ++ List.replicate 80 (cstr "1")) (World.init [])).1,
    by rfl⟩

/-! ## The traffic of `main` -/

theorem writes_append (a b : List Event) : writes (a ++ b) = writes a ++ writes b := by
  simp [writes, List.filter_append]

theorem writes_psset_writes (l : List (Nat × List Nat × Nat)) :
    writes (l.map psset_write) = l.map psset_write := by
  induction l with
  | nil => rfl
  | cons c rest ih =>
    rw [List.map_cons, show psset_write c :: rest.map psset_write
      = [psset_write c] ++ rest.map psset_write from rfl, writes_append, ih]
    rfl

theorem psset_trace {σ : Type} (E : Env σ) (transport : Nat) (c : Nat × List Nat × Nat)
    (w : World σ) (hsup : transport_supported E.have_libusb transport = true) :
    (psset E transport c.1 c.2.1 c.2.2 w).2.trace = w.trace ++ [psset_write c] := by
  unfold psset
  simp only [transport_write_supported _ _ _ _ _ _ hsup]
  rfl

theorem psload_default_trace {σ : Type} (E : Env σ) (transport : Nat)
    (hsup : transport_supported E.have_libusb transport = true) :
    ∀ (l : List (Nat × List Nat × Nat)) (w : World σ),
      (l.foldl (fun w1 c => (psset E transport c.1 c.2.1 c.2.2 w1).2) w).trace
        = w.trace ++ l.map psset_write := by
  intro l
  induction l with
  | nil => intro w; simp
  | cons c rest ih =>
    intro w
    rw [List.foldl_cons, ih, psset_trace E transport c w hsup]
    simp

theorem transport_open_ok_supported {σ : Type} (E : Env σ) (transport : Nat)
    (device : Option CStr) (w : World σ) (h : ¬ (transport_open E transport device w).1 < 0) :
    transport_supported E.have_libusb transport = true := by
  by_contra hs
  apply h
  unfold transport_open
  rw [if_neg hs]
  show (-1 : Int) < 0
  omega

theorem main_writes {σ : Type} (E : Env σ) (argv : List CStr) (w : World σ)
    (st : Nat × Option CStr)
    (hopt : main_options (E.getopt_long argv (cstr "+t:d:i:h")).1 (CSR_TRANSPORT_HCI, none)
      = some st)
    (harg : 1 ≤ (argv.drop (E.getopt_long argv (cstr "+t:d:i:h")).2).length) :
    (¬ (transport_open E st.1 st.2 w).1 < 0 →
      writes (main E argv w).2.trace = writes w.trace
        ++ psload_default_table.map psset_write ++ [Event.write Varid.WARM_RESET [] 0]) ∧
    ((transport_open E st.1 st.2 w).1 < 0 → writes (main E argv w).2.trace = writes w.trace) := by
  have h1 : ¬ (argv.drop (E.getopt_long argv (cstr "+t:d:i:h")).2).length < 1 := by omega
  constructor
  · intro hopen
    have hsup := transport_open_ok_supported E st.1 st.2 w hopen
    have htr : (transport_open E st.1 st.2 w).2.trace
        = w.trace ++ [Event.open_dev st.1 st.2] := by
      unfold transport_open
      rw [if_pos hsup]
    unfold main
    simp only [hopt]
    rw [if_neg h1, if_neg hopen]
    unfold psset_warmreset cmd_psload_default
    simp only [transport_write_supported _ _ _ _ _ _ hsup]
    have ho : writes [Event.open_dev st.1 st.2] = [] := rfl
    have hc : writes [Event.close_dev st.1] = [] := rfl
    have hr : writes [Event.write Varid.WARM_RESET [] 0]
        = [Event.write Varid.WARM_RESET [] 0] := rfl
    split_ifs
    · simp only [psload_default_trace E st.1 hsup, htr, writes_append, writes_psset_writes, ho,
        hr, List.append_nil]
    · unfold transport_close
      simp only [if_pos hsup, psload_default_trace E st.1 hsup, htr, writes_append,
        writes_psset_writes, ho, hc, hr, List.append_nil]
  · intro hopen
    have htr : writes (transport_open E st.1 st.2 w).2.trace = writes w.trace := by
      unfold transport_open
      split_ifs
      · simp only [writes_append]
        simp [writes]
      · rfl
    unfold main
    simp only [hopt]
    rw [if_neg h1, if_pos hopen]
    exact htr

theorem psset_write_shape (c : Nat × List Nat × Nat) (hc : c.2.2 ≤ 125) :
    stores_are 0x08 0x00 (psset_write c) ∧ ps_write_sized (psset_write c) := by
  constructor
  · obtain ⟨_, _, _, _, f4, f5⟩ := frame6_bytes 256 c.1 c.2.2 CSR_STORES_PSRAM (by omega)
    refine stores_are_write _ _ _ _ ?_ ?_
    · unfold psset_memcpy
      rw [psset_memcpy_low c.2.1 4 (by omega), f4]
      rfl
    · unfold psset_memcpy
      rw [psset_memcpy_low c.2.1 5 (by omega), f5]
      rfl
  · have hg := get16_psset_memcpy c.1 c.2.2 c.2.1 (by omega)
    show (c.2.2 * 2 + 6) % 65536 = 6 + 2 * get16 _ 2 ∧
      (c.2.2 * 2 + 6) % 65536 = (get16 _ 2 + 3) * 2
    rw [hg]
    omega

/-- C35: the traffic of `main` does not depend on the command. For two command
lines whose options select the same transport and that each leave at least one
argument after the options: when `transport_open` succeeds in both runs, the
write calls of the two runs are the same sequence, namely the nineteen PS
writes of `cmd_psload_default` followed by one warm-reset write, whatever the
arguments after the options are; when the options also select the same device
the two runs are equal altogether (exit status and state). Each of the
nineteen writes carries the store bytes 0x08, 0x00 and has frame size
6 + 2 × length. -/
theorem main_traffic_independent {σ : Type} (E : Env σ) (argv1 argv2 : List CStr)
    (w : World σ) (st1 st2 : Nat × Option CStr)
    (hopt1 : main_options (E.getopt_long argv1 (cstr "+t:d:i:h")).1 (CSR_TRANSPORT_HCI, none)
      = some st1)
    (hopt2 : main_options (E.getopt_long argv2 (cstr "+t:d:i:h")).1 (CSR_TRANSPORT_HCI, none)
      = some st2)
    (harg1 : 1 ≤ (argv1.drop (E.getopt_long argv1 (cstr "+t:d:i:h")).2).length)
    (harg2 : 1 ≤ (argv2.drop (E.getopt_long argv2 (cstr "+t:d:i:h")).2).length)
    (hsame : st1.1 = st2.1) :
    (¬ (transport_open E st1.1 st1.2 w).1 < 0 → ¬ (transport_open E st2.1 st2.2 w).1 < 0 →
      writes (main E argv1 w).2.trace = writes (main E argv2 w).2.trace ∧
      writes (main E argv1 w).2.trace = writes w.trace
        ++ psload_default_table.map psset_write ++ [Event.write Varid.WARM_RESET [] 0]) ∧
    (st1 = st2 → main E argv1 w = main E argv2 w) ∧
    psload_default_table.length = 19 ∧
    (∀ c ∈ psload_default_table,
      stores_are 0x08 0x00 (psset_write c) ∧ ps_write_sized (psset_write c)) := by
  refine ⟨?_, ?_, rfl, ?_⟩
  · intro ho1 ho2
    rw [(main_writes E argv1 w st1 hopt1 harg1).1 ho1,
      (main_writes E argv2 w st2 hopt2 harg2).1 ho2]
    exact ⟨rfl, rfl⟩
  · intro hst
    subst hst
    have h1 : ¬ (argv1.drop (E.getopt_long argv1 (cstr "+t:d:i:h")).2).length < 1 := by omega
    have h2 : ¬ (argv2.drop (E.getopt_long argv2 (cstr "+t:d:i:h")).2).length < 1 := by omega
    unfold main
    simp only [hopt1, hopt2]
    rw [if_neg h1, if_neg h2]
  · intro c hc
    have hsize : ∀ c ∈ psload_default_table, c.2.2 ≤ 125 := by decide
    exact psset_write_shape c (hsize c hc)

set_option maxRecDepth 100000 in
/-- C35, at a concrete input: `bccmd psget 0x1234` and `bccmd warmreset` over
HCI run the same twenty writes. -/
theorem main_traffic_independent_witness :
    writes (main (optEnv [] 1) [cstr "bccmd", cstr "psget", cstr "0x1234"]
        (World.init [])).2.trace
      = writes (main (optEnv [] 1) [cstr "bccmd", cstr "warmreset"] (World.init [])).2.trace ∧
    writes (main (optEnv [] 1) [cstr "bccmd", cstr "psget", cstr "0x1234"]
        (World.init [])).2.trace
      = writes (World.init ([] : List Int)).trace
        ++ psload_default_table.map psset_write ++ [Event.write Varid.WARM_RESET [] 0] :=
  (main_traffic_independent (optEnv [] 1) [cstr "bccmd", cstr "psget", cstr "0x1234"]
    [cstr "bccmd", cstr "warmreset"] (World.init []) (CSR_TRANSPORT_HCI, none)
    (CSR_TRANSPORT_HCI, none) rfl rfl (by decide) (by decide) rfl).1 (by decide) (by decide)

/-! # The interactive shell -/

theorem discoveries_append (a b : List Call) :
    discoveries (a ++ b) = discoveries a + discoveries b := by
  simp [discoveries, List.countP_append]

theorem connects_append (a b : List Call) : connects (a ++ b) = connects a + connects b := by
  simp [connects, List.countP_append]

theorem cmd_primary_calls (E : ShellEnv) (argvp : List CStr) (s : Shell)
    (h : s.conn_state ≠ state.STATE_CONNECTED) :
    (cmd_primary E argvp s).calls = s.calls := by
  unfold cmd_primary
  rw [if_pos h]

theorem cmd_char_calls (E : ShellEnv) (argvp : List CStr) (s : Shell)
    (h : s.conn_state ≠ state.STATE_CONNECTED) :
    (cmd_char E argvp s).calls = s.calls := by
  unfold cmd_char
  rw [if_pos h]

theorem cmd_char_desc_calls (E : ShellEnv) (argvp : List CStr) (s : Shell)
    (h : s.conn_state ≠ state.STATE_CONNECTED) :
    (cmd_char_desc E argvp s).calls = s.calls := by
  unfold cmd_char_desc
  rw [if_pos h]

theorem cmd_primary_state (E : ShellEnv) (argvp : List CStr) (s : Shell) :
    (cmd_primary E argvp s).conn_state = s.conn_state := by
  unfold cmd_primary
  split_ifs
  · rfl
  · rfl
  · split <;> rfl

theorem cmd_char_state (E : ShellEnv) (argvp : List CStr) (s : Shell) :
    (cmd_char E argvp s).conn_state = s.conn_state := by
  unfold cmd_char
  split_ifs
  · rfl
  · split <;> rfl

theorem cmd_char_desc_state (E : ShellEnv) (argvp : List CStr) (s : Shell) :
    (cmd_char_desc E argvp s).conn_state = s.conn_state := by
  unfold cmd_char_desc
  split_ifs
  · rfl
  · split <;> rfl

theorem cmd_connect_idle (E : ShellEnv) (argvp : List CStr) (s : Shell)
    (h : s.conn_state ≠ state.STATE_DISCONNECTED) : cmd_connect E argvp s = s := by
  unfold cmd_connect
  rw [if_pos h]

theorem cmd_disconnect_state (s : Shell) :
    (cmd_disconnect s).conn_state = state.STATE_DISCONNECTED := by
  unfold cmd_disconnect
  split_ifs with h
  · exact h
  · rfl

theorem cmd_connect_calls (E : ShellEnv) (argvp : List CStr) (s : Shell) :
    (cmd_connect E argvp s).calls = s.calls ∨
    ∃ dst, (cmd_connect E argvp s).calls = s.calls ++ [Call.gatt_connect dst] := by
  by_cases h1 : s.conn_state ≠ state.STATE_DISCONNECTED
  · rw [cmd_connect_idle E argvp s h1]
    exact Or.inl rfl
  · obtain ⟨s1, hs1def, hs1⟩ : ∃ s1 : Shell,
        s1 = (if argvp.length > 1 then { s with opt_dst := some (argvp.getD 1 []) } else s) ∧
        s1.calls = s.calls := ⟨_, rfl, by split_ifs <;> rfl⟩
    unfold cmd_connect
    rw [if_neg h1, ← hs1def]
    dsimp only
    cases s1.opt_dst with
    | none => exact Or.inl hs1
    | some dst =>
      right
      refine ⟨dst, ?_⟩
      dsimp only
      split_ifs
      · rw [← hs1]
        rfl
      · rw [← hs1]
        rfl

theorem cmd_connect_discoveries (E : ShellEnv) (argvp : List CStr) (s : Shell) :
    discoveries (cmd_connect E argvp s).calls = discoveries s.calls := by
  rcases cmd_connect_calls E argvp s with h | ⟨dst, h⟩
  · rw [h]
  · rw [h, discoveries_append]
    rfl

theorem step_discoveries (E : ShellEnv) (s : Shell) (t : Step)
    (h : discoveries (step E s t).calls ≠ discoveries s.calls) :
    s.conn_state = state.STATE_CONNECTED := by
  by_contra hc
  apply h
  cases t with
  | cmd_connect argvp => exact cmd_connect_discoveries E argvp s
  | connect_cb err =>
    show discoveries (connect_cb E err s).calls = discoveries s.calls
    unfold connect_cb
    split_ifs
    · rfl
    · show discoveries (s.calls ++ [Call.g_attrib_new]) = discoveries s.calls
      rw [discoveries_append]
      rfl
  | cmd_disconnect =>
    show discoveries (cmd_disconnect s).calls = discoveries s.calls
    unfold cmd_disconnect
    split_ifs
    · rfl
    · show discoveries (s.calls ++ [Call.g_attrib_unref, Call.g_io_channel_shutdown])
        = discoveries s.calls
      rw [discoveries_append]
      rfl
  | cmd_primary argvp =>
    show discoveries (cmd_primary E argvp s).calls = discoveries s.calls
    rw [cmd_primary_calls E argvp s hc]
  | cmd_char argvp =>
    show discoveries (cmd_char E argvp s).calls = discoveries s.calls
    rw [cmd_char_calls E argvp s hc]
  | cmd_char_desc argvp =>
    show discoveries (cmd_char_desc E argvp s).calls = discoveries s.calls
    rw [cmd_char_desc_calls E argvp s hc]

theorem run_discoveries (E : ShellEnv) :
    ∀ (steps : List Step) (s : Shell),
      discoveries (run E steps s).calls ≠ discoveries s.calls →
      ∃ k, k < steps.length ∧ (run E (steps.take k) s).conn_state = state.STATE_CONNECTED := by
  intro steps
  induction steps with
  | nil =>
    intro s h
    exact absurd rfl h
  | cons t rest ih =>
    intro s h
    by_cases h1 : discoveries (step E s t).calls = discoveries s.calls
    · have h2 : discoveries (run E rest (step E s t)).calls
          ≠ discoveries (step E s t).calls := by
        rw [h1]
        exact h
      obtain ⟨k, hk, hc⟩ := ih (step E s t) h2
      exact ⟨k + 1, by simp only [List.length_cons]; omega, hc⟩
    · exact ⟨0, by simp, step_discoveries E s t h1⟩

/-- C36: the connection state machine of the interactive shell. From every
state: `cmd_primary`, `cmd_char` and `cmd_char_desc` make no call at all
unless the state is `STATE_CONNECTED`, and they never change the state;
`cmd_connect` leaves everything as it is unless the state is
`STATE_DISCONNECTED`, so a connection attempt is made only from
`STATE_DISCONNECTED`; `cmd_disconnect` always ends in `STATE_DISCONNECTED`.
In every sequence of steps (the six commands and `connect_cb`) in which a
discovery request is issued, the state was `STATE_CONNECTED` before one of
the steps. -/
theorem shell_state_machine (E : ShellEnv) (s : Shell) :
    (∀ argvp, s.conn_state ≠ state.STATE_CONNECTED →
      (cmd_primary E argvp s).calls = s.calls ∧ (cmd_char E argvp s).calls = s.calls ∧
      (cmd_char_desc E argvp s).calls = s.calls) ∧
    (∀ argvp, (cmd_primary E argvp s).conn_state = s.conn_state ∧
      (cmd_char E argvp s).conn_state = s.conn_state ∧
      (cmd_char_desc E argvp s).conn_state = s.conn_state) ∧
    (∀ argvp, s.conn_state ≠ state.STATE_DISCONNECTED → cmd_connect E argvp s = s) ∧
    (∀ argvp, connects (cmd_connect E argvp s).calls ≠ connects s.calls →
      s.conn_state = state.STATE_DISCONNECTED) ∧
    (cmd_disconnect s).conn_state = state.STATE_DISCONNECTED ∧
    (∀ t, discoveries (step E s t).calls ≠ discoveries s.calls →
      s.conn_state = state.STATE_CONNECTED) ∧
    (∀ steps, discoveries (run E steps s).calls ≠ discoveries s.calls →
      ∃ k, k < steps.length ∧
        (run E (steps.take k) s).conn_state = state.STATE_CONNECTED) := by
  refine ⟨?_, ?_, ?_, ?_, cmd_disconnect_state s, ?_, ?_⟩
  · intro argvp h
    exact ⟨cmd_primary_calls E argvp s h, cmd_char_calls E argvp s h,
      cmd_char_desc_calls E argvp s h⟩
  · intro argvp
    exact ⟨cmd_primary_state E argvp s, cmd_char_state E argvp s, cmd_char_desc_state E argvp s⟩
  · intro argvp h
    exact cmd_connect_idle E argvp s h
  · intro argvp h
    by_contra hc
    apply h
    rw [cmd_connect_idle E argvp s hc]
  · intro t h
    exact step_discoveries E s t h
  · intro steps h
    exact run_discoveries E steps s h

/-- C36, at a concrete input: from the initial shell, `primary` before the
connection makes no call; after `connect` and a successful `connect_cb`,
`primary` and `characteristics` issue their requests; after `disconnect` the
state is `STATE_DISCONNECTED` and `char-desc` makes no call. -/
theorem shell_state_machine_witness :
    ((cmd_primary shellEnv [cstr "primary"] (Shell.init (some (cstr "00:11:22:33:44:55")) 0)).calls
        = (Shell.init (some (cstr "00:11:22:33:44:55")) 0).calls ∧
      (cmd_char shellEnv [cstr "primary"] (Shell.init (some (cstr "00:11:22:33:44:55")) 0)).calls
        = (Shell.init (some (cstr "00:11:22:33:44:55")) 0).calls ∧
      (cmd_char_desc shellEnv [cstr "primary"]
        (Shell.init (some (cstr "00:11:22:33:44:55")) 0)).calls
        = (Shell.init (some (cstr "00:11:22:33:44:55")) 0).calls) ∧
    (run shellEnv
      [Step.cmd_primary [cstr "primary"], Step.cmd_connect [cstr "connect"],
        Step.cmd_connect [cstr "connect"], Step.cmd_primary [cstr "primary"],
        Step.connect_cb false, Step.cmd_primary [cstr "primary"],
        Step.cmd_char [cstr "characteristics", cstr "10", cstr "1f"], Step.cmd_disconnect,
        Step.cmd_char_desc [cstr "char-desc"]]
      (Shell.init (some (cstr "00:11:22:33:44:55")) 0)).calls
      = [Call.gatt_connect (cstr "00:11:22:33:44:55"), Call.g_attrib_new,
          Call.gatt_discover_primary none, Call.gatt_discover_char 0x10 0x1f,
          Call.g_attrib_unref, Call.g_io_channel_shutdown] ∧
    (run shellEnv
      [Step.cmd_primary [cstr "primary"], Step.cmd_connect [cstr "connect"],
        Step.cmd_connect [cstr "connect"], Step.cmd_primary [cstr "primary"],
        Step.connect_cb false, Step.cmd_primary [cstr "primary"],
        Step.cmd_char [cstr "characteristics", cstr "10", cstr "1f"], Step.cmd_disconnect,
        Step.cmd_char_desc [cstr "char-desc"]]
      (Shell.init (some (cstr "00:11:22:33:44:55")) 0)).conn_state
      = state.STATE_DISCONNECTED :=
  ⟨(shell_state_machine shellEnv (Shell.init (some (cstr "00:11:22:33:44:55")) 0)).1
      [cstr "primary"] (by decide),
    by decide, by decide⟩

/-! ## The 8-byte requests of the commands -/

/-- C25: the size-query, enumerate-next and clear-stores requests. For every
16-bit key and store mask the buffer the commands build starts with the 8
bytes `[key & 0xff, key >> 8, stores & 0xff, stores >> 8, 0, 0, 0, 0]`, and
bytes 0-1 and 2-3 read as little-endian 16-bit fields give back the key and
the mask. In `cmd_psget`, `cmd_psset` and `cmd_psclr` every such request is
that frame for the key resolved from the argument and the store mask of the
command, passed with length 8. In `cmd_pslist` and `cmd_psread` every such
request is that frame for a 16-bit key and the store mask of the command;
against a backend that answers the next keys `k1, ..., kn` and then 0x0000
the requests are exactly: enumerate-next for 0x0000, then for each key its
size query and the enumerate-next request carrying it. In an iteration the
next key is the little-endian value of bytes 4-5 of the enumerate-next
response and the length is the little-endian value of bytes 2-3 of the
size-query response. -/
theorem request_frames {σ : Type} (E : Env σ) (transport : Nat) (argv : List CStr)
    (w : World σ) :
    (∀ n key stores, 8 ≤ n → key < 65536 → stores < 65536 →
      (frame4 n key stores).take 8
        = [key &&& 0xff, key >>> 8, stores &&& 0xff, stores >>> 8, 0, 0, 0, 0] ∧
      get16 (frame4 n key stores) 0 = key ∧ get16 (frame4 n key stores) 2 = stores) ∧
    (resolve_pskey E.long_max E.pskey
        ((argv.drop (opt_pskey E argv CSR_STORES_DEFAULT false).2.2).headD []) < 65536 ∧
      (opt_pskey E argv CSR_STORES_DEFAULT false).1 < 65536 ∧
      ∀ e ∈ (cmd_psget E transport argv w).2.trace, e ∈ w.trace ∨
        request8 (resolve_pskey E.long_max E.pskey
            ((argv.drop (opt_pskey E argv CSR_STORES_DEFAULT false).2.2).headD []))
          (opt_pskey E argv CSR_STORES_DEFAULT false).1 e) ∧
    (resolve_pskey E.long_max E.pskey
        ((argv.drop (opt_pskey E argv CSR_STORES_PSRAM false).2.2).headD []) < 65536 ∧
      (opt_pskey E argv CSR_STORES_PSRAM false).1 < 65536 ∧
      (∀ e ∈ (cmd_psset E transport argv w).2.trace, e ∈ w.trace ∨
        request8 (resolve_pskey E.long_max E.pskey
            ((argv.drop (opt_pskey E argv CSR_STORES_PSRAM false).2.2).headD []))
          (opt_pskey E argv CSR_STORES_PSRAM false).1 e) ∧
      ∀ e ∈ (cmd_psclr E transport argv w).2.trace, e ∈ w.trace ∨
        request8 (resolve_pskey E.long_max E.pskey
            ((argv.drop (opt_pskey E argv CSR_STORES_PSRAM false).2.2).headD []))
          (opt_pskey E argv CSR_STORES_PSRAM false).1 e) ∧
    (∀ fuel r, cmd_pslist E fuel transport argv w = some r →
      ∀ e ∈ r.2.trace, e ∈ w.trace ∨
        ∃ k, k < 65536 ∧ request8 k (opt_pskey E argv CSR_STORES_DEFAULT false).1 e) ∧
    (∀ fuel r, cmd_psread E fuel transport argv w = some r →
      ∀ e ∈ r.2.trace, e ∈ w.trace ∨
        ∃ k, k < 65536 ∧ request8 k (opt_pskey E argv CSR_STORES_DEFAULT false).1 e) ∧
    (∀ (script : σ → List Nat) (ks : List Nat),
      transport_supported E.have_libusb transport = true → Enumerates E script →
      OPT_RANGE 0 0 (argv.drop (opt_pskey E argv CSR_STORES_DEFAULT false).2.2) = none →
      (∀ k ∈ ks, k ≠ 0) → script w.chip = ks ++ [0] →
      (∃ w1 new, cmd_pslist E (ks.length + 1) transport argv w = some (0, w1) ∧
        w1.trace = w.trace ++ new ∧
        enum_requests new
          = enum_expected 8 (opt_pskey E argv CSR_STORES_DEFAULT false).1 0x0000 ks) ∧
      (∃ w1 new, cmd_psread E (ks.length + 1) transport argv w = some (0, w1) ∧
        w1.trace = w.trace ++ new ∧
        enum_requests new
          = enum_expected 256 (opt_pskey E argv CSR_STORES_DEFAULT false).1 0x0000 ks)) ∧
    (∀ stores fuel prev (next_rsp size_rsp : (Int × List Nat) × σ) pskey length,
      transport_supported E.have_libusb transport = true →
      E.csr_read transport Varid.PS_NEXT (frame4 8 prev stores) 8 w.chip = next_rsp →
      0 ≤ next_rsp.1.1 →
      byte next_rsp.1.2 4 + (byte next_rsp.1.2 5 <<< 8) = pskey →
      pskey ≠ 0 →
      E.csr_read transport Varid.PS_SIZE (frame4 8 pskey stores) 8 next_rsp.2 = size_rsp →
      0 ≤ size_rsp.1.1 →
      byte size_rsp.1.2 2 + (byte size_rsp.1.2 3 <<< 8) = length →
      pslist_loop E transport stores (fuel + 1) prev w =
        pslist_loop E transport stores fuel pskey
          { chip := size_rsp.2, errno := w.errno,
            trace := w.trace ++ [Event.read Varid.PS_NEXT (frame4 8 prev stores) 8,
              Event.read Varid.PS_SIZE (frame4 8 pskey stores) 8],
            out := w.out ++ [Line.pslist pskey (length * 2)] }) ∧
    (∀ stores fuel prev (next_rsp size_rsp : (Int × List Nat) × σ) pskey length,
      transport_supported E.have_libusb transport = true →
      E.csr_read transport Varid.PS_NEXT (frame4 256 prev stores) 8 w.chip = next_rsp →
      0 ≤ next_rsp.1.1 →
      byte next_rsp.1.2 4 + (byte next_rsp.1.2 5 <<< 8) = pskey →
      pskey ≠ 0 →
      E.csr_read transport Varid.PS_SIZE (frame4 256 pskey stores) 8 next_rsp.2 = size_rsp →
      0 ≤ size_rsp.1.1 →
      byte size_rsp.1.2 2 + (byte size_rsp.1.2 3 <<< 8) = length →
      ∃ w2 rest, psread_loop E transport stores (fuel + 1) prev w
          = psread_loop E transport stores fuel pskey w2 ∧
        w2.trace = w.trace ++ [Event.read Varid.PS_NEXT (frame4 256 prev stores) 8,
          Event.read Varid.PS_SIZE (frame4 256 pskey stores) 8] ++ rest ∧
        (122 < length → rest = []) ∧
        (length ≤ 122 → rest
          = [Event.read Varid.PS (frame6 256 pskey length stores) ((length + 3) * 2)])) := by
  have hkd := resolve_pskey_lt E.long_max E.pskey
    ((argv.drop (opt_pskey E argv CSR_STORES_DEFAULT false).2.2).headD [])
  have hkr := resolve_pskey_lt E.long_max E.pskey
    ((argv.drop (opt_pskey E argv CSR_STORES_PSRAM false).2.2).headD [])
  have hsd : (opt_pskey E argv CSR_STORES_DEFAULT false).1 < 65536 :=
    opt_pskey_lt E argv _ _ (by decide)
  have hsr : (opt_pskey E argv CSR_STORES_PSRAM false).1 < 65536 :=
    opt_pskey_lt E argv _ _ (by decide)
  refine ⟨?_, ⟨hkd, hsd, ?_⟩, ⟨hkr, hsr, ?_, ?_⟩, ?_, ?_, ?_, ?_, ?_⟩
  · intro n key stores hn hk hs
    refine ⟨frame4_take8 n key stores hn hk hs, get16_frame4_key n key stores (by omega) hk, ?_⟩
    obtain ⟨_, _, f2, f3⟩ := frame4_bytes n key stores (by omega)
    exact get16_of_bytes _ 2 _ hs f2 f3
  · refine cmd_psget_events_key E transport argv w _ (fun e he => Or.inl he) ?_ ?_
      (Or.inr trivial)
    · exact Or.inr (is_request8_frame4 128 _ _ (by omega) hkd hsd)
    · intro pskey length
      exact Or.inr trivial
  · refine cmd_psset_events_key E transport argv w _ (fun e he => Or.inl he) ?_ ?_
      (Or.inr trivial)
    · exact Or.inr (is_request8_frame4 128 _ _ (by omega) hkr hsr)
    · intro array size
      exact Or.inr trivial
  · refine cmd_psclr_events_key E transport argv w _ (fun e he => Or.inl he) ?_
      (Or.inr trivial)
    exact Or.inr (is_request8_frame4 8 _ _ (by omega) hkr hsr)
  · intro fuel r hr
    refine cmd_pslist_events E transport argv w
      (fun e => e ∈ w.trace ∨
        ∃ k, k < 65536 ∧ request8 k (opt_pskey E argv CSR_STORES_DEFAULT false).1 e)
      (fun e he => Or.inl he) ?_ ?_ (Or.inr ⟨0, by decide, trivial⟩) fuel r hr
    · intro k
      exact Or.inr ⟨k % 65536, Nat.mod_lt _ (by decide),
        is_request8_frame4_mod 8 k _ (by omega) hsd⟩
    · intro k
      exact Or.inr ⟨k % 65536, Nat.mod_lt _ (by decide),
        is_request8_frame4_mod 8 k _ (by omega) hsd⟩
  · intro fuel r hr
    refine cmd_psread_events E transport argv w
      (fun e => e ∈ w.trace ∨
        ∃ k, k < 65536 ∧ request8 k (opt_pskey E argv CSR_STORES_DEFAULT false).1 e)
      (fun e he => Or.inl he) ?_ ?_ ?_ (Or.inr ⟨0, by decide, trivial⟩) fuel r hr
    · intro k
      exact Or.inr ⟨k % 65536, Nat.mod_lt _ (by decide),
        is_request8_frame4_mod 256 k _ (by omega) hsd⟩
    · intro k
      exact Or.inr ⟨k % 65536, Nat.mod_lt _ (by decide),
        is_request8_frame4_mod 256 k _ (by omega) hsd⟩
    · intro k length _
      exact Or.inr ⟨0, by decide, trivial⟩
  · intro script ks hsup hE hargs hks hscript
    constructor
    · obtain ⟨w0, e1, e2⟩ := pslist_loop_requests E transport
        (opt_pskey E argv CSR_STORES_DEFAULT false).1 script hsup hE ks 0 w hks hscript
      refine ⟨reset_write E transport (opt_pskey E argv CSR_STORES_DEFAULT false).2.1 w0,
        enum_expected 8 (opt_pskey E argv CSR_STORES_DEFAULT false).1 0 ks
          ++ (if ((opt_pskey E argv CSR_STORES_DEFAULT false).2.1
              && transport_supported E.have_libusb transport) = true
            then [Event.write Varid.WARM_RESET [] 0] else []), ?_, ?_, ?_⟩
      · unfold cmd_pslist
        simp only [hargs, e1]
      · rw [reset_write_trace_bool, e2, List.append_assoc]
      · rw [enum_requests_append, enum_requests_reset, enum_requests_expected,
          List.append_nil]
    · obtain ⟨w0, new, e1, e2, e3⟩ := psread_loop_requests E transport
        (opt_pskey E argv CSR_STORES_DEFAULT false).1 script hsup hE ks 0 w hks hscript
      refine ⟨reset_write E transport (opt_pskey E argv CSR_STORES_DEFAULT false).2.1 w0,
        new ++ (if ((opt_pskey E argv CSR_STORES_DEFAULT false).2.1
              && transport_supported E.have_libusb transport) = true
            then [Event.write Varid.WARM_RESET [] 0] else []), ?_, ?_, ?_⟩
      · unfold cmd_psread
        simp only [hargs, e1]
      · rw [reset_write_trace_bool, e2, List.append_assoc]
      · rw [enum_requests_append, enum_requests_reset, e3, List.append_nil]
  · intro stores fuel prev next_rsp size_rsp pskey length hsup hnext hnext_ok hkey hkey0 hsize
      hsize_ok hlen
    exact pslist_loop_step E transport stores fuel prev w next_rsp size_rsp pskey length hsup
      hnext hnext_ok hkey hkey0 hsize hsize_ok hlen
  · intro stores fuel prev next_rsp size_rsp pskey length hsup hnext hnext_ok hkey hkey0 hsize
      hsize_ok hlen
    obtain ⟨hskip, hgo⟩ := psread_loop_step E transport stores fuel prev w next_rsp size_rsp
      pskey length hsup hnext hnext_ok hkey hkey0 hsize hsize_ok hlen
    by_cases hbig : 122 < length
    · refine ⟨_, [], hskip hbig, by simp, fun _ => rfl, fun h => ?_⟩
      omega
    · refine ⟨_, [Event.read Varid.PS (frame6 256 pskey length stores) ((length + 3) * 2)],
        hgo (by omega), by simp, fun h => absurd h hbig, fun _ => rfl⟩

set_option maxRecDepth 100000 in
/-- C25, at a concrete input: the frame for key 0x1234 and store mask 0x0003,
the requests of `psclr 0x1234` and `psget 0x1234`, and `pslist` and `psread`
against the simulated responder that answers key 0x0005 and then 0x0000. -/
theorem request_frames_witness :
    ((frame4 128 0x1234 0x0003).take 8 = [0x34, 0x12, 0x03, 0x00, 0, 0, 0, 0] ∧
      get16 (frame4 128 0x1234 0x0003) 0 = 0x1234 ∧
      get16 (frame4 128 0x1234 0x0003) 2 = 0x0003) ∧
    (∀ e ∈ (cmd_psclr (simEnv 7 []) CSR_TRANSPORT_HCI [cstr "psclr", cstr "0x1234"]
        (World.init [5, 0])).2.trace,
      e ∈ (World.init ([5, 0] : List Nat)).trace ∨ request8 0x1234 CSR_STORES_PSRAM e) ∧
    (∀ e ∈ (cmd_psget (simEnv 7 []) CSR_TRANSPORT_HCI [cstr "psget", cstr "0x1234"]
        (World.init [5, 0])).2.trace,
      e ∈ (World.init ([5, 0] : List Nat)).trace ∨ request8 0x1234 CSR_STORES_DEFAULT e) ∧
    ((∃ w1 new, cmd_pslist (simEnv 7 []) 2 CSR_TRANSPORT_HCI [cstr "pslist"]
          (World.init [5, 0]) = some (0, w1) ∧
        w1.trace = (World.init ([5, 0] : List Nat)).trace ++ new ∧
        enum_requests new = enum_expected 8 CSR_STORES_DEFAULT 0x0000 [5]) ∧
      (∃ w1 new, cmd_psread (simEnv 7 []) 2 CSR_TRANSPORT_HCI [cstr "psread"]
          (World.init [5, 0]) = some (0, w1) ∧
        w1.trace = (World.init ([5, 0] : List Nat)).trace ++ new ∧
        enum_requests new = enum_expected 256 CSR_STORES_DEFAULT 0x0000 [5])) ∧
    (cmd_psclr (simEnv 7 []) CSR_TRANSPORT_HCI [cstr "psclr", cstr "0x1234"]
        (World.init [5, 0])).2.trace
      = [Event.write Varid.PS_CLR_STORES (frame4 8 0x1234 CSR_STORES_PSRAM) 8] ∧
    (cmd_pslist (simEnv 7 []) 2 CSR_TRANSPORT_HCI [cstr "pslist"]
        (World.init [5, 0])).map (fun r => (r.2.trace, r.2.out))
      = some ([Event.read Varid.PS_NEXT (frame4 8 0 CSR_STORES_DEFAULT) 8,
          Event.read Varid.PS_SIZE (frame4 8 5 CSR_STORES_DEFAULT) 8,
          Event.read Varid.PS_NEXT (frame4 8 5 CSR_STORES_DEFAULT) 8],
        [Line.pslist 5 14]) :=
  ⟨(request_frames (simEnv 7 []) CSR_TRANSPORT_HCI [cstr "psclr", cstr "0x1234"]
      (World.init [5, 0])).1 128 0x1234 0x0003 (by decide) (by decide) (by decide),
    (request_frames (simEnv 7 []) CSR_TRANSPORT_HCI [cstr "psclr", cstr "0x1234"]
      (World.init [5, 0])).2.2.1.2.2.2,
    (request_frames (simEnv 7 []) CSR_TRANSPORT_HCI [cstr "psget", cstr "0x1234"]
      (World.init [5, 0])).2.1.2.2,
    ⟨((request_frames (simEnv 7 []) CSR_TRANSPORT_HCI [cstr "pslist"]
        (World.init [5, 0])).2.2.2.2.2.1 (fun s => s.map (fun k => k % 65536)) [5]
        (by rfl) (simEnv_enumerates 7 []) (by rfl) (by decide) (by rfl)).1,
      ((request_frames (simEnv 7 []) CSR_TRANSPORT_HCI [cstr "psread"]
        (World.init [5, 0])).2.2.2.2.2.1 (fun s => s.map (fun k => k % 65536)) [5]
        (by rfl) (simEnv_enumerates 7 []) (by rfl) (by decide) (by rfl)).2⟩,
    by rfl, by rfl⟩
end Bccmd
